import Mathlib

/-!
# Background download manager (ApplePlatformBackgroundHttpManager.cpp)

A shallow embedding of `FApplePlatformBackgroundHttpManager`: the URL routing
table, request registration and removal, the retry policy, the callbacks of the
session (error, finished download, progress), request finalisation, the three
phases of the tick and the transitions between foreground and background.

Conventions of the embedding

* A request object is a record in a heap indexed by `RequestId`; a shared
  pointer is an identifier that is present in the heap, a weak pointer is an
  optional identifier that may have left the heap (expired).
* Calls that leave the manager (the completion delegate of a request, the
  OS download-task provider) are recorded, in order, in `Manager.Effects`.
  Logging (`UE_LOG`) and the diagnostics of `ensure` are not recorded; the
  progress callback returns whether its `ensure` was reached.
* Locks and atomics are not modelled: every operation is one atomic step.
  A completion handler given to the session is a step of its own: the call
  that hands it over counts it in a `Queued...` field, and the handler, run
  later on the tasks the session then reports, takes it off again.
* `NumCurrentlyActiveTasks` and `NumCurrentlyActiveRequests` are `int32` in the
  source; they are embedded as unbounded integers (their values stay far away
  from the 32-bit boundary). The resume-retry counter of a request is an
  `FThreadSafeCounter`, a signed 32-bit integer the manager increments and
  resets: it is an integer whose increment wraps around from `2^31 - 1` to
  `-2^31`. The URL-retry counter lives behind `GetURLForRetry` of the request
  class; it starts at 0 and is only incremented, and is a natural number.
* The methods of the request class and of the base manager class are not part
  of the sources at hand; each is modelled from the design description and
  says so in its comment.
-/

namespace BackgroundHttp

/-! ## Data model -/

/-- Identity of a request object (the address held by a shared pointer). -/
abbrev RequestId := Nat

/-- Bytes of an `NSData` blob; `none` is the null pointer. -/
abbrev NSData := Option (List Nat)

/-- Weak pointer to a request (`FBackgroundHttpURLMappedRequestPtr`); `none` is null. -/
abbrev WeakPtr := Option RequestId

/-- The two values of `EHttpResponseCodes` used by the manager. -/
inductive EHttpResponseCodes where
  | Unknown
  | Created
deriving DecidableEq, Repr

/-- Result of `FPlatformBackgroundHttp::ConstructBackgroundResponse(code, path)`. -/
structure Response where
  ResponseCode : EHttpResponseCodes
  TempContentFilePath : String
deriving DecidableEq, Repr

/-- `NSURLSessionTaskState`. -/
inductive TaskState where
  | Running
  | Suspended
  | Canceling
  | Completed
deriving DecidableEq, Repr

/-- An `NSURLSessionTask`: identifier, URL of its current request, state. -/
structure Task where
  taskIdentifier : Nat
  URL : String
  state : TaskState
deriving DecidableEq, Repr

/-- An `NSError` as the manager reads it: the code and the resume data of `userInfo`. -/
structure NSError where
  code : Int
  ResumeData : NSData
deriving DecidableEq, Repr

/-- `NSURLErrorNotConnectedToInternet`. -/
def NSURLErrorNotConnectedToInternet : Int := -1009

/-- Fields of `FApplePlatformBackgroundHttpRequest` the manager reads or writes. -/
structure Request where
  URLList : List String
  RetryCount : Nat
  ResumeDataRetryCount : Int
  bIsCompleted : Bool
  bIsFailed : Bool
  bIsPendingCancel : Bool
  bHasAlreadyFinishedRequest : Bool
  bWasTaskStartedInBG : Bool
  CompletedTempDownloadLocation : String
  DownloadProgress : Int
  FirstTask : Option Task
deriving DecidableEq, Repr

/-- Calls that leave the manager, in the order they are made. -/
inductive Effect where
  | CompleteWithExistingResponseData (R : RequestId) (NewResponse : Response)
  | CancelActiveTask (R : RequestId)
  | AssociateWithTask (R : RequestId) (t : Task)
  | ActivateUnderlyingTask (R : RequestId)
  | downloadTaskWithResumeData (RetryData : List Nat)
  | downloadTaskWithURL (URL : String)
  | suspend (t : Task)
  | resume (t : Task)
  | SendDownloadProgressUpdate (R : RequestId)
  | TickTimeOutTimer (R : RequestId)
  | getAllTasksWithCompletionHandler
  | getTasksWithCompletionHandler
deriving DecidableEq, Repr

/-- What the manager consumes from outside: file system, configuration, the
OS download-task provider and the base-class registry of finished downloads. -/
structure Platform where
  /-- Answer of `IPlatformFile::FileExists`. -/
  FileExists : String → Bool
  /-- Value of `FPlatformBackgroundHttp::GetPlatformMaxActiveDownloads()`. -/
  GetPlatformMaxActiveDownloads : Int
  /-- Static setting `RetryResumeDataLimitSetting` (negative: no limit). -/
  RetryResumeDataLimitSetting : Int
  /-- Task returned by `downloadTaskWithResumeData:` (`none`: the provider returned nil). -/
  downloadTaskWithResumeData : List Nat → Option Task
  /-- Task returned by `downloadTaskWithURL:` (`none`: the provider returned nil). -/
  downloadTaskWithURL : String → Option Task
  /-- Response of an already finished download the base class would hand to
  the request in `AssociateWithAnyExistingRequest` (`none`: there is none). -/
  ExistingResponse : RequestId → Option Response

/-- The manager together with the request objects it can reach. -/
structure Manager where
  /-- Heap of live request objects. -/
  Requests : RequestId → Option Request
  /-- Routing table `URLToRequestMap`: absent key, or a (possibly null) weak pointer. -/
  URLToRequestMap : String → Option WeakPtr
  ActiveRequests : List RequestId
  RequestsPendingRemove : List RequestId
  /-- Dictionary `UnAssociatedTasks`, keyed by URL. -/
  UnAssociatedTasks : List (String × Task)
  NumCurrentlyActiveRequests : Int
  NumCurrentlyActiveTasks : Int
  bHasFinishedPopulatingUnassociatedTasks : Bool
  bIsInBackground : Bool
  bIsIteratingThroughSessionTasks : Bool
  Effects : List Effect
  /-- Completion handlers of `TickTasks` handed to the session and not yet run. -/
  QueuedTickTasks : Nat
  /-- Completion handlers of `PauseAllActiveTasks` handed to the session and not yet run. -/
  QueuedPauseAllActiveTasks : Nat
  /-- Completion handlers of `ResumeAllTasks` handed to the session and not yet run. -/
  QueuedResumeAllTasks : Nat

/-- State of the manager right after its constructor, over a given heap. -/
def Manager.init (Requests : RequestId → Option Request) : Manager :=
  { Requests := Requests
    URLToRequestMap := fun _ => none
    ActiveRequests := []
    RequestsPendingRemove := []
    UnAssociatedTasks := []
    NumCurrentlyActiveRequests := 0
    NumCurrentlyActiveTasks := 0
    bHasFinishedPopulatingUnassociatedTasks := false
    bIsInBackground := false
    bIsIteratingThroughSessionTasks := false
    Effects := []
    QueuedTickTasks := 0
    QueuedPauseAllActiveTasks := 0
    QueuedResumeAllTasks := 0 }

/-! ## Pointers and the routing table -/

/-- Test `TWeakPtr::IsValid()`: non-null and the object is still alive. -/
def IsValid (m : Manager) (w : WeakPtr) : Bool :=
  match w with
  | some Q => (m.Requests Q).isSome
  | none => false

/-- Result of `TWeakPtr::Pin()`: the live object a weak pointer refers to, if any. -/
def Pin (m : Manager) (w : WeakPtr) : Option RequestId :=
  if IsValid m w then w else none

/-- Lookup `TMap::Find` followed by `Pin`: the live request a URL routes to. -/
def FindRequest (m : Manager) (URL : String) : Option RequestId :=
  match m.URLToRequestMap URL with
  | some w => Pin m w
  | none => none

/-- Assignment through the reference returned by `FindOrAdd`, or plain insertion. -/
def mapSet (M : String → Option WeakPtr) (URL : String) (w : WeakPtr) :
    String → Option WeakPtr :=
  fun k => if k = URL then some w else M k

/-- Removal `TMap::Remove(URL)`. -/
def mapRemove (M : String → Option WeakPtr) (URL : String) : String → Option WeakPtr :=
  fun k => if k = URL then none else M k

/-- Lookup `TMap::FindOrAdd(URL)`: a missing key is added with a null weak pointer;
the value stored under the key is returned. -/
def FindOrAdd (M : String → Option WeakPtr) (URL : String) :
    (String → Option WeakPtr) × WeakPtr :=
  match M URL with
  | some w => (M, w)
  | none => (mapSet M URL none, none)

/-- URL list of a request (`Request->GetURLList()`); empty when the pointer is invalid. -/
def GetURLList (m : Manager) (R : RequestId) : List String :=
  match m.Requests R with
  | some r => r.URLList
  | none => []

/-- Record one outgoing call. -/
def emit (m : Manager) (e : Effect) : Manager :=
  { m with Effects := m.Effects ++ [e] }

/-- Modelled from the spec: `CompleteWithExistingResponseData` of the request
class (not in the sources at hand) delivers the response to the request's
completion path; it is recorded as an outgoing call. -/
def CompleteWithExistingResponseData (m : Manager) (R : RequestId) (NewResponse : Response) :
    Manager :=
  emit m (Effect.CompleteWithExistingResponseData R NewResponse)

/-! ## Registration in the routing table -/

/-- One round of the loop of `RemoveURLMapEntriesForRequest`. -/
def RemoveURLMapEntriesStep (R : RequestId) (m : Manager) (URL : String) : Manager :=
  let fa := FindOrAdd m.URLToRequestMap URL
  -- FoundRequest == Request compares the pinned weak pointer with the shared one
  if Pin m fa.2 = some R then
    { m with URLToRequestMap := mapRemove fa.1 URL }
  else
    { m with URLToRequestMap := fa.1 }

/-- Embedding of `RemoveURLMapEntriesForRequest`. -/
def RemoveURLMapEntriesForRequest (m : Manager) (R : RequestId) : Manager :=
  (GetURLList m R).foldl (RemoveURLMapEntriesStep R) m

/-- One round of the loop of `GenerateURLMapEntriesForRequest`; the flag is
`bWasGenerateSuccess`. -/
def GenerateURLMapEntriesStep (R : RequestId) (acc : Manager × Bool) (URL : String) :
    Manager × Bool :=
  let m := acc.1
  let fa := FindOrAdd m.URLToRequestMap URL
  let bRequestAlreadyExistsForURL := IsValid m fa.2 && decide (Pin m fa.2 ≠ some R)
  if !bRequestAlreadyExistsForURL then
    ({ m with URLToRequestMap := mapSet fa.1 URL (some R) }, acc.2)
  else
    (CompleteWithExistingResponseData { m with URLToRequestMap := fa.1 } R
        ⟨EHttpResponseCodes.Unknown, ""⟩, false)

/-- Embedding of `GenerateURLMapEntriesForRequest`; returns `bWasGenerateSuccess`. -/
def GenerateURLMapEntriesForRequest (m : Manager) (R : RequestId) : Manager × Bool :=
  let res := (GetURLList m R).foldl (GenerateURLMapEntriesStep R) (m, true)
  if !res.2 then
    (RemoveURLMapEntriesForRequest res.1 R, false)
  else
    (res.1, true)

/-! ## The request class, as far as the manager calls it -/

/-- Overwrite the record of a request object. -/
def setRequest (m : Manager) (R : RequestId) (r : Request) : Manager :=
  { m with Requests := fun Q => if Q = R then some r else m.Requests Q }

/-- State change of `[task suspend]`: a running task becomes suspended. -/
def Task.suspend (t : Task) : Task :=
  if t.state = TaskState.Running then { t with state := TaskState.Suspended } else t

/-- State change of `[task resume]`: a suspended task becomes running. -/
def Task.resume (t : Task) : Task :=
  if t.state = TaskState.Suspended then { t with state := TaskState.Running } else t

/-- State change of `[task cancel]`: a task that has not completed starts cancelling. -/
def Task.cancel (t : Task) : Task :=
  if t.state = TaskState.Completed then t else { t with state := TaskState.Canceling }

/-- Modelled from the spec: `AssociateWithTask` of the request class (not in the
sources at hand). The request assumes ownership of the task; the call reports
success. -/
def AssociateWithTask (m : Manager) (R : RequestId) (t : Task) : Manager × Bool :=
  match m.Requests R with
  | some r =>
    (emit (setRequest m R { r with FirstTask := some t }) (Effect.AssociateWithTask R t), true)
  | none => (m, false)

/-- Modelled from the spec: `ActivateUnderlyingTask` of the request class (not in
the sources at hand). The task owned by the request is activated. -/
def ActivateUnderlyingTask (m : Manager) (R : RequestId) : Manager :=
  match m.Requests R with
  | some r =>
    emit (setRequest m R { r with FirstTask := r.FirstTask.map Task.resume })
      (Effect.ActivateUnderlyingTask R)
  | none => m

/-- Modelled from the spec: `CancelActiveTask` of the request class (not in the
sources at hand). Cancellation of the owned task is requested from the provider
and the request is pending cancellation from then on; nothing else changes. -/
def CancelActiveTask (m : Manager) (R : RequestId) : Manager :=
  match m.Requests R with
  | some r =>
    emit (setRequest m R
        { r with bIsPendingCancel := true, FirstTask := r.FirstTask.map Task.cancel })
      (Effect.CancelActiveTask R)
  | none => m

/-- Modelled from the spec: `SetRequestAsFailed` of the request class (not in the
sources at hand). The request is marked failed. -/
def SetRequestAsFailed (m : Manager) (R : RequestId) : Manager :=
  match m.Requests R with
  | some r => setRequest m R { r with bIsFailed := true }
  | none => m

/-- Modelled from the spec: `GetURLForRetry` of the request class (not in the
sources at hand). The URL-retry counter is the cursor into the ordered list of
candidate URLs; it is incremented first when asked to, and the URL under the
cursor is returned, or the empty string when no further URL is available. -/
def GetURLForRetry (m : Manager) (R : RequestId) (bShouldIncrementRetryCountFirst : Bool) :
    Manager × String :=
  match m.Requests R with
  | some r =>
    let NewRetryCount := if bShouldIncrementRetryCountFirst then r.RetryCount + 1 else r.RetryCount
    (setRequest m R { r with RetryCount := NewRetryCount }, r.URLList.getD NewRetryCount "")
  | none => (m, "")

/-- Modelled from the spec: `AssociateWithAnyExistingRequest` of the base class
`FBackgroundHttpManagerImpl` (not in the sources at hand). By the comment in
`AddRequest` it either completes the request at once, with the response of an
already finished download, and returns true, or it returns false and changes
nothing. -/
def AssociateWithAnyExistingRequest (P : Platform) (m : Manager) (R : RequestId) :
    Manager × Bool :=
  match P.ExistingResponse R with
  | some ExistingResponse => (CompleteWithExistingResponseData m R ExistingResponse, true)
  | none => (m, false)

/-! ## Retry policy -/

/-- Embedding of `IsRetryDataValid`. -/
def IsRetryDataValid (RetryData : NSData) : Bool :=
  match RetryData with
  | some bytes => decide (bytes.length > 0)
  | none => false

/-- Value of a signed 32-bit integer after an arithmetic operation whose exact
result is `x`: the result wraps around modulo `2^32` into `-2^31 .. 2^31 - 1`. -/
def wrapInt32 (x : Int) : Int :=
  (x + 2147483648) % 4294967296 - 2147483648

/-- Embedding of `ShouldUseRequestRetryData`; the increment of the resume-retry
counter (`FThreadSafeCounter::Increment()`, an atomic increment of an `int32`
that returns the new value) is part of the returned state. -/
def ShouldUseRequestRetryData (P : Platform) (m : Manager) (R : RequestId) (RetryData : NSData) :
    Manager × Bool :=
  match m.Requests R with
  | some r =>
    if IsRetryDataValid RetryData then
      let CurrentResumeDataRetryCount := wrapInt32 (r.ResumeDataRetryCount + 1)
      (setRequest m R { r with ResumeDataRetryCount := CurrentResumeDataRetryCount },
        decide (P.RetryResumeDataLimitSetting < 0) ||
          decide (CurrentResumeDataRetryCount ≤ P.RetryResumeDataLimitSetting))
    else
      (m, false)
  | none => (m, false)

/-- First block of `RetryRequest`: the task created from the resume data, if the
resume path is taken and the provider returns one. -/
def RetryFromResumeData (P : Platform) (m : Manager) (R : RequestId) (RetryData : NSData) :
    Manager × Option Task :=
  let su := ShouldUseRequestRetryData P m R RetryData
  if su.2 then
    (emit su.1 (Effect.downloadTaskWithResumeData (RetryData.getD [])),
      P.downloadTaskWithResumeData (RetryData.getD []))
  else
    (su.1, none)

/-- Second block of `RetryRequest` (taken when `NewTask` is still null): reset
the resume-retry counter and try the next candidate URL. -/
def RetryFromNextURL (P : Platform) (m : Manager) (R : RequestId)
    (bShouldIncreaseRetryCount : Bool) : Manager × Option Task :=
  let m1 := match m.Requests R with
    | some r => setRequest m R { r with ResumeDataRetryCount := 0 }
    | none => m
  let g := GetURLForRetry m1 R bShouldIncreaseRetryCount
  let bShouldStartNewRequest := !decide (g.2 = "")
  if bShouldStartNewRequest then
    (emit g.1 (Effect.downloadTaskWithURL g.2), P.downloadTaskWithURL g.2)
  else
    (g.1, none)

/-- Last block of `RetryRequest`: hand the new task to the request, or mark the
request failed when there is none. -/
def RetryFinish (m : Manager) (R : RequestId) (bShouldStartImmediately : Bool)
    (NewTask : Option Task) : Manager :=
  match NewTask with
  | some t =>
    let m1 := (AssociateWithTask m R t).1
    let bCopyOfBGState := m1.bIsInBackground
    let m2 := if bCopyOfBGState || bShouldStartImmediately then ActivateUnderlyingTask m1 R else m1
    match m2.Requests R with
    | some r => setRequest m2 R { r with bWasTaskStartedInBG := bCopyOfBGState }
    | none => m2
  | none => SetRequestAsFailed m R

/-- Embedding of `RetryRequest` (the background session is taken to exist). -/
def RetryRequest (P : Platform) (m : Manager) (R : RequestId) (bShouldIncreaseRetryCount : Bool)
    (bShouldStartImmediately : Bool) (RetryData : NSData) : Manager :=
  match m.Requests R with
  | none => m
  | some _ =>
    let a := RetryFromResumeData P m R RetryData
    let b := match a.2 with
      | some t => (a.1, some t)
      | none => RetryFromNextURL P a.1 R bShouldIncreaseRetryCount
    RetryFinish b.1 R bShouldStartImmediately b.2

/-- The first two blocks of `RetryRequest` together: the state they leave and
the value of `NewTask` when the last block is reached. -/
def RetryNewTask (P : Platform) (m : Manager) (R : RequestId) (bShouldIncreaseRetryCount : Bool)
    (RetryData : NSData) : Manager × Option Task :=
  let a := RetryFromResumeData P m R RetryData
  match a.2 with
  | some t => (a.1, some t)
  | none => RetryFromNextURL P a.1 R bShouldIncreaseRetryCount

/-- Embedding of `StartRequest`. -/
def StartRequest (P : Platform) (m : Manager) (R : RequestId) : Manager :=
  RetryRequest P m R false false none

/-! ## Submission and removal -/

/-- Removal `[UnAssociatedTasks removeObjectForKey:]`. -/
def removeObjectForKey (D : List (String × Task)) (URL : String) : List (String × Task) :=
  D.filter (fun kv => kv.1 != URL)

/-- Loop of `CheckForExistingUnAssociatedTask` over the remaining URLs; the flag
is `bDidFindExistingTask`. -/
def CheckForExistingUnAssociatedTaskLoop (R : RequestId) : Manager → List String → Manager × Bool
  | m, [] => (m, false)
  | m, URL :: rest =>
    match m.UnAssociatedTasks.lookup URL with
    | some FoundTask =>
      let a := AssociateWithTask m R FoundTask
      if a.2 then
        let m1 := match a.1.Requests R with
          | some r =>
            setRequest a.1 R
              { r with bWasTaskStartedInBG := true, FirstTask := r.FirstTask.map Task.suspend }
          | none => a.1
        -- the task object is shared with the dictionary, which still holds it
        let m2 := { m1 with
          UnAssociatedTasks := m1.UnAssociatedTasks.map
            (fun kv => if kv.1 = URL then (kv.1, kv.2.suspend) else kv) }
        (emit m2 (Effect.suspend FoundTask), true)
      else
        CheckForExistingUnAssociatedTaskLoop R
          { a.1 with UnAssociatedTasks := removeObjectForKey a.1.UnAssociatedTasks URL } rest
    | none => CheckForExistingUnAssociatedTaskLoop R m rest

/-- Embedding of `CheckForExistingUnAssociatedTask`. -/
def CheckForExistingUnAssociatedTask (m : Manager) (R : RequestId) : Manager × Bool :=
  match m.Requests R with
  | some r => CheckForExistingUnAssociatedTaskLoop R m r.URLList
  | none => (m, false)

/-- Embedding of `AssociateWithAnyExistingUnAssociatedTasks`. -/
def AssociateWithAnyExistingUnAssociatedTasks (m : Manager) (R : RequestId) : Manager × Bool :=
  CheckForExistingUnAssociatedTask m R

/-- Last two statements of `AddRequest`: `ActiveRequests.Add(Request)` and
`++NumCurrentlyActiveRequests`. -/
def MakeActive (m : Manager) (R : RequestId) : Manager :=
  { m with
    ActiveRequests := m.ActiveRequests ++ [R]
    NumCurrentlyActiveRequests := m.NumCurrentlyActiveRequests + 1 }

/-- Embedding of `AddRequest`; a request that is not in the heap is an invalid pointer. -/
def AddRequest (P : Platform) (m : Manager) (R : RequestId) : Manager :=
  match m.Requests R with
  | none => m
  | some _ =>
    let g := GenerateURLMapEntriesForRequest m R
    if g.2 then
      let e := AssociateWithAnyExistingRequest P g.1 R
      if !e.2 then
        let u := AssociateWithAnyExistingUnAssociatedTasks e.1 R
        let m1 := if !u.2 then StartRequest P u.1 R else u.1
        MakeActive m1 R
      else e.1
    else g.1

/-- Embedding of `RemoveSessionTasksForRequest`. -/
def RemoveSessionTasksForRequest (m : Manager) (R : RequestId) : Manager :=
  CancelActiveTask (RemoveURLMapEntriesForRequest m R) R

/-- Embedding of `RemoveRequest`. -/
def RemoveRequest (m : Manager) (R : RequestId) : Manager :=
  let m1 := match m.Requests R with
    | some _ => RemoveSessionTasksForRequest m R
    | none => m
  { m1 with RequestsPendingRemove := m1.RequestsPendingRemove ++ [R] }

/-! ## Error callback and finalisation -/

/-- Embedding of `OnTask_DidCompleteWithError`; a null task or a null error is `none`. -/
def OnTask_DidCompleteWithError (P : Platform) (m : Manager) (Task : Option Task)
    (Error : Option NSError) : Manager :=
  match Task with
  | none => m
  | some task =>
    match Error with
    | none => m
    | some err =>
      let FoundRequest := FindRequest m task.URL
      let bShouldRetryIncreaseRetryCount := !decide (err.code = NSURLErrorNotConnectedToInternet)
      match FoundRequest with
      | some R => RetryRequest P m R bShouldRetryIncreaseRetryCount true err.ResumeData
      | none => m

/-- First statement of `FinishRequest`:
`InterlockedExchange(&bHasAlreadyFinishedRequest, true)`; the previous value of
the flag is returned (an invalid pointer reads as already finished). -/
def ExchangeHasAlreadyFinishedRequest (m : Manager) (R : RequestId) : Manager × Bool :=
  match m.Requests R with
  | some r =>
    (setRequest m R { r with bHasAlreadyFinishedRequest := true }, r.bHasAlreadyFinishedRequest)
  | none => (m, true)

/-- Rest of `FinishRequest`, after the exchange. -/
def FinishRequestBody (P : Platform) (m1 : Manager) (R : RequestId)
    (bHasAlreadyFinishedRequest : Bool) : Manager :=
  if !bHasAlreadyFinishedRequest then
    match m1.Requests R with
    | none => m1
    | some r =>
      let TempFilePath := r.CompletedTempDownloadLocation
      let bFileExists := P.FileExists TempFilePath
      let ResponseCode :=
        if bFileExists then EHttpResponseCodes.Created else EHttpResponseCodes.Unknown
      let res : Manager × Bool :=
        if bFileExists then
          (CompleteWithExistingResponseData m1 R ⟨ResponseCode, TempFilePath⟩, true)
        else
          let bDidFail := r.bIsFailed
          if !bDidFail then
            (CancelActiveTask
              (setRequest m1 R
                { r with bIsCompleted := false, bHasAlreadyFinishedRequest := false }) R, false)
          else
            (CompleteWithExistingResponseData m1 R ⟨ResponseCode, ""⟩, true)
      let bIsRequestActuallyFinished := res.2
      if bIsRequestActuallyFinished then
        let bWasFinishedInBG := res.1.bIsInBackground
        if !bWasFinishedInBG then
          { res.1 with NumCurrentlyActiveTasks := res.1.NumCurrentlyActiveTasks - 1 }
        else res.1
      else res.1
  else
    m1

/-- Embedding of `FinishRequest`. -/
def FinishRequest (P : Platform) (m : Manager) (R : RequestId) : Manager :=
  let x := ExchangeHasAlreadyFinishedRequest m R
  FinishRequestBody P x.1 R x.2

/-! ## Finished-download callback -/

/-- Modelled from the spec: `SetRequestAsSuccess` of the request class (not in the
sources at hand). The request is marked succeeded with the given temp file. -/
def SetRequestAsSuccess (m : Manager) (R : RequestId) (TempFilePath : String) : Manager :=
  match m.Requests R with
  | some r =>
    setRequest m R { r with CompletedTempDownloadLocation := TempFilePath, bIsCompleted := true }
  | none => m

/-- Embedding of `OnTask_DidFinishDownloadingToURL`; the URL of a null task reads
as the empty string. -/
def OnTask_DidFinishDownloadingToURL (P : Platform) (m : Manager) (Task : Option Task)
    (Error : Option NSError) (TempFilePath : String) : Manager :=
  let TaskURL := match Task with
    | some t => t.URL
    | none => ""
  let bFileExists := P.FileExists TempFilePath
  if bFileExists then
    match FindRequest m TaskURL with
    | some FoundRequest => SetRequestAsSuccess m FoundRequest TempFilePath
    | none => m
  else
    OnTask_DidCompleteWithError P m Task Error

/-! ## Progress callback -/

/-- Modelled from the spec: `UpdateDownloadProgress` of the request class (not in
the sources at hand) updates the byte counters of the request. By the spec the
progress of a request is a monotonically non-decreasing byte counter whose new
value is at least the prior value: the recorded progress becomes the cumulative
number of bytes the callback reports, unless that is below the recorded
progress, which then stays. -/
def UpdateDownloadProgress (m : Manager) (R : RequestId) (TotalDownloaded : Int)
    (_DownloadedSinceLastUpdate : Int) : Manager :=
  match m.Requests R with
  | some r => setRequest m R { r with DownloadProgress := max r.DownloadProgress TotalDownloaded }
  | none => m

/-- Embedding of `OnTask_DidWriteData`. The flag returned with the state tells
whether the `ensureAlwaysMsgf(false, ...)` on the download progress was reached. -/
def OnTask_DidWriteData (m : Manager) (Task : Option Task) (BytesWrittenSinceLastCall : Int)
    (TotalBytesWritten : Int) (_TotalBytesExpectedToWrite : Int) : Manager × Bool :=
  match Task with
  | none => (m, false)
  | some task =>
    match FindRequest m task.URL with
    | some FoundRequest =>
      let DownloadProgress := match m.Requests FoundRequest with
        | some r => r.DownloadProgress
        | none => 0
      let bEnsure := if DownloadProgress < TotalBytesWritten then false else true
      (UpdateDownloadProgress m FoundRequest TotalBytesWritten BytesWrittenSinceLastCall, bEnsure)
    | none => (m, false)

/-! ## Tick: requests -/

/-- What the request class answers from the state of the OS task and from the
clock when `TickRequests` visits a request: `IsUnderlyingTaskActive()`,
`IsUnderlyingTaskPaused()` and the result of `TickTimeOutTimer(DeltaTime)`. -/
structure TickView where
  IsUnderlyingTaskActive : RequestId → Bool
  IsUnderlyingTaskPaused : RequestId → Bool
  bShouldTimeOut : RequestId → Bool

/-- Modelled from the spec: `IsTaskComplete` of the request class (not in the
sources at hand). A request is complete once it is marked completed or failed,
the two terminal states of its lifecycle (finalisation delivers the failure
response of a request flagged failed, so a failed request must reach it). -/
def IsTaskComplete (m : Manager) (R : RequestId) : Bool :=
  match m.Requests R with
  | some r => r.bIsCompleted || r.bIsFailed
  | none => false

/-- Modelled from the spec: `SendDownloadProgressUpdate` of the request class (not
in the sources at hand) pushes a progress update to listeners; it is recorded as
an outgoing call. -/
def SendDownloadProgressUpdate (m : Manager) (R : RequestId) : Manager :=
  emit m (Effect.SendDownloadProgressUpdate R)

/-- Body of the loop of `TickRequests` for one entry of `ActiveRequests`. -/
def TickRequestsVisit (P : Platform) (V : TickView) (m : Manager) (R : RequestId) : Manager :=
  match m.Requests R with
  | none => m
  | some r =>
    let bIsTaskActive := V.IsUnderlyingTaskActive R
    let bIsTaskPaused := V.IsUnderlyingTaskPaused R
    let bIsTaskComplete := IsTaskComplete m R
    let bWasStartedInBG := r.bWasTaskStartedInBG
    let bIsPendingCancel := r.bIsPendingCancel
    if bIsTaskComplete then
      FinishRequest P m R
    else if bWasStartedInBG && !bIsPendingCancel then
      CancelActiveTask (setRequest m R { r with bWasTaskStartedInBG := false }) R
    else if bIsTaskActive && !bIsTaskPaused && !bIsPendingCancel then
      -- TickTimeOutTimer(DeltaTime) advances the timer and reports a time-out
      let m1 := emit m (Effect.TickTimeOutTimer R)
      let m2 := if V.bShouldTimeOut R then CancelActiveTask m1 R else m1
      SendDownloadProgressUpdate m2 R
    else
      SendDownloadProgressUpdate m R

/-- Modelled from the spec: `RemoveRequest` of the base class
`FBackgroundHttpManagerImpl` (not in the sources at hand) is the actual removal
of the request from the Active Requests set. -/
def BaseRemoveRequest (m : Manager) (R : RequestId) : Manager :=
  { m with ActiveRequests := m.ActiveRequests.filter (fun Q => Q != R) }

/-- Embedding of `DeletePendingRemoveRequests`. -/
def DeletePendingRemoveRequests (m : Manager) : Manager :=
  let m1 := m.RequestsPendingRemove.foldl BaseRemoveRequest m
  { m1 with RequestsPendingRemove := [] }

/-- Embedding of `TickRequests`. -/
def TickRequests (P : Platform) (V : TickView) (m : Manager) : Manager :=
  DeletePendingRemoveRequests (m.ActiveRequests.foldl (TickRequestsVisit P V) m)

/-! ## Tick: session tasks -/

/-- Embedding of `TickTasks` (the background session is taken to exist): the
completion handler is handed to the session unless one is already queued. -/
def TickTasks (m : Manager) : Manager :=
  let IsIterateAlreadyQueued := m.bIsIteratingThroughSessionTasks
  let m1 := { m with bIsIteratingThroughSessionTasks := true }
  if !IsIterateAlreadyQueued then
    { emit m1 Effect.getAllTasksWithCompletionHandler with
      QueuedTickTasks := m1.QueuedTickTasks + 1 }
  else
    m1

/-- Loop of the completion handler of `TickTasks` over the remaining tasks; a
`break` ends the function. -/
def TickTasksLoop (P : Platform) : Manager → List Task → Manager
  | m, [] => m
  | m, task :: rest =>
    if task.state = TaskState.Suspended then
      let NewRequestCount := m.NumCurrentlyActiveTasks + 1
      let m1 := { m with NumCurrentlyActiveTasks := NewRequestCount }
      if NewRequestCount ≤ P.GetPlatformMaxActiveDownloads then
        let m2 := match FindRequest m1 task.URL with
          | some FoundRequest => ActivateUnderlyingTask m1 FoundRequest
          | none => { m1 with NumCurrentlyActiveTasks := m1.NumCurrentlyActiveTasks - 1 }
        if NewRequestCount ≥ P.GetPlatformMaxActiveDownloads then
          m2
        else
          TickTasksLoop P m2 rest
      else
        { m1 with NumCurrentlyActiveTasks := m1.NumCurrentlyActiveTasks - 1 }
    else
      TickTasksLoop P m rest

/-- Completion handler of `TickTasks`, run on the tasks the session reports. -/
def TickTasksHandler (P : Platform) (m : Manager) (tasks : List Task) : Manager :=
  let CurrentCount := m.NumCurrentlyActiveTasks
  let m1 := if CurrentCount < P.GetPlatformMaxActiveDownloads then TickTasksLoop P m tasks else m
  { m1 with
    bIsIteratingThroughSessionTasks := false
    QueuedTickTasks := m1.QueuedTickTasks - 1 }

/-! ## Tick: unassociated tasks -/

/-- Embedding of `UnpauseAllUnassociatedTasks`; the dictionary is a list of its
entries, one per key. -/
def UnpauseAllUnassociatedTasks (m : Manager) : Manager :=
  { m with
    UnAssociatedTasks := m.UnAssociatedTasks.map (fun kv => (kv.1, kv.2.resume))
    Effects := m.Effects ++
      (m.UnAssociatedTasks.filter (fun kv => kv.2.state = TaskState.Suspended)).map
        (fun kv => Effect.resume kv.2) }

/-- Embedding of `PauseAllUnassociatedTasks`. -/
def PauseAllUnassociatedTasks (m : Manager) : Manager :=
  { m with
    UnAssociatedTasks := m.UnAssociatedTasks.map (fun kv => (kv.1, kv.2.suspend))
    Effects := m.Effects ++
      (m.UnAssociatedTasks.filter (fun kv => kv.2.state = TaskState.Running)).map
        (fun kv => Effect.suspend kv.2) }

/-- Embedding of `TickUnassociatedTasks`. -/
def TickUnassociatedTasks (m : Manager) : Manager :=
  let CurrentCount := m.NumCurrentlyActiveTasks
  if CurrentCount = 0 then UnpauseAllUnassociatedTasks m else PauseAllUnassociatedTasks m

/-- Embedding of `Tick`: the three phases in their order. -/
def Tick (P : Platform) (V : TickView) (m : Manager) : Manager :=
  TickUnassociatedTasks (TickTasks (TickRequests P V m))

/-! ## Foreground and background -/

/-- Embedding of `PauseAllActiveTasks`: the completion handler is handed to the
session. -/
def PauseAllActiveTasks (m : Manager) : Manager :=
  { emit m Effect.getTasksWithCompletionHandler with
    QueuedPauseAllActiveTasks := m.QueuedPauseAllActiveTasks + 1 }

/-- Completion handler of `PauseAllActiveTasks`, run on the download tasks the
session reports; the tasks are returned as the handler leaves them. -/
def PauseAllActiveTasksHandler (m : Manager) (DownloadTasks : List Task) : Manager × List Task :=
  ({ m with
      Effects := m.Effects ++
        (DownloadTasks.filter (fun t => t.state = TaskState.Running)).map Effect.suspend
      NumCurrentlyActiveTasks := 0
      QueuedPauseAllActiveTasks := m.QueuedPauseAllActiveTasks - 1 },
    DownloadTasks.map Task.suspend)

/-- Embedding of `ResumeAllTasks`: the completion handler is handed to the session. -/
def ResumeAllTasks (m : Manager) : Manager :=
  { emit m Effect.getTasksWithCompletionHandler with
    QueuedResumeAllTasks := m.QueuedResumeAllTasks + 1 }

/-- Completion handler of `ResumeAllTasks`, run on the download tasks the session
reports; the tasks are returned as the handler leaves them. -/
def ResumeAllTasksHandler (m : Manager) (DownloadTasks : List Task) : Manager × List Task :=
  ({ m with
      Effects := m.Effects ++
        (DownloadTasks.filter (fun t => t.state = TaskState.Suspended)).map Effect.resume
      QueuedResumeAllTasks := m.QueuedResumeAllTasks - 1 },
    DownloadTasks.map Task.resume)

/-- Embedding of `OnApp_EnteringForeground`. -/
def OnApp_EnteringForeground (m : Manager) : Manager :=
  let m1 := PauseAllActiveTasks m
  { m1 with bIsInBackground := false }

/-- Embedding of `OnApp_EnteringBackground`. -/
def OnApp_EnteringBackground (m : Manager) : Manager :=
  ResumeAllTasks { m with bIsInBackground := true }

/-! ## Runs of the manager -/

/-- Everything that can happen to the manager: calls of its users, the three
phases of the tick, application transitions, callbacks of the session and
completion handlers the manager queued earlier. -/
inductive Event where
  | AddRequest (R : RequestId)
  | RemoveRequest (R : RequestId)
  | TickRequests (V : TickView)
  | TickTasks
  | TickTasksHandler (tasks : List Task)
  | TickUnassociatedTasks
  | EnteringBackground
  | ResumeAllTasksHandler (DownloadTasks : List Task)
  | EnteringForeground
  | PauseAllActiveTasksHandler (DownloadTasks : List Task)
  | DidCompleteWithError (task : Task) (err : NSError)
  | DidFinishDownloadingToURL (task : Task) (err : Option NSError) (TempFilePath : String)
  | DidWriteData (task : Task) (BytesWrittenSinceLastCall TotalBytesWritten
      TotalBytesExpectedToWrite : Int)

/-- One event; a completion handler only runs if one of its kind is queued. -/
def applyEvent (P : Platform) (m : Manager) : Event → Manager
  | Event.AddRequest R => AddRequest P m R
  | Event.RemoveRequest R => RemoveRequest m R
  | Event.TickRequests V => TickRequests P V m
  | Event.TickTasks => TickTasks m
  | Event.TickTasksHandler tasks =>
    if m.QueuedTickTasks = 0 then m else TickTasksHandler P m tasks
  | Event.TickUnassociatedTasks => TickUnassociatedTasks m
  | Event.EnteringBackground => OnApp_EnteringBackground m
  | Event.ResumeAllTasksHandler DownloadTasks =>
    if m.QueuedResumeAllTasks = 0 then m else (ResumeAllTasksHandler m DownloadTasks).1
  | Event.EnteringForeground => OnApp_EnteringForeground m
  | Event.PauseAllActiveTasksHandler DownloadTasks =>
    if m.QueuedPauseAllActiveTasks = 0 then m else (PauseAllActiveTasksHandler m DownloadTasks).1
  | Event.DidCompleteWithError task err =>
    OnTask_DidCompleteWithError P m (some task) (some err)
  | Event.DidFinishDownloadingToURL task err TempFilePath =>
    OnTask_DidFinishDownloadingToURL P m (some task) err TempFilePath
  | Event.DidWriteData task BytesWrittenSinceLastCall TotalBytesWritten TotalBytesExpectedToWrite =>
    (OnTask_DidWriteData m (some task) BytesWrittenSinceLastCall TotalBytesWritten
      TotalBytesExpectedToWrite).1

/-- State reached from `m` by a sequence of events. -/
def applyEvents (P : Platform) (m : Manager) (events : List Event) : Manager :=
  events.foldl (applyEvent P) m

/-! ## Observations used in the statements -/

/-- Responses delivered to request `R`, in order, among a list of outgoing calls. -/
def DeliveredResponses (R : RequestId) (es : List Effect) : List Response :=
  es.filterMap fun e =>
    match e with
    | Effect.CompleteWithExistingResponseData Q resp => if Q = R then some resp else none
    | _ => none

/-- Number of cancel requests for the task of `R` among a list of outgoing calls. -/
def CancelCount (R : RequestId) (es : List Effect) : Nat :=
  es.count (Effect.CancelActiveTask R)

/-- Test `bRequestAlreadyExistsForURL` of `GenerateURLMapEntriesForRequest` on the
entry currently stored under a URL: a live request other than `R` owns it. -/
def Conflict (m : Manager) (R : RequestId) (URL : String) : Bool :=
  match m.URLToRequestMap URL with
  | some w => IsValid m w && decide (Pin m w ≠ some R)
  | none => false

/-- The response a request receives on a routing conflict. -/
def UnknownResponse : Response := ⟨EHttpResponseCodes.Unknown, ""⟩

/-- Everything except the routing table and the outgoing calls is the same in `m` and in `n`. -/
def SameButTableEffects (m n : Manager) : Prop :=
  n.Requests = m.Requests ∧ n.ActiveRequests = m.ActiveRequests ∧
  n.RequestsPendingRemove = m.RequestsPendingRemove ∧
  n.UnAssociatedTasks = m.UnAssociatedTasks ∧
  n.NumCurrentlyActiveRequests = m.NumCurrentlyActiveRequests ∧
  n.NumCurrentlyActiveTasks = m.NumCurrentlyActiveTasks ∧
  n.bIsInBackground = m.bIsInBackground

/-- Everything except the routing table is the same in `m` and in `n`. -/
def SameButTable (m n : Manager) : Prop :=
  n.Requests = m.Requests ∧ n.Effects = m.Effects ∧ n.ActiveRequests = m.ActiveRequests ∧
  n.RequestsPendingRemove = m.RequestsPendingRemove ∧
  n.UnAssociatedTasks = m.UnAssociatedTasks ∧
  n.NumCurrentlyActiveRequests = m.NumCurrentlyActiveRequests ∧
  n.NumCurrentlyActiveTasks = m.NumCurrentlyActiveTasks ∧
  n.bIsInBackground = m.bIsInBackground

/-- Some URL of `R` is currently mapped to a live request different from `R`. -/
def RoutingConflict (m : Manager) (R : RequestId) : Prop :=
  ∃ URL ∈ GetURLList m R, ∃ Q, m.URLToRequestMap URL = some (some Q) ∧ Q ≠ R ∧
    (m.Requests Q).isSome = true

/-- Fields of a request that only finalisation, progress and success callbacks
write: URL list, completion flags, temp file location, progress. -/
def Request.fixedPart (r : Request) : List String × Bool × Bool × String × Int :=
  (r.URLList, r.bIsCompleted, r.bHasAlreadyFinishedRequest, r.CompletedTempDownloadLocation,
    r.DownloadProgress)

/-- The retry, association and cancel operations on a single request leave
these parts of the manager alone: the routing table, the active set and its
counter, the removal queue, the background flag, and for every request whether
it is alive and its `fixedPart`. -/
def Stable (m n : Manager) : Prop :=
  n.URLToRequestMap = m.URLToRequestMap ∧ n.ActiveRequests = m.ActiveRequests ∧
  n.RequestsPendingRemove = m.RequestsPendingRemove ∧
  n.NumCurrentlyActiveRequests = m.NumCurrentlyActiveRequests ∧
  n.bIsInBackground = m.bIsInBackground ∧
  ∀ Q, (n.Requests Q).map Request.fixedPart = (m.Requests Q).map Request.fixedPart

/-- The two operations callers use to submit and to withdraw a request. -/
inductive Op where
  | AddRequest (R : RequestId)
  | RemoveRequest (R : RequestId)
deriving DecidableEq, Repr

/-- Request an operation is applied to. -/
def Op.target : Op → RequestId
  | Op.AddRequest R => R
  | Op.RemoveRequest R => R

/-- One caller operation. -/
def applyOp (P : Platform) (m : Manager) : Op → Manager
  | Op.AddRequest R => AddRequest P m R
  | Op.RemoveRequest R => RemoveRequest m R

/-- State reached from `m` by a sequence of caller operations. -/
def applyOps (P : Platform) (m : Manager) (ops : List Op) : Manager :=
  ops.foldl (applyOp P) m

/-- The URL-retry counter of every request is the same in `m` and in `n`. -/
def SameCursor (m n : Manager) : Prop :=
  ∀ Q, (n.Requests Q).map Request.RetryCount = (m.Requests Q).map Request.RetryCount

/-- A run of error callbacks, each for a task and the error it failed with. -/
def errorCallbacks (P : Platform) (m : Manager) (calls : List (Task × NSError)) : Manager :=
  calls.foldl (fun n c => OnTask_DidCompleteWithError P n (some c.1) (some c.2)) m

/-- Operations of the manager that can reach a request: submission, removal,
finalisation (from the tick) and the error callback. -/
inductive Step where
  | AddRequest (R : RequestId)
  | RemoveRequest (R : RequestId)
  | FinishRequest (R : RequestId)
  | DidCompleteWithError (task : Task) (err : NSError)
deriving DecidableEq, Repr

/-- One operation of the manager. -/
def applyStep (P : Platform) (m : Manager) : Step → Manager
  | Step.AddRequest R => AddRequest P m R
  | Step.RemoveRequest R => RemoveRequest m R
  | Step.FinishRequest R => FinishRequest P m R
  | Step.DidCompleteWithError task err => OnTask_DidCompleteWithError P m (some task) (some err)

/-- State reached from `m` by a sequence of operations. -/
def applySteps (P : Platform) (m : Manager) (steps : List Step) : Manager :=
  steps.foldl (applyStep P) m

/-- Current value of `bHasAlreadyFinishedRequest` of `R`. -/
def flagOf (m : Manager) (R : RequestId) : Bool :=
  match m.Requests R with
  | some r => r.bHasAlreadyFinishedRequest
  | none => false

/-- Values the flag of `R` takes in the course of one operation: `FinishRequest`
shows the value after its exchange and the value at return, every other
operation the value at return. -/
def stepFlagValues (P : Platform) (R : RequestId) (m : Manager) : Step → List Bool
  | Step.FinishRequest Q =>
    [flagOf (ExchangeHasAlreadyFinishedRequest m Q).1 R, flagOf (FinishRequest P m Q) R]
  | s => [flagOf (applyStep P m s) R]

/-- Values the flag of `R` takes in the course of a sequence of operations. -/
def flagTrace (P : Platform) (R : RequestId) : Manager → List Step → List Bool
  | _, [] => []
  | m, s :: rest => stepFlagValues P R m s ++ flagTrace P R (applyStep P m s) rest

/-- Number of places where a list of flag values goes from false to true. -/
def risingEdges : List Bool → Nat
  | a :: b :: rest => (if !a && b then 1 else 0) + risingEdges (b :: rest)
  | _ => 0

/-- Invariant of the routing table: a request is only ever registered under
URLs of its own URL list. -/
def OwnsOnlyListed (m : Manager) : Prop :=
  ∀ k R, m.URLToRequestMap k = some (some R) → k ∈ GetURLList m R

/-! ## Concrete inputs used to exercise the statements -/

/-- A fresh request with the given candidate URLs. -/
def Request.fresh (URLList : List String) : Request :=
  { URLList := URLList
    RetryCount := 0
    ResumeDataRetryCount := 0
    bIsCompleted := false
    bIsFailed := false
    bIsPendingCancel := false
    bHasAlreadyFinishedRequest := false
    bWasTaskStartedInBG := false
    CompletedTempDownloadLocation := ""
    DownloadProgress := 0
    FirstTask := none }

/-- Two live requests: request 1 with URLs A, B, C and request 2 with URLs X, B. -/
def exHeap : RequestId → Option Request :=
  fun Q =>
    if Q = 1 then some (Request.fresh ["A", "B", "C"])
    else if Q = 2 then some (Request.fresh ["X", "B"])
    else none

/-- Request 1 is registered under its three URLs; request 2 is not registered. -/
def exRegistered : Manager :=
  { Manager.init exHeap with
    URLToRequestMap := fun k =>
      if k = "A" ∨ k = "B" ∨ k = "C" then some (some 1) else none }

/-- A platform whose provider always returns a task, with the given resume limit;
no file exists and no finished download is known. -/
def exPlatform (RetryResumeDataLimit : Int) : Platform :=
  { FileExists := fun _ => false
    GetPlatformMaxActiveDownloads := 2
    RetryResumeDataLimitSetting := RetryResumeDataLimit
    downloadTaskWithResumeData := fun _ => some ⟨7, "A", TaskState.Suspended⟩
    downloadTaskWithURL := fun URL => some ⟨9, URL, TaskState.Suspended⟩
    ExistingResponse := fun _ => none }

/-- State of the example manager after request 1 was submitted: its first task runs on A. -/
def exStarted : Manager :=
  AddRequest (exPlatform 0) (Manager.init exHeap) 1

/-- A manager with one submitted request, number 3, whose only candidate URL is A. -/
def exSingle : Manager :=
  AddRequest (exPlatform 0)
    (Manager.init (fun Q => if Q = 3 then some (Request.fresh ["A"]) else none)) 3

/-- The example platform with every temp file present. -/
def exPlatformWithFile : Platform :=
  { exPlatform 0 with FileExists := fun _ => true }

/-- A request whose download is reported complete at a temp location; it is
neither finalised nor flagged failed. -/
def exCompletedRequest : Request :=
  { Request.fresh ["A", "B", "C"] with
    bIsCompleted := true
    CompletedTempDownloadLocation := "tmp/download"
    FirstTask := some ⟨9, "A", TaskState.Completed⟩ }

/-- Request 1 is active, registered under its URLs, and is `exCompletedRequest`;
on `exPlatform` no file exists at its temp location. -/
def exCompleted : Manager :=
  { exRegistered with
    Requests := fun Q => if Q = 1 then some exCompletedRequest else none
    ActiveRequests := [1]
    NumCurrentlyActiveRequests := 1
    NumCurrentlyActiveTasks := 1 }

/-- A view of the OS tasks in which no request has an active or paused task and
no timer runs out. -/
def exTickView : TickView :=
  { IsUnderlyingTaskActive := fun _ => false
    IsUnderlyingTaskPaused := fun _ => false
    bShouldTimeOut := fun _ => false }

/-- A download that completes while the application is in the background:
request 1 is submitted, the application enters the background and the session
resumes the task, the download finishes to a temp file, the application returns
to the foreground (no download task is running any more), and the next tick
visits the requests. -/
def exBackgroundDownloadRun : List Event :=
  [Event.AddRequest 1,
   Event.EnteringBackground,
   Event.ResumeAllTasksHandler [⟨9, "A", TaskState.Suspended⟩],
   Event.DidFinishDownloadingToURL ⟨9, "A", TaskState.Running⟩ none "tmp/download",
   Event.EnteringForeground,
   Event.PauseAllActiveTasksHandler [],
   Event.TickRequests exTickView]

/-- The example platform with at most one active download. -/
def exPlatformMaxOne : Platform :=
  { exPlatform 0 with GetPlatformMaxActiveDownloads := 1 }

/-- Two suspended tasks as the session reports them: first a task on URL Z, which
no request owns, then the task of request 1 on URL A. -/
def exOrphanFirst : List Task :=
  [⟨5, "Z", TaskState.Suspended⟩, ⟨9, "A", TaskState.Suspended⟩]

/-- Number of activations of the task of `R` among a list of outgoing calls. -/
def ActivateCount (R : RequestId) (es : List Effect) : Nat :=
  es.count (Effect.ActivateUnderlyingTask R)

/-- Number of progress updates pushed for `R` among a list of outgoing calls. -/
def ProgressUpdateCount (R : RequestId) (es : List Effect) : Nat :=
  es.count (Effect.SendDownloadProgressUpdate R)

/-- Number of advances of the time-out timer of `R` among a list of outgoing calls. -/
def TimerTickCount (R : RequestId) (es : List Effect) : Nat :=
  es.count (Effect.TickTimeOutTimer R)

/-- A pool with a suspended, a running and a completed task. -/
def exPool : List (String × Task) :=
  [("U", ⟨1, "U", TaskState.Suspended⟩), ("V", ⟨2, "V", TaskState.Running⟩),
   ("W", ⟨3, "W", TaskState.Completed⟩)]

/-- Outgoing calls the visit of request `Q` by `TickRequests` can make. -/
def VisitCall (Q : RequestId) (e : Effect) : Prop :=
  (∃ resp, e = Effect.CompleteWithExistingResponseData Q resp) ∨ e = Effect.CancelActiveTask Q ∨
  e = Effect.TickTimeOutTimer Q ∨ e = Effect.SendDownloadProgressUpdate Q

/-- Calls about request `R` that are counted in the statements on `TickRequests`. -/
def CountedCall (R : RequestId) (e : Effect) : Prop :=
  e = Effect.CancelActiveTask R ∨ e = Effect.TickTimeOutTimer R ∨
  e = Effect.SendDownloadProgressUpdate R

/-- The example manager with request 1 reported complete, its temp file missing
on `exPlatform`, and its task marked as started in the background. -/
def exCompletedInBG : Manager :=
  { exCompleted with
    Requests := fun Q =>
      if Q = 1 then some { exCompletedRequest with bWasTaskStartedInBG := true } else none }

/-- The example manager after request 1 was submitted, with its task marked as
started in the background. -/
def exStartedInBG : Manager :=
  { exStarted with
    Requests := fun Q =>
      if Q = 1 then
        some { Request.fresh ["A", "B", "C"] with
          FirstTask := some ⟨9, "A", TaskState.Running⟩
          bWasTaskStartedInBG := true }
      else none }

/-- Bookkeeping of the single-flight enumeration of `TickTasks`: the flag
`bIsIteratingThroughSessionTasks` and the number of its queued handlers. -/
def Manager.enumeration (m : Manager) : Bool × Nat :=
  (m.bIsIteratingThroughSessionTasks, m.QueuedTickTasks)

/-- The routing table and the URL list of every request are the same in `m` and in `n`. -/
def SameRouting (m n : Manager) : Prop :=
  n.URLToRequestMap = m.URLToRequestMap ∧ ∀ Q, GetURLList n Q = GetURLList m Q

/-- Download tasks as the session reports them: the running task of request 1
on URL A and a suspended task on URL Q. -/
def exSessionTasks : List Task :=
  [⟨9, "A", TaskState.Running⟩, ⟨4, "Q", TaskState.Suspended⟩]

/-- The example manager in the background: request 1 was submitted, the
application entered the background and the completion handler of
`ResumeAllTasks` ran. -/
def exInBackground : Manager :=
  applyEvents (exPlatform 0) (Manager.init exHeap)
    [Event.AddRequest 1, Event.EnteringBackground,
      Event.ResumeAllTasksHandler [⟨9, "A", TaskState.Running⟩]]

/-- One progress report of the session: the task and the three byte counts of
`didWriteData`. -/
structure WriteReport where
  task : Task
  BytesWrittenSinceLastCall : Int
  TotalBytesWritten : Int
  TotalBytesExpectedToWrite : Int
deriving DecidableEq, Repr

/-- Recorded download progress of `R` (0 for a request that is gone). -/
def recordedProgress (m : Manager) (R : RequestId) : Int :=
  match m.Requests R with
  | some r => r.DownloadProgress
  | none => 0

/-- One progress callback. -/
def applyReport (m : Manager) (c : WriteReport) : Manager :=
  (OnTask_DidWriteData m (some c.task) c.BytesWrittenSinceLastCall c.TotalBytesWritten
    c.TotalBytesExpectedToWrite).1

/-- Recorded download progress of `R` after each of a sequence of progress
callbacks. -/
def progressTrace (R : RequestId) : Manager → List WriteReport → List Int
  | _, [] => []
  | m, c :: rest => recordedProgress (applyReport m c) R :: progressTrace R (applyReport m c) rest

/-- The example manager after request 1 was submitted and its task on A reported
100 bytes written. -/
def exDownloading : Manager :=
  applyReport exStarted ⟨⟨9, "A", TaskState.Running⟩, 100, 100, 1000⟩

/-- The initial manager over the example heap with one task in the pool of
unassociated tasks: a running task on URL A, found in the session at startup. -/
def exAdoptable : Manager :=
  { Manager.init exHeap with
    UnAssociatedTasks := [("A", ⟨9, "A", TaskState.Running⟩)]
    bHasFinishedPopulatingUnassociatedTasks := true }

/-- A heap in which request 2 asks for two of the URLs of request 1. -/
def exHeapDuplicate : RequestId → Option Request :=
  fun Q =>
    if Q = 1 then some (Request.fresh ["A", "B", "C"])
    else if Q = 2 then some (Request.fresh ["A", "B"])
    else none

/-- A heap with one request, number 5, whose URL list names A twice. -/
def exHeapRepeated : RequestId → Option Request :=
  fun Q => if Q = 5 then some (Request.fresh ["A", "A"]) else none

/-- Number of `ActivateUnderlyingTask` calls, on any request, among a list of
outgoing calls. -/
def ActivateCalls (es : List Effect) : Nat :=
  es.countP fun e =>
    match e with
    | Effect.ActivateUnderlyingTask _ => true
    | _ => false

section RoutingTable

variable (R : RequestId)

theorem SameButTable.same (m : Manager) : SameButTable m m := by
  simp [SameButTable]

theorem SameButTable.thenTable {a b c : Manager} (hab : SameButTable a b) (hbc : SameButTable b c) :
    SameButTable a c := by
  obtain ⟨h1, h2, h3, h4, h5, h6, h7, h8⟩ := hab
  obtain ⟨i1, i2, i3, i4, i5, i6, i7, i8⟩ := hbc
  exact ⟨i1.trans h1, i2.trans h2, i3.trans h3, i4.trans h4, i5.trans h5, i6.trans h6,
    i7.trans h7, i8.trans h8⟩

theorem removeStep_frame (m : Manager) (URL : String) :
    SameButTable m (RemoveURLMapEntriesStep R m URL) := by
  unfold RemoveURLMapEntriesStep
  dsimp only
  split_ifs <;> simp [SameButTable]

theorem removeFold_frame (l : List String) (m : Manager) :
    SameButTable m (l.foldl (RemoveURLMapEntriesStep R) m) := by
  induction l generalizing m with
  | nil => exact SameButTable.same m
  | cons u l ih =>
    simp only [List.foldl_cons]
    exact (removeStep_frame R m u).thenTable (ih _)

/-- Entries under other keys are not touched by one round of the removal loop. -/
theorem removeStep_other (m : Manager) (URL k : String) (hk : k ≠ URL) :
    (RemoveURLMapEntriesStep R m URL).URLToRequestMap k = m.URLToRequestMap k := by
  unfold RemoveURLMapEntriesStep FindOrAdd
  cases h : m.URLToRequestMap URL <;> dsimp only <;> split_ifs <;> simp [mapRemove, mapSet, hk]

/-- After one round of the removal loop the visited key does not point to `R`. -/
theorem removeStep_self (m : Manager) (URL : String) (hR : (m.Requests R).isSome) :
    (RemoveURLMapEntriesStep R m URL).URLToRequestMap URL ≠ some (some R) := by
  unfold RemoveURLMapEntriesStep FindOrAdd
  cases h : m.URLToRequestMap URL with
  | none => dsimp only; split_ifs <;> simp [mapRemove, mapSet]
  | some w =>
    dsimp only
    split_ifs with hp
    · simp [mapRemove]
    · rw [h]
      intro hw
      apply hp
      have : w = some R := by simpa using hw
      subst this
      simp [Pin, IsValid, hR]

theorem removeFold_other (l : List String) (m : Manager) (k : String) (hk : k ∉ l) :
    (l.foldl (RemoveURLMapEntriesStep R) m).URLToRequestMap k = m.URLToRequestMap k := by
  induction l generalizing m with
  | nil => simp
  | cons u l ih =>
    simp only [List.mem_cons, not_or] at hk
    simp only [List.foldl_cons]
    rw [ih _ hk.2, removeStep_other R m u k hk.1]

/-- An entry that points to `R` after one round was there before, under another key. -/
theorem removeStep_owned (m : Manager) (URL k : String) (hR : (m.Requests R).isSome)
    (h : (RemoveURLMapEntriesStep R m URL).URLToRequestMap k = some (some R)) :
    k ≠ URL ∧ m.URLToRequestMap k = some (some R) := by
  by_cases hk : k = URL
  · subst hk
    exact absurd h (removeStep_self R m k hR)
  · exact ⟨hk, by rw [← removeStep_other R m URL k hk]; exact h⟩

/-- An entry that points to `R` after the removal loop is an old entry under a key
the loop never visited. -/
theorem removeFold_owned (l : List String) (m : Manager) (k : String)
    (hR : (m.Requests R).isSome)
    (h : (l.foldl (RemoveURLMapEntriesStep R) m).URLToRequestMap k = some (some R)) :
    k ∉ l ∧ m.URLToRequestMap k = some (some R) := by
  induction l generalizing m with
  | nil => exact ⟨by simp, h⟩
  | cons u l ih =>
    simp only [List.foldl_cons] at h
    have hR1 : ((RemoveURLMapEntriesStep R m u).Requests R).isSome := by
      rw [(removeStep_frame R m u).1]; exact hR
    obtain ⟨h1, h2⟩ := ih (RemoveURLMapEntriesStep R m u) hR1 h
    obtain ⟨h3, h4⟩ := removeStep_owned R m u k hR h2
    exact ⟨by simp [h1, h3], h4⟩

/-- A present entry that does not pin to `R` survives one round of the removal loop. -/
theorem removeStep_keep (m : Manager) (URL k : String) (w : WeakPtr)
    (hw : m.URLToRequestMap k = some w) (hp : Pin m w ≠ some R) :
    (RemoveURLMapEntriesStep R m URL).URLToRequestMap k = some w := by
  by_cases hk : k = URL
  · subst hk
    unfold RemoveURLMapEntriesStep FindOrAdd
    rw [hw]
    simp [hp, hw]
  · rw [removeStep_other R m URL k hk, hw]

theorem pin_of_frame {m n : Manager} (h : n.Requests = m.Requests) (w : WeakPtr) :
    Pin n w = Pin m w := by
  unfold Pin IsValid
  rw [h]

/-- A present entry that does not pin to `R` survives the removal loop. -/
theorem removeFold_keep (l : List String) (m : Manager) (k : String) (w : WeakPtr)
    (hw : m.URLToRequestMap k = some w) (hp : Pin m w ≠ some R) :
    (l.foldl (RemoveURLMapEntriesStep R) m).URLToRequestMap k = some w := by
  induction l generalizing m with
  | nil => exact hw
  | cons u l ih =>
    simp only [List.foldl_cons]
    apply ih _ (removeStep_keep R m u k w hw hp)
    rw [pin_of_frame (removeStep_frame R m u).1]
    exact hp

end RoutingTable

section Generate

variable (R : RequestId)

theorem SameButTableEffects.unchanged (m : Manager) : SameButTableEffects m m := by
  simp [SameButTableEffects]

theorem SameButTableEffects.thenFrame {a b c : Manager} (hab : SameButTableEffects a b)
    (hbc : SameButTableEffects b c) : SameButTableEffects a c := by
  obtain ⟨h1, h2, h3, h4, h5, h6, h7⟩ := hab
  obtain ⟨i1, i2, i3, i4, i5, i6, i7⟩ := hbc
  exact ⟨i1.trans h1, i2.trans h2, i3.trans h3, i4.trans h4, i5.trans h5, i6.trans h6,
    i7.trans h7⟩

theorem SameButTable.dropEffects {a b : Manager} (h : SameButTable a b) : SameButTableEffects a b := by
  obtain ⟨h1, _, h3, h4, h5, h6, h7, h8⟩ := h
  exact ⟨h1, h3, h4, h5, h6, h7, h8⟩

/-- The test made in the loop of `GenerateURLMapEntriesForRequest` is `Conflict`. -/
theorem findOrAdd_conflict (m : Manager) (URL : String) :
    (IsValid m (FindOrAdd m.URLToRequestMap URL).2 &&
      decide (Pin m (FindOrAdd m.URLToRequestMap URL).2 ≠ some R)) = Conflict m R URL := by
  unfold FindOrAdd Conflict
  cases h : m.URLToRequestMap URL <;> simp [IsValid]

theorem genStep_frame (acc : Manager × Bool) (URL : String) :
    SameButTableEffects acc.1 (GenerateURLMapEntriesStep R acc URL).1 := by
  unfold GenerateURLMapEntriesStep
  dsimp only
  split_ifs <;> simp [SameButTableEffects, CompleteWithExistingResponseData, emit]

theorem genStep_flag (acc : Manager × Bool) (URL : String) :
    (GenerateURLMapEntriesStep R acc URL).2 = (acc.2 && !Conflict acc.1 R URL) := by
  unfold GenerateURLMapEntriesStep
  dsimp only
  rw [findOrAdd_conflict]
  cases Conflict acc.1 R URL <;> simp

theorem genStep_effects (acc : Manager × Bool) (URL : String) :
    (GenerateURLMapEntriesStep R acc URL).1.Effects = acc.1.Effects ++
      (if Conflict acc.1 R URL then [Effect.CompleteWithExistingResponseData R UnknownResponse]
       else []) := by
  unfold GenerateURLMapEntriesStep
  dsimp only
  rw [findOrAdd_conflict]
  cases Conflict acc.1 R URL <;>
    simp [CompleteWithExistingResponseData, emit, UnknownResponse]

theorem genStep_map (acc : Manager × Bool) (URL k : String) :
    (GenerateURLMapEntriesStep R acc URL).1.URLToRequestMap k =
      if k = URL ∧ Conflict acc.1 R URL = false then some (some R)
      else acc.1.URLToRequestMap k := by
  unfold GenerateURLMapEntriesStep
  dsimp only
  rw [findOrAdd_conflict]
  cases hc : Conflict acc.1 R URL
  · by_cases hk : k = URL <;> simp [mapSet, hk, FindOrAdd]
    cases h : acc.1.URLToRequestMap URL <;> simp [mapSet, hk]
  · simp only [Bool.not_true, Bool.false_eq_true, ↓reduceIte, and_false,
      CompleteWithExistingResponseData, emit]
    unfold Conflict at hc
    unfold FindOrAdd
    cases h : acc.1.URLToRequestMap URL
    · rw [h] at hc; simp at hc
    · simp

theorem genStep_conflict (acc : Manager × Bool) (URL k : String) :
    Conflict (GenerateURLMapEntriesStep R acc URL).1 R k = Conflict acc.1 R k := by
  have hreq := (genStep_frame R acc URL).1
  unfold Conflict
  rw [genStep_map]
  split_ifs with h
  · obtain ⟨hk, hc⟩ := h
    subst hk
    unfold Conflict at hc
    rw [hc]
    cases hq : (GenerateURLMapEntriesStep R acc k).1.Requests R <;> simp [IsValid, Pin, hq]
  · simp only [IsValid, Pin, hreq]

theorem genFold_frame (l : List String) (acc : Manager × Bool) :
    SameButTableEffects acc.1 (l.foldl (GenerateURLMapEntriesStep R) acc).1 := by
  induction l generalizing acc with
  | nil => exact SameButTableEffects.unchanged _
  | cons u l ih =>
    simp only [List.foldl_cons]
    exact (genStep_frame R acc u).thenFrame (ih _)

theorem genFold_flag (l : List String) (acc : Manager × Bool) :
    (l.foldl (GenerateURLMapEntriesStep R) acc).2 =
      (acc.2 && l.all (fun k => !Conflict acc.1 R k)) := by
  induction l generalizing acc with
  | nil => simp
  | cons u l ih =>
    simp only [List.foldl_cons, List.all_cons]
    rw [ih, genStep_flag]
    simp only [genStep_conflict, Bool.and_assoc]

theorem genFold_effects (l : List String) (acc : Manager × Bool) :
    (l.foldl (GenerateURLMapEntriesStep R) acc).1.Effects = acc.1.Effects ++
      List.replicate (l.countP (Conflict acc.1 R))
        (Effect.CompleteWithExistingResponseData R UnknownResponse) := by
  induction l generalizing acc with
  | nil => simp
  | cons u l ih =>
    simp only [List.foldl_cons]
    rw [ih, genStep_effects]
    have hc : Conflict (GenerateURLMapEntriesStep R acc u).1 R = Conflict acc.1 R := by
      funext k; exact genStep_conflict R acc u k
    rw [hc, List.countP_cons]
    cases Conflict acc.1 R u
    · simp
    · simp [List.replicate_succ, Nat.add_comm]

theorem genFold_map (l : List String) (acc : Manager × Bool) (k : String) :
    (l.foldl (GenerateURLMapEntriesStep R) acc).1.URLToRequestMap k =
      if k ∈ l ∧ Conflict acc.1 R k = false then some (some R)
      else acc.1.URLToRequestMap k := by
  induction l generalizing acc with
  | nil => simp
  | cons u l ih =>
    simp only [List.foldl_cons]
    rw [ih, genStep_conflict, genStep_map]
    by_cases hk : k = u
    · subst hk
      by_cases hc : Conflict acc.1 R k = false <;> simp [hc]
    · simp [hk]

end Generate

section GenerateResult

variable (R : RequestId)

/-- State after the registration loop, before any roll-back. -/
theorem generate_of_conflict (m : Manager) (URL : String) (hu : URL ∈ GetURLList m R)
    (hc : Conflict m R URL = true) :
    GenerateURLMapEntriesForRequest m R =
      (RemoveURLMapEntriesForRequest
        ((GetURLList m R).foldl (GenerateURLMapEntriesStep R) (m, true)).1 R, false) := by
  have hflag : ((GetURLList m R).foldl (GenerateURLMapEntriesStep R) (m, true)).2 = false := by
    rw [genFold_flag]
    simp only [Bool.true_and, List.all_eq_false]
    exact ⟨URL, hu, by simp [hc]⟩
  unfold GenerateURLMapEntriesForRequest
  simp [hflag]

theorem generate_of_no_conflict (m : Manager) (hc : ∀ URL ∈ GetURLList m R, Conflict m R URL = false) :
    GenerateURLMapEntriesForRequest m R =
      (((GetURLList m R).foldl (GenerateURLMapEntriesStep R) (m, true)).1, true) := by
  have hflag : ((GetURLList m R).foldl (GenerateURLMapEntriesStep R) (m, true)).2 = true := by
    rw [genFold_flag]
    simp only [Bool.true_and, List.all_eq_true]
    intro k hk
    simp [hc k hk]
  unfold GenerateURLMapEntriesForRequest
  simp [hflag]

theorem generate_flag (m : Manager) :
    (GenerateURLMapEntriesForRequest m R).2 =
      (GetURLList m R).all (fun k => !Conflict m R k) := by
  unfold GenerateURLMapEntriesForRequest
  dsimp only
  split_ifs with h
  · rw [genFold_flag] at h; simpa using h
  · rw [genFold_flag] at h; simpa using h

theorem getURLList_of_frame {m n : Manager} (h : n.Requests = m.Requests) :
    GetURLList n R = GetURLList m R := by
  unfold GetURLList
  rw [h]

theorem generate_frame (m : Manager) :
    SameButTableEffects m (GenerateURLMapEntriesForRequest m R).1 := by
  unfold GenerateURLMapEntriesForRequest
  dsimp only
  split_ifs
  · exact (genFold_frame R _ (m, true)).thenFrame (removeFold_frame R _ _).dropEffects
  · exact genFold_frame R _ (m, true)

theorem generate_effects (m : Manager) :
    (GenerateURLMapEntriesForRequest m R).1.Effects = m.Effects ++
      List.replicate ((GetURLList m R).countP (Conflict m R))
        (Effect.CompleteWithExistingResponseData R UnknownResponse) := by
  unfold GenerateURLMapEntriesForRequest
  dsimp only
  split_ifs
  · unfold RemoveURLMapEntriesForRequest
    rw [(removeFold_frame R _ _).2.1, genFold_effects]
  · rw [genFold_effects]

/-- Keys outside the URL list of `R` keep their entry. -/
theorem generate_other (m : Manager) (k : String) (hk : k ∉ GetURLList m R) :
    (GenerateURLMapEntriesForRequest m R).1.URLToRequestMap k = m.URLToRequestMap k := by
  have hl : GetURLList ((GetURLList m R).foldl (GenerateURLMapEntriesStep R) (m, true)).1 R
      = GetURLList m R := getURLList_of_frame R (genFold_frame R _ (m, true)).1
  unfold GenerateURLMapEntriesForRequest
  dsimp only
  split_ifs
  · unfold RemoveURLMapEntriesForRequest
    rw [hl, removeFold_other R _ _ k hk, genFold_map]
    simp [hk]
  · rw [genFold_map]
    simp [hk]

/-- A conflicting entry (owned by a live request other than `R`) is never changed. -/
theorem generate_keeps_foreign (m : Manager) (k : String) (hc : Conflict m R k = true) :
    (GenerateURLMapEntriesForRequest m R).1.URLToRequestMap k = m.URLToRequestMap k := by
  have hl : GetURLList ((GetURLList m R).foldl (GenerateURLMapEntriesStep R) (m, true)).1 R
      = GetURLList m R := getURLList_of_frame R (genFold_frame R _ (m, true)).1
  by_cases hk : k ∈ GetURLList m R
  · rw [generate_of_conflict R m k hk hc]
    dsimp only
    unfold RemoveURLMapEntriesForRequest
    rw [hl]
    have hfr := (genFold_frame R (GetURLList m R) (m, true)).1
    have hmap := genFold_map R (GetURLList m R) (m, true) k
    simp only [hc, Bool.true_eq_false, and_false, ↓reduceIte] at hmap
    unfold Conflict at hc
    cases hw : m.URLToRequestMap k with
    | none => rw [hw] at hc; simp at hc
    | some w =>
      rw [hw] at hc hmap
      simp only [Bool.and_eq_true, decide_eq_true_eq] at hc
      apply removeFold_keep R _ _ k w hmap
      rw [pin_of_frame hfr]
      exact hc.2
  · exact generate_other R m k hk

end GenerateResult

/-! ## Operations on one request leave the rest of the manager alone -/

section StableFacts

theorem Stable.noChange (m : Manager) : Stable m m := by
  simp [Stable]

theorem Stable.andThen {a b c : Manager} (hab : Stable a b) (hbc : Stable b c) : Stable a c := by
  obtain ⟨h1, h2, h3, h4, h5, h6⟩ := hab
  obtain ⟨i1, i2, i3, i4, i5, i6⟩ := hbc
  exact ⟨i1.trans h1, i2.trans h2, i3.trans h3, i4.trans h4, i5.trans h5,
    fun Q => (i6 Q).trans (h6 Q)⟩

theorem Stable.isSome {m n : Manager} (h : Stable m n) (Q : RequestId) :
    (n.Requests Q).isSome = (m.Requests Q).isSome := by
  have := h.2.2.2.2.2 Q
  cases hn : n.Requests Q <;> cases hm : m.Requests Q <;> simp [hn, hm] at this ⊢

theorem Stable.getURLList {m n : Manager} (h : Stable m n) (Q : RequestId) :
    GetURLList n Q = GetURLList m Q := by
  have := h.2.2.2.2.2 Q
  unfold GetURLList
  cases hn : n.Requests Q <;> cases hm : m.Requests Q <;>
    simp [hn, hm, Request.fixedPart] at this ⊢
  exact this.1

theorem Stable.finishFlag {m n : Manager} (h : Stable m n) (Q : RequestId) :
    (n.Requests Q).map Request.bHasAlreadyFinishedRequest =
      (m.Requests Q).map Request.bHasAlreadyFinishedRequest := by
  have := h.2.2.2.2.2 Q
  cases hn : n.Requests Q <;> cases hm : m.Requests Q <;>
    simp [hn, hm, Request.fixedPart] at this ⊢
  exact this.2.2.1

theorem Stable.findRequest {m n : Manager} (h : Stable m n) (URL : String) :
    FindRequest n URL = FindRequest m URL := by
  unfold FindRequest Pin IsValid
  rw [h.1]
  cases m.URLToRequestMap URL with
  | none => rfl
  | some w =>
    cases w with
    | none => rfl
    | some Q => simp only [h.isSome Q]

theorem stable_emit (m : Manager) (e : Effect) : Stable m (emit m e) := by
  simp [Stable, emit]

theorem stable_setRequest (m : Manager) (R : RequestId) (r r1 : Request)
    (hr : m.Requests R = some r) (hu : r1.fixedPart = r.fixedPart) :
    Stable m (setRequest m R r1) := by
  refine ⟨rfl, rfl, rfl, rfl, rfl, fun Q => ?_⟩
  unfold setRequest
  by_cases hQ : Q = R
  · subst hQ; simp [hr, hu]
  · simp [hQ]

theorem stable_AssociateWithTask (m : Manager) (R : RequestId) (t : Task) :
    Stable m (AssociateWithTask m R t).1 := by
  unfold AssociateWithTask
  cases hr : m.Requests R with
  | none => exact Stable.noChange m
  | some r =>
    dsimp only
    refine Stable.andThen ?_ (stable_emit _ _)
    exact stable_setRequest m R r _ hr rfl

theorem stable_ActivateUnderlyingTask (m : Manager) (R : RequestId) :
    Stable m (ActivateUnderlyingTask m R) := by
  unfold ActivateUnderlyingTask
  cases hr : m.Requests R with
  | none => exact Stable.noChange m
  | some r =>
    dsimp only
    refine Stable.andThen ?_ (stable_emit _ _)
    exact stable_setRequest m R r _ hr rfl

theorem stable_CancelActiveTask (m : Manager) (R : RequestId) :
    Stable m (CancelActiveTask m R) := by
  unfold CancelActiveTask
  cases hr : m.Requests R with
  | none => exact Stable.noChange m
  | some r =>
    dsimp only
    refine Stable.andThen ?_ (stable_emit _ _)
    exact stable_setRequest m R r _ hr rfl

theorem stable_SetRequestAsFailed (m : Manager) (R : RequestId) :
    Stable m (SetRequestAsFailed m R) := by
  unfold SetRequestAsFailed
  cases hr : m.Requests R with
  | none => exact Stable.noChange m
  | some r => exact stable_setRequest m R r _ hr rfl

theorem stable_GetURLForRetry (m : Manager) (R : RequestId) (b : Bool) :
    Stable m (GetURLForRetry m R b).1 := by
  unfold GetURLForRetry
  cases hr : m.Requests R with
  | none => exact Stable.noChange m
  | some r => exact stable_setRequest m R r _ hr rfl

theorem stable_ShouldUseRequestRetryData (P : Platform) (m : Manager) (R : RequestId)
    (d : NSData) : Stable m (ShouldUseRequestRetryData P m R d).1 := by
  unfold ShouldUseRequestRetryData
  cases hr : m.Requests R with
  | none => exact Stable.noChange m
  | some r =>
    dsimp only
    split_ifs
    · exact stable_setRequest m R r _ hr rfl
    · exact Stable.noChange m

theorem stable_RetryFromResumeData (P : Platform) (m : Manager) (R : RequestId) (d : NSData) :
    Stable m (RetryFromResumeData P m R d).1 := by
  unfold RetryFromResumeData
  dsimp only
  split_ifs
  · exact (stable_ShouldUseRequestRetryData P m R d).andThen (stable_emit _ _)
  · exact stable_ShouldUseRequestRetryData P m R d

theorem stable_RetryFromNextURL (P : Platform) (m : Manager) (R : RequestId) (b : Bool) :
    Stable m (RetryFromNextURL P m R b).1 := by
  unfold RetryFromNextURL
  have h1 : Stable m (match m.Requests R with
      | some r => setRequest m R { r with ResumeDataRetryCount := 0 }
      | none => m) := by
    cases hr : m.Requests R with
    | none => exact Stable.noChange m
    | some r => exact stable_setRequest m R r _ hr rfl
  dsimp only
  split_ifs
  · exact (h1.andThen (stable_GetURLForRetry _ R b)).andThen (stable_emit _ _)
  · exact h1.andThen (stable_GetURLForRetry _ R b)

theorem stable_RetryFinish (m : Manager) (R : RequestId) (b : Bool) (t : Option Task) :
    Stable m (RetryFinish m R b t) := by
  unfold RetryFinish
  cases t with
  | none => exact stable_SetRequestAsFailed m R
  | some t =>
    dsimp only
    have h1 := stable_AssociateWithTask m R t
    have h2 : Stable m (if ((AssociateWithTask m R t).1.bIsInBackground || b) = true
        then ActivateUnderlyingTask (AssociateWithTask m R t).1 R
        else (AssociateWithTask m R t).1) := by
      split_ifs
      · exact h1.andThen (stable_ActivateUnderlyingTask _ R)
      · exact h1
    revert h2
    generalize (if ((AssociateWithTask m R t).1.bIsInBackground || b) = true
        then ActivateUnderlyingTask (AssociateWithTask m R t).1 R
        else (AssociateWithTask m R t).1) = m2
    intro h2
    cases hr : m2.Requests R with
    | none => exact h2
    | some r => exact h2.andThen (stable_setRequest m2 R r _ hr rfl)

theorem stable_RetryRequest (P : Platform) (m : Manager) (R : RequestId) (b1 b2 : Bool)
    (d : NSData) : Stable m (RetryRequest P m R b1 b2 d) := by
  unfold RetryRequest
  cases hr : m.Requests R with
  | none => exact Stable.noChange m
  | some r =>
    dsimp only
    have h1 := stable_RetryFromResumeData P m R d
    cases ht : (RetryFromResumeData P m R d).2 with
    | some t => exact h1.andThen (stable_RetryFinish _ R b2 _)
    | none =>
      exact (h1.andThen (stable_RetryFromNextURL P _ R b1)).andThen (stable_RetryFinish _ R b2 _)

theorem stable_CheckLoop (R : RequestId) (l : List String) (m : Manager) :
    Stable m (CheckForExistingUnAssociatedTaskLoop R m l).1 := by
  induction l generalizing m with
  | nil => exact Stable.noChange m
  | cons u l ih =>
    unfold CheckForExistingUnAssociatedTaskLoop
    cases hf : m.UnAssociatedTasks.lookup u with
    | none => exact ih m
    | some t =>
      dsimp only
      have h1 := stable_AssociateWithTask m R t
      split_ifs
      · refine h1.andThen ?_
        generalize (AssociateWithTask m R t).1 = a
        cases hr : a.Requests R with
        | none => simp [Stable, emit]
        | some r =>
          have := stable_setRequest a R r
            { r with bWasTaskStartedInBG := true, FirstTask := r.FirstTask.map Task.suspend }
            hr rfl
          obtain ⟨i1, i2, i3, i4, i5, i6⟩ := this
          exact ⟨i1, i2, i3, i4, i5, i6⟩
      · refine h1.andThen (Stable.andThen ?_ (ih _))
        simp [Stable]

theorem stable_CheckForExistingUnAssociatedTask (m : Manager) (R : RequestId) :
    Stable m (CheckForExistingUnAssociatedTask m R).1 := by
  unfold CheckForExistingUnAssociatedTask
  cases m.Requests R with
  | none => exact Stable.noChange m
  | some r => exact stable_CheckLoop R _ m

end StableFacts

/-! ## Conflicts -/

theorem conflict_iff (m : Manager) (R : RequestId) (URL : String) :
    Conflict m R URL = true ↔
      ∃ Q, m.URLToRequestMap URL = some (some Q) ∧ Q ≠ R ∧ (m.Requests Q).isSome = true := by
  unfold Conflict
  cases h : m.URLToRequestMap URL with
  | none => simp
  | some w =>
    cases w with
    | none => simp [IsValid]
    | some Q =>
      cases hq : m.Requests Q <;> simp [IsValid, Pin, hq]

theorem routingConflict_iff (m : Manager) (R : RequestId) :
    RoutingConflict m R ↔ ∃ URL ∈ GetURLList m R, Conflict m R URL = true := by
  unfold RoutingConflict
  constructor
  · rintro ⟨u, hu, h⟩
    exact ⟨u, hu, (conflict_iff m R u).mpr h⟩
  · rintro ⟨u, hu, h⟩
    exact ⟨u, hu, (conflict_iff m R u).mp h⟩

theorem routingConflict_alive (m : Manager) (R : RequestId) (h : RoutingConflict m R) :
    (m.Requests R).isSome = true := by
  obtain ⟨u, hu, _⟩ := h
  unfold GetURLList at hu
  cases hr : m.Requests R with
  | none => rw [hr] at hu; simp at hu
  | some r => rfl

theorem no_routingConflict (m : Manager) (R : RequestId) (h : ¬ RoutingConflict m R) :
    ∀ URL ∈ GetURLList m R, Conflict m R URL = false := by
  intro u hu
  cases hc : Conflict m R u with
  | false => rfl
  | true => exact absurd ((routingConflict_iff m R).mpr ⟨u, hu, hc⟩) h

/-! ## C2: a request becomes active exactly when its registration succeeds -/

/-- The adoption loop either adopts one pooled task (two outgoing calls: the
association and the suspension of that task) or changes nothing. -/
theorem checkLoop_cases (R : RequestId) (l : List String) (m : Manager)
    (hR : (m.Requests R).isSome = true) :
    ((CheckForExistingUnAssociatedTaskLoop R m l).2 = false →
      (CheckForExistingUnAssociatedTaskLoop R m l).1 = m) ∧
    ((CheckForExistingUnAssociatedTaskLoop R m l).2 = true →
      ∃ t, (CheckForExistingUnAssociatedTaskLoop R m l).1.Effects =
        m.Effects ++ [Effect.AssociateWithTask R t, Effect.suspend t]) := by
  induction l with
  | nil => simp [CheckForExistingUnAssociatedTaskLoop]
  | cons u l ih =>
    unfold CheckForExistingUnAssociatedTaskLoop
    cases hf : m.UnAssociatedTasks.lookup u with
    | none => exact ih
    | some t =>
      obtain ⟨r, hr⟩ := Option.isSome_iff_exists.mp hR
      refine ⟨?_, fun _ => ⟨t, ?_⟩⟩
      · simp [AssociateWithTask, hr]
      · simp [AssociateWithTask, hr, emit, setRequest]

/-- C2: if some URL of `R` is owned by a different live request, `AddRequest`
leaves the active set, its counter, every request record and the pool of
unassociated tasks unchanged, and its only outgoing calls are Unknown completions
of `R`. Otherwise, for a valid `R` that the base class does not associate with
an existing request, `R` is appended to the active set, the counter grows by
one, and the state is that of `RetryRequest(R, false, false, nullptr)` made
active exactly when no unassociated task was adopted; when one was adopted the
only outgoing calls are its association and suspension. -/
theorem C2_AddRequest_active_iff_registered (P : Platform) (m : Manager) (R : RequestId) :
    (RoutingConflict m R →
      (AddRequest P m R).ActiveRequests = m.ActiveRequests ∧
      (AddRequest P m R).NumCurrentlyActiveRequests = m.NumCurrentlyActiveRequests ∧
      (AddRequest P m R).Requests = m.Requests ∧
      (AddRequest P m R).UnAssociatedTasks = m.UnAssociatedTasks ∧
      ∃ n, 0 < n ∧ (AddRequest P m R).Effects = m.Effects ++ List.replicate n
        (Effect.CompleteWithExistingResponseData R ⟨EHttpResponseCodes.Unknown, ""⟩)) ∧
    (¬ RoutingConflict m R → (m.Requests R).isSome = true → P.ExistingResponse R = none →
      (AddRequest P m R).ActiveRequests = m.ActiveRequests ++ [R] ∧
      (AddRequest P m R).NumCurrentlyActiveRequests = m.NumCurrentlyActiveRequests + 1 ∧
      ((AssociateWithAnyExistingUnAssociatedTasks (GenerateURLMapEntriesForRequest m R).1 R).2
          = false →
        AddRequest P m R = MakeActive
          (RetryRequest P (GenerateURLMapEntriesForRequest m R).1 R false false none) R) ∧
      ((AssociateWithAnyExistingUnAssociatedTasks (GenerateURLMapEntriesForRequest m R).1 R).2
          = true →
        AddRequest P m R = MakeActive
          (AssociateWithAnyExistingUnAssociatedTasks (GenerateURLMapEntriesForRequest m R).1 R).1
          R ∧
        ∃ t, (AddRequest P m R).Effects =
          m.Effects ++ [Effect.AssociateWithTask R t, Effect.suspend t])) := by
  constructor
  · intro hconf
    obtain ⟨r, hr⟩ := Option.isSome_iff_exists.mp (routingConflict_alive m R hconf)
    obtain ⟨u, hu, hc⟩ := (routingConflict_iff m R).mp hconf
    have hflag : (GenerateURLMapEntriesForRequest m R).2 = false := by
      rw [generate_of_conflict R m u hu hc]
    have hadd : AddRequest P m R = (GenerateURLMapEntriesForRequest m R).1 := by
      unfold AddRequest
      simp [hr, hflag]
    obtain ⟨h1, h2, _, h4, h5, _, _⟩ := generate_frame R m
    rw [hadd]
    refine ⟨h2, h5, h1, h4, (GetURLList m R).countP (Conflict m R), ?_, generate_effects R m⟩
    exact List.countP_pos_iff.mpr ⟨u, hu, hc⟩
  · intro hno hR hex
    obtain ⟨r, hr⟩ := Option.isSome_iff_exists.mp hR
    have hgen := generate_of_no_conflict R m (no_routingConflict m R hno)
    have hflag : (GenerateURLMapEntriesForRequest m R).2 = true := by rw [hgen]
    have hfr := generate_frame R m
    have heff : (GenerateURLMapEntriesForRequest m R).1.Effects = m.Effects := by
      rw [generate_effects]
      have : (GetURLList m R).countP (Conflict m R) = 0 := by
        rw [List.countP_eq_zero]
        intro a ha
        simp [no_routingConflict m R hno a ha]
      simp [this]
    have hgR : ((GenerateURLMapEntriesForRequest m R).1.Requests R).isSome = true := by
      rw [hfr.1]; exact hR
    have hadd : AddRequest P m R = MakeActive
        (if (!(AssociateWithAnyExistingUnAssociatedTasks
              (GenerateURLMapEntriesForRequest m R).1 R).2) = true
          then StartRequest P
            (AssociateWithAnyExistingUnAssociatedTasks (GenerateURLMapEntriesForRequest m R).1 R).1
            R
          else (AssociateWithAnyExistingUnAssociatedTasks
            (GenerateURLMapEntriesForRequest m R).1 R).1) R := by
      unfold AddRequest
      simp [hr, hflag, AssociateWithAnyExistingRequest, hex]
    have hcheck : ∀ g : Manager, (g.Requests R).isSome = true →
        ((AssociateWithAnyExistingUnAssociatedTasks g R).2 = false →
          (AssociateWithAnyExistingUnAssociatedTasks g R).1 = g) ∧
        ((AssociateWithAnyExistingUnAssociatedTasks g R).2 = true →
          ∃ t, (AssociateWithAnyExistingUnAssociatedTasks g R).1.Effects =
            g.Effects ++ [Effect.AssociateWithTask R t, Effect.suspend t]) := by
      intro g hg
      obtain ⟨rg, hrg⟩ := Option.isSome_iff_exists.mp hg
      unfold AssociateWithAnyExistingUnAssociatedTasks CheckForExistingUnAssociatedTask
      rw [hrg]
      exact checkLoop_cases R rg.URLList g hg
    have hst : Stable (GenerateURLMapEntriesForRequest m R).1
        (if (!(AssociateWithAnyExistingUnAssociatedTasks
              (GenerateURLMapEntriesForRequest m R).1 R).2) = true
          then StartRequest P
            (AssociateWithAnyExistingUnAssociatedTasks (GenerateURLMapEntriesForRequest m R).1 R).1
            R
          else (AssociateWithAnyExistingUnAssociatedTasks
            (GenerateURLMapEntriesForRequest m R).1 R).1) := by
      have hc := stable_CheckForExistingUnAssociatedTask (GenerateURLMapEntriesForRequest m R).1 R
      split_ifs
      · exact hc.andThen (stable_RetryRequest P _ R false false none)
      · exact hc
    obtain ⟨hc1, hc2⟩ := hcheck _ hgR
    rw [hadd]
    refine ⟨?_, ?_, ?_, ?_⟩
    · simp only [MakeActive]
      rw [hst.2.1, hfr.2.1]
    · simp only [MakeActive]
      rw [hst.2.2.2.1, hfr.2.2.2.2.1]
    · intro hu
      rw [hu, hc1 hu]
      rfl
    · intro hu
      obtain ⟨t, ht⟩ := hc2 hu
      rw [hu]
      refine ⟨rfl, t, ?_⟩
      simp only [MakeActive, Bool.not_true, Bool.false_eq_true, ↓reduceIte]
      rw [ht, heff]

/-- The empty routing table has no conflict. -/
theorem init_no_conflict (H : RequestId → Option Request) (R : RequestId) :
    ¬ RoutingConflict (Manager.init H) R := by
  rintro ⟨u, _, Q, h, _⟩
  simp [Manager.init] at h

/-- C2 at concrete inputs: request 2 is rejected next to request 1; request 1 is
accepted by an empty manager. -/
theorem C2_AddRequest_active_iff_registered_witness :
    (AddRequest (exPlatform 0) exRegistered 2).ActiveRequests = [] ∧
    (AddRequest (exPlatform 0) (Manager.init exHeap) 1).ActiveRequests = [1] :=
  ⟨((C2_AddRequest_active_iff_registered (exPlatform 0) exRegistered 2).1
      ⟨"B", by decide, 1, by decide, by decide, by decide⟩).1,
   ((C2_AddRequest_active_iff_registered (exPlatform 0) (Manager.init exHeap) 1).2
      (init_no_conflict exHeap 1) (by decide) rfl).1⟩

/-! ## C3: routing ownership is exclusive -/

theorem stable_AssociateWithAnyExistingRequest (P : Platform) (m : Manager) (R : RequestId) :
    Stable m (AssociateWithAnyExistingRequest P m R).1 := by
  unfold AssociateWithAnyExistingRequest
  cases P.ExistingResponse R with
  | none => exact Stable.noChange m
  | some resp => exact stable_emit m _

/-- Result of `AddRequest` on a valid request: the state after registration,
changed by operations on the request alone, and possibly made active. -/
theorem addRequest_cases (P : Platform) (m : Manager) (R : RequestId)
    (hR : (m.Requests R).isSome = true) :
    ∃ n, Stable (GenerateURLMapEntriesForRequest m R).1 n ∧
      (AddRequest P m R = n ∨ AddRequest P m R = MakeActive n R) := by
  obtain ⟨r, hr⟩ := Option.isSome_iff_exists.mp hR
  have he := stable_AssociateWithAnyExistingRequest P (GenerateURLMapEntriesForRequest m R).1 R
  have hc := stable_CheckForExistingUnAssociatedTask
    (AssociateWithAnyExistingRequest P (GenerateURLMapEntriesForRequest m R).1 R).1 R
  unfold AddRequest
  rw [hr]
  dsimp only
  by_cases h1 : (GenerateURLMapEntriesForRequest m R).2 = true
  · rw [if_pos h1]
    by_cases h2 : (!(AssociateWithAnyExistingRequest P
        (GenerateURLMapEntriesForRequest m R).1 R).2) = true
    · rw [if_pos h2]
      unfold AssociateWithAnyExistingUnAssociatedTasks
      by_cases h3 : (!(CheckForExistingUnAssociatedTask (AssociateWithAnyExistingRequest P
          (GenerateURLMapEntriesForRequest m R).1 R).1 R).2) = true
      · rw [if_pos h3]
        exact ⟨_, (he.andThen hc).andThen (stable_RetryRequest P _ R false false none), Or.inr rfl⟩
      · rw [if_neg h3]
        exact ⟨_, he.andThen hc, Or.inr rfl⟩
    · rw [if_neg h2]
      exact ⟨_, he, Or.inl rfl⟩
  · rw [if_neg h1]
    exact ⟨_, Stable.noChange _, Or.inl rfl⟩

theorem addRequest_heap (P : Platform) (m : Manager) (R Q : RequestId) :
    ((AddRequest P m R).Requests Q).map Request.fixedPart =
      (m.Requests Q).map Request.fixedPart := by
  by_cases hR : (m.Requests R).isSome = true
  · obtain ⟨n, hn, h⟩ := addRequest_cases P m R hR
    have hg := (generate_frame R m).1
    rcases h with h | h <;> rw [h]
    · rw [hn.2.2.2.2.2 Q, hg]
    · show (n.Requests Q).map Request.fixedPart = _
      rw [hn.2.2.2.2.2 Q, hg]
  · have : m.Requests R = none := by simpa using hR
    unfold AddRequest
    rw [this]

theorem addRequest_table (P : Platform) (m : Manager) (R : RequestId)
    (hR : (m.Requests R).isSome = true) :
    (AddRequest P m R).URLToRequestMap = (GenerateURLMapEntriesForRequest m R).1.URLToRequestMap := by
  obtain ⟨n, hn, h⟩ := addRequest_cases P m R hR
  rcases h with h | h <;> rw [h]
  · exact hn.1
  · exact hn.1

/-- An entry owned by a live request `Q` survives every operation on another request. -/
theorem applyOp_keeps_foreign (P : Platform) (m : Manager) (op : Op) (Q : RequestId)
    (k : String) (hk : m.URLToRequestMap k = some (some Q))
    (hQ : (m.Requests Q).isSome = true) (hop : op.target ≠ Q) :
    (applyOp P m op).URLToRequestMap k = some (some Q) ∧
    ((applyOp P m op).Requests Q).isSome = true := by
  cases op with
  | AddRequest R =>
    have hne : Q ≠ R := fun h => hop h.symm
    constructor
    · show (AddRequest P m R).URLToRequestMap k = _
      by_cases hR : (m.Requests R).isSome = true
      · rw [addRequest_table P m R hR,
          generate_keeps_foreign R m k ((conflict_iff m R k).mpr ⟨Q, hk, hne, hQ⟩), hk]
      · have : m.Requests R = none := by simpa using hR
        unfold AddRequest
        rw [this]
        exact hk
    · show ((AddRequest P m R).Requests Q).isSome = true
      have := addRequest_heap P m R Q
      cases h1 : (AddRequest P m R).Requests Q <;> cases h2 : m.Requests Q <;>
        simp [h1, h2] at this hQ ⊢
  | RemoveRequest R =>
    have hne : Q ≠ R := fun h => hop h.symm
    show (RemoveRequest m R).URLToRequestMap k = _ ∧ ((RemoveRequest m R).Requests Q).isSome = true
    unfold RemoveRequest
    cases hr : m.Requests R with
    | none => exact ⟨hk, hQ⟩
    | some r =>
      dsimp only
      unfold RemoveSessionTasksForRequest
      have hc := stable_CancelActiveTask (RemoveURLMapEntriesForRequest m R) R
      have hfr := removeFold_frame R (GetURLList m R) m
      constructor
      · rw [hc.1]
        unfold RemoveURLMapEntriesForRequest
        apply removeFold_keep R _ m k (some Q) hk
        simp [Pin, IsValid, hQ, hne]
      · rw [hc.isSome Q]
        unfold RemoveURLMapEntriesForRequest
        rw [hfr.1]
        exact hQ

/-- A submission of `Q` itself that meets no conflict keeps the entries of `Q`. -/
theorem addRequest_self_keeps (P : Platform) (m : Manager) (Q : RequestId) (k : String)
    (hk : m.URLToRequestMap k = some (some Q)) (hQ : (m.Requests Q).isSome = true)
    (hno : ¬ RoutingConflict m Q) :
    (AddRequest P m Q).URLToRequestMap k = some (some Q) := by
  rw [addRequest_table P m Q hQ, generate_of_no_conflict Q m (no_routingConflict m Q hno)]
  dsimp only
  rw [genFold_map]
  split_ifs
  · rfl
  · exact hk

/-- C3: `GenerateURLMapEntriesForRequest(R)` never changes an entry whose owner
is a live request other than `R`; a URL mapped to the live request `Q` stays
mapped to `Q` (and `Q` stays alive) along any sequence of `AddRequest` and
`RemoveRequest` calls none of which is applied to `Q`; a single call can take
the entry away only if it is `RemoveRequest(Q)` or a submission of `Q` itself
that meets a conflict and is rolled back; and a URL never routes to two requests
at once. -/
theorem C3_routing_ownership_exclusive (P : Platform) (m : Manager) (Q : RequestId)
    (k : String) (hk : m.URLToRequestMap k = some (some Q))
    (hQ : (m.Requests Q).isSome = true) :
    (∀ R, R ≠ Q →
      (GenerateURLMapEntriesForRequest m R).1.URLToRequestMap k = some (some Q)) ∧
    (∀ ops : List Op, (∀ op ∈ ops, op.target ≠ Q) →
      (applyOps P m ops).URLToRequestMap k = some (some Q) ∧
      ((applyOps P m ops).Requests Q).isSome = true) ∧
    (∀ op : Op, (applyOp P m op).URLToRequestMap k = some (some Q) ∨
      op = Op.RemoveRequest Q ∨ (op = Op.AddRequest Q ∧ RoutingConflict m Q)) ∧
    (∀ ops : List Op, ∀ URL A B, FindRequest (applyOps P m ops) URL = some A →
      FindRequest (applyOps P m ops) URL = some B → A = B) := by
  refine ⟨?_, ?_, ?_, ?_⟩
  · intro R hR
    rw [generate_keeps_foreign R m k ((conflict_iff m R k).mpr ⟨Q, hk, fun h => hR h.symm, hQ⟩),
      hk]
  · intro ops
    induction ops generalizing m with
    | nil => intro _; exact ⟨hk, hQ⟩
    | cons op ops ih =>
      intro hops
      obtain ⟨h1, h2⟩ := applyOp_keeps_foreign P m op Q k hk hQ (hops op (by simp))
      exact ih (applyOp P m op) h1 h2 (fun o ho => hops o (by simp [ho]))
  · intro op
    by_cases hop : op.target = Q
    · cases op with
      | RemoveRequest R =>
        right; left
        simp only [Op.target] at hop
        rw [hop]
      | AddRequest R =>
        simp only [Op.target] at hop
        subst hop
        by_cases hc : RoutingConflict m R
        · exact Or.inr (Or.inr ⟨rfl, hc⟩)
        · exact Or.inl (addRequest_self_keeps P m R k hk hQ hc)
    · exact Or.inl (applyOp_keeps_foreign P m op Q k hk hQ hop).1
  · intro ops URL A B hA hB
    rw [hA] at hB
    exact Option.some.inj hB

/-- C3 at a concrete input: URL A of request 1 survives a failed submission and a
removal of request 2. -/
theorem C3_routing_ownership_exclusive_witness :
    (applyOps (exPlatform 0) exRegistered
      [Op.AddRequest 2, Op.RemoveRequest 2]).URLToRequestMap "A" = some (some 1) :=
  ((C3_routing_ownership_exclusive (exPlatform 0) exRegistered 1 "A" (by decide)
    (by decide)).2.1 [Op.AddRequest 2, Op.RemoveRequest 2] (by decide)).1

/-! ## C4: when the resume path is chosen -/

@[simp] theorem setRequest_self (m : Manager) (R : RequestId) (r : Request) :
    (setRequest m R r).Requests R = some r := by
  simp [setRequest]

theorem isRetryDataValid_iff (d : NSData) :
    IsRetryDataValid d = true ↔ ∃ bytes, d = some bytes ∧ 0 < bytes.length := by
  cases d <;> simp [IsRetryDataValid]

/-- A value inside the range of a signed 32-bit integer is not changed by the
wrap-around. -/
theorem wrapInt32_of_range (x : Int) (h1 : -2147483648 ≤ x) (h2 : x < 2147483648) :
    wrapInt32 x = x := by
  unfold wrapInt32
  omega

/-- C5: request `R` has candidate URLs `[A, B, C]` (`B` a real, non-empty URL)
and its first task runs on `A` (cursor 0, the task URL routes to `R`); the
resume limit is 0. The resume-retry counter of `R` is not negative and below
`2^31 - 1`, as it is for every request whose first task was started (the start
leaves it at 0). When that task fails with a non-empty resume blob and an
error other than no-connectivity, the provider is never asked for a task from
resume data, the new task is requested from URL `B`, the URL-retry counter is 1
and the URL under the cursor is `B`. -/
theorem C5_limit_zero_rotates_to_B (P : Platform) (m : Manager) (R : RequestId) (r : Request)
    (A B C : String) (task : Task) (err : NSError)
    (hr : m.Requests R = some r) (hurls : r.URLList = [A, B, C]) (hcount : r.RetryCount = 0)
    (hlo : 0 ≤ r.ResumeDataRetryCount) (hhi : r.ResumeDataRetryCount < 2147483647)
    (htask : task.URL = A) (hroute : FindRequest m A = some R)
    (hlimit : P.RetryResumeDataLimitSetting = 0)
    (hblob : ∃ bytes, err.ResumeData = some bytes ∧ 0 < bytes.length)
    (hcode : err.code ≠ NSURLErrorNotConnectedToInternet) (hB : B ≠ "") :
    ∃ r1, (OnTask_DidCompleteWithError P m (some task) (some err)).Requests R = some r1 ∧
      r1.RetryCount = 1 ∧ r1.URLList.getD r1.RetryCount "" = B ∧
      r1.ResumeDataRetryCount = 0 ∧
      (OnTask_DidCompleteWithError P m (some task) (some err)).Effects =
        m.Effects ++ Effect.downloadTaskWithURL B ::
          (match P.downloadTaskWithURL B with
            | some t => [Effect.AssociateWithTask R t, Effect.ActivateUnderlyingTask R]
            | none => []) := by
  have hv := (isRetryDataValid_iff err.ResumeData).mpr hblob
  unfold OnTask_DidCompleteWithError
  simp only [htask, hroute, hcode, decide_False, Bool.not_false]
  unfold RetryRequest
  simp only [hr]
  have hw : wrapInt32 (r.ResumeDataRetryCount + 1) = r.ResumeDataRetryCount + 1 :=
    wrapInt32_of_range _ (by omega) (by omega)
  have h1 : RetryFromResumeData P m R err.ResumeData =
      (setRequest m R { r with ResumeDataRetryCount := r.ResumeDataRetryCount + 1 }, none) := by
    unfold RetryFromResumeData ShouldUseRequestRetryData
    simp only [hr, hv, hlimit, hw, ↓reduceIte]
    have hno : ¬ (r.ResumeDataRetryCount + 1 ≤ 0) := by omega
    simp [hno]
  rw [h1]
  dsimp only
  unfold RetryFromNextURL GetURLForRetry
  simp only [setRequest_self, ↓reduceIte, hcount, hurls]
  simp only [List.getD_cons_succ, List.getD_cons_zero, zero_add, hB, decide_False,
    Bool.not_false, ↓reduceIte]
  unfold RetryFinish
  cases ht : P.downloadTaskWithURL B with
  | none => simp [SetRequestAsFailed, emit, setRequest, hurls]
  | some t =>
    simp [AssociateWithTask, ActivateUnderlyingTask, emit, setRequest, hurls]

/-- C5 at a concrete input: request 1 of the example, once started on A, fails
with resume data under limit 0. -/
theorem C5_limit_zero_rotates_to_B_witness :
    ((OnTask_DidCompleteWithError (exPlatform 0) exStarted
        (some ⟨9, "A", TaskState.Running⟩) (some ⟨-1001, some [1, 2, 3]⟩)).Requests 1).map
      Request.RetryCount = some 1 := by
  obtain ⟨r1, h1, h2, _⟩ := C5_limit_zero_rotates_to_B (exPlatform 0) exStarted 1
    { Request.fresh ["A", "B", "C"] with FirstTask := some ⟨9, "A", TaskState.Suspended⟩ }
    "A" "B" "C" ⟨9, "A", TaskState.Running⟩ ⟨-1001, some [1, 2, 3]⟩
    (by decide) rfl rfl (by decide) (by decide) rfl (by decide) rfl
    ⟨[1, 2, 3], rfl, by decide⟩ (by decide) (by decide)
  rw [h1]
  simp [h2]

/-! ## C6: the error callback retries the owning request once -/

section Cursor

theorem SameCursor.keep (m : Manager) : SameCursor m m := fun _ => rfl

theorem SameCursor.next {a b c : Manager} (hab : SameCursor a b) (hbc : SameCursor b c) :
    SameCursor a c := fun Q => (hbc Q).trans (hab Q)

theorem sameCursor_emit (m : Manager) (e : Effect) : SameCursor m (emit m e) := fun _ => rfl

theorem sameCursor_setRequest (m : Manager) (R : RequestId) (r r1 : Request)
    (hr : m.Requests R = some r) (hu : r1.RetryCount = r.RetryCount) :
    SameCursor m (setRequest m R r1) := by
  intro Q
  unfold setRequest
  by_cases hQ : Q = R
  · subst hQ; simp [hr, hu]
  · simp [hQ]

theorem sameCursor_AssociateWithTask (m : Manager) (R : RequestId) (t : Task) :
    SameCursor m (AssociateWithTask m R t).1 := by
  unfold AssociateWithTask
  cases hr : m.Requests R with
  | none => exact SameCursor.keep m
  | some r =>
    dsimp only
    refine SameCursor.next ?_ (sameCursor_emit _ _)
    exact sameCursor_setRequest m R r _ hr rfl

theorem sameCursor_ActivateUnderlyingTask (m : Manager) (R : RequestId) :
    SameCursor m (ActivateUnderlyingTask m R) := by
  unfold ActivateUnderlyingTask
  cases hr : m.Requests R with
  | none => exact SameCursor.keep m
  | some r =>
    dsimp only
    refine SameCursor.next ?_ (sameCursor_emit _ _)
    exact sameCursor_setRequest m R r _ hr rfl

theorem sameCursor_SetRequestAsFailed (m : Manager) (R : RequestId) :
    SameCursor m (SetRequestAsFailed m R) := by
  unfold SetRequestAsFailed
  cases hr : m.Requests R with
  | none => exact SameCursor.keep m
  | some r => exact sameCursor_setRequest m R r _ hr rfl

theorem sameCursor_GetURLForRetry (m : Manager) (R : RequestId) :
    SameCursor m (GetURLForRetry m R false).1 := by
  unfold GetURLForRetry
  cases hr : m.Requests R with
  | none => exact SameCursor.keep m
  | some r => exact sameCursor_setRequest m R r _ hr rfl

theorem sameCursor_ShouldUseRequestRetryData (P : Platform) (m : Manager) (R : RequestId)
    (d : NSData) : SameCursor m (ShouldUseRequestRetryData P m R d).1 := by
  unfold ShouldUseRequestRetryData
  cases hr : m.Requests R with
  | none => exact SameCursor.keep m
  | some r =>
    dsimp only
    split_ifs
    · exact sameCursor_setRequest m R r _ hr rfl
    · exact SameCursor.keep m

theorem sameCursor_RetryFromResumeData (P : Platform) (m : Manager) (R : RequestId)
    (d : NSData) : SameCursor m (RetryFromResumeData P m R d).1 := by
  unfold RetryFromResumeData
  dsimp only
  split_ifs
  · exact (sameCursor_ShouldUseRequestRetryData P m R d).next (sameCursor_emit _ _)
  · exact sameCursor_ShouldUseRequestRetryData P m R d

theorem sameCursor_RetryFromNextURL (P : Platform) (m : Manager) (R : RequestId) :
    SameCursor m (RetryFromNextURL P m R false).1 := by
  unfold RetryFromNextURL
  have h1 : SameCursor m (match m.Requests R with
      | some r => setRequest m R { r with ResumeDataRetryCount := 0 }
      | none => m) := by
    cases hr : m.Requests R with
    | none => exact SameCursor.keep m
    | some r => exact sameCursor_setRequest m R r _ hr rfl
  dsimp only
  split_ifs
  · exact (h1.next (sameCursor_GetURLForRetry _ R)).next (sameCursor_emit _ _)
  · exact h1.next (sameCursor_GetURLForRetry _ R)

theorem sameCursor_RetryFinish (m : Manager) (R : RequestId) (b : Bool) (t : Option Task) :
    SameCursor m (RetryFinish m R b t) := by
  unfold RetryFinish
  cases t with
  | none => exact sameCursor_SetRequestAsFailed m R
  | some t =>
    dsimp only
    have h1 := sameCursor_AssociateWithTask m R t
    have h2 : SameCursor m (if ((AssociateWithTask m R t).1.bIsInBackground || b) = true
        then ActivateUnderlyingTask (AssociateWithTask m R t).1 R
        else (AssociateWithTask m R t).1) := by
      split_ifs
      · exact h1.next (sameCursor_ActivateUnderlyingTask _ R)
      · exact h1
    revert h2
    generalize (if ((AssociateWithTask m R t).1.bIsInBackground || b) = true
        then ActivateUnderlyingTask (AssociateWithTask m R t).1 R
        else (AssociateWithTask m R t).1) = m2
    intro h2
    cases hr : m2.Requests R with
    | none => exact h2
    | some r => exact h2.next (sameCursor_setRequest m2 R r _ hr rfl)

/-- A retry that is told not to increase the retry count leaves every URL-retry
counter as it was. -/
theorem sameCursor_RetryRequest (P : Platform) (m : Manager) (R : RequestId) (b2 : Bool)
    (d : NSData) : SameCursor m (RetryRequest P m R false b2 d) := by
  unfold RetryRequest
  cases hr : m.Requests R with
  | none => exact SameCursor.keep m
  | some r =>
    dsimp only
    have h1 := sameCursor_RetryFromResumeData P m R d
    cases ht : (RetryFromResumeData P m R d).2 with
    | some t => exact h1.next (sameCursor_RetryFinish _ R b2 _)
    | none =>
      exact (h1.next (sameCursor_RetryFromNextURL P _ R)).next (sameCursor_RetryFinish _ R b2 _)

end Cursor

theorem stable_OnTask_DidCompleteWithError (P : Platform) (m : Manager) (task : Option Task)
    (err : Option NSError) : Stable m (OnTask_DidCompleteWithError P m task err) := by
  unfold OnTask_DidCompleteWithError
  cases task with
  | none => exact Stable.noChange m
  | some task =>
    cases err with
    | none => exact Stable.noChange m
    | some err =>
      dsimp only
      cases FindRequest m task.URL with
      | none => exact Stable.noChange m
      | some R => exact stable_RetryRequest P m R _ true _

/-- C6: an error callback whose task URL routes to the live request `R` is
exactly one call `RetryRequest(R, inc, true, resume data of the error)` where
`inc` is false iff the error code is "not connected to internet"; when the URL
routes to no live request the state does not change at all; hence a run of
no-connectivity failures of tasks of `R` leaves the URL-retry counter of `R`
where it was (at 0 for a request that has not rotated yet, such as one with the
single URL A). -/
theorem C6_error_callback_retries_once (P : Platform) (m : Manager) (task : Task)
    (err : NSError) :
    (∀ R, FindRequest m task.URL = some R →
      ∃ inc : Bool, (inc = false ↔ err.code = NSURLErrorNotConnectedToInternet) ∧
        OnTask_DidCompleteWithError P m (some task) (some err) =
          RetryRequest P m R inc true err.ResumeData) ∧
    (FindRequest m task.URL = none →
      OnTask_DidCompleteWithError P m (some task) (some err) = m) ∧
    (∀ (R : RequestId) (r : Request) (calls : List (Task × NSError)),
      m.Requests R = some r →
      (∀ c ∈ calls, FindRequest m c.1.URL = some R ∧
        c.2.code = NSURLErrorNotConnectedToInternet) →
      ((errorCallbacks P m calls).Requests R).map Request.RetryCount = some r.RetryCount) := by
  refine ⟨?_, ?_, ?_⟩
  · intro R hR
    refine ⟨!decide (err.code = NSURLErrorNotConnectedToInternet), by simp, ?_⟩
    unfold OnTask_DidCompleteWithError
    simp only [hR]
  · intro hnone
    unfold OnTask_DidCompleteWithError
    simp only [hnone]
  · intro R r calls hr hcalls
    have key : ∀ (calls : List (Task × NSError)) (n : Manager), Stable m n → SameCursor m n →
        (∀ c ∈ calls, FindRequest m c.1.URL = some R ∧
          c.2.code = NSURLErrorNotConnectedToInternet) →
        SameCursor m (errorCallbacks P n calls) := by
      intro calls
      induction calls with
      | nil => intro n _ hc _; exact hc
      | cons c calls ih =>
        intro n hst hc hcalls
        obtain ⟨hroute, hcode⟩ := hcalls c (by simp)
        have hn : OnTask_DidCompleteWithError P n (some c.1) (some c.2) =
            RetryRequest P n R false true c.2.ResumeData := by
          unfold OnTask_DidCompleteWithError
          simp only [hst.findRequest, hroute, hcode, decide_True, Bool.not_true]
        unfold errorCallbacks
        simp only [List.foldl_cons]
        rw [hn]
        exact ih _ (hst.andThen (stable_RetryRequest P n R false true _))
          (hc.next (sameCursor_RetryRequest P n R true _))
          (fun c1 h1 => hcalls c1 (by simp [h1]))
    have := key calls m (Stable.noChange m) (SameCursor.keep m) hcalls R
    rw [this, hr]
    rfl

/-- C6 at a concrete input: five no-connectivity failures of the task of a request
with the single URL A leave its URL-retry counter at 0. -/
theorem C6_error_callback_retries_once_witness :
    ((errorCallbacks (exPlatform 0) exSingle
        (List.replicate 5 (⟨9, "A", TaskState.Running⟩, ⟨-1009, none⟩))).Requests 3).map
      Request.RetryCount = some 0 :=
  (C6_error_callback_retries_once (exPlatform 0) exSingle ⟨9, "A", TaskState.Running⟩
      ⟨-1009, none⟩).2.2 3
    { Request.fresh ["A"] with FirstTask := some ⟨9, "A", TaskState.Suspended⟩ }
    (List.replicate 5 (⟨9, "A", TaskState.Running⟩, ⟨-1009, none⟩)) (by decide) (by decide)

/-! ## C7: out of URLs -/

/-- State after the first block of `RetryRequest`: only the resume-retry counter
of `R` may have changed, and at most one request for a task from resume data
went out. -/
theorem retryFromResumeData_state (P : Platform) (m : Manager) (R : RequestId) (r : Request)
    (d : NSData) (hr : m.Requests R = some r) :
    ∃ c, (RetryFromResumeData P m R d).1.Requests R = some { r with ResumeDataRetryCount := c } ∧
      ((RetryFromResumeData P m R d).1.Effects = m.Effects ∨
        (RetryFromResumeData P m R d).1.Effects =
          m.Effects ++ [Effect.downloadTaskWithResumeData (d.getD [])]) := by
  unfold RetryFromResumeData ShouldUseRequestRetryData
  simp only [hr]
  cases IsRetryDataValid d
  · exact ⟨r.ResumeDataRetryCount, by simp [hr], Or.inl (by simp)⟩
  · refine ⟨wrapInt32 (r.ResumeDataRetryCount + 1), ?_⟩
    simp only [↓reduceIte]
    split_ifs
    · exact ⟨by simp [emit, setRequest], Or.inr (by simp [emit, setRequest])⟩
    · exact ⟨by simp [setRequest], Or.inl (by simp [setRequest])⟩

/-- C7: when the first block of `RetryRequest` yields no task and
`GetURLForRetry` returns the empty string, the request is marked failed, its
task and its started-in-background flag are what they were, and nothing goes
out except, possibly, the unanswered request for a task from resume data: no
task is created from a URL, none is associated, none is activated. -/
theorem C7_out_of_urls_marks_failed (P : Platform) (m : Manager) (R : RequestId) (r : Request)
    (inc imm : Bool) (RetryData : NSData) (hr : m.Requests R = some r)
    (hres : (RetryFromResumeData P m R RetryData).2 = none)
    (hurl : (GetURLForRetry m R inc).2 = "") :
    ∃ r1, (RetryRequest P m R inc imm RetryData).Requests R = some r1 ∧
      r1.bIsFailed = true ∧ r1.FirstTask = r.FirstTask ∧
      r1.bWasTaskStartedInBG = r.bWasTaskStartedInBG ∧
      ((RetryRequest P m R inc imm RetryData).Effects = m.Effects ∨
        (RetryRequest P m R inc imm RetryData).Effects =
          m.Effects ++ [Effect.downloadTaskWithResumeData (RetryData.getD [])]) := by
  obtain ⟨c, hc, heff⟩ := retryFromResumeData_state P m R r RetryData hr
  have hurl1 : r.URLList.getD (if inc = true then r.RetryCount + 1 else r.RetryCount) "" = "" := by
    unfold GetURLForRetry at hurl
    simpa [hr] using hurl
  unfold RetryRequest
  simp only [hr, hres]
  revert hc heff
  generalize (RetryFromResumeData P m R RetryData).1 = a
  intro hc heff
  unfold RetryFromNextURL GetURLForRetry
  simp only [hc, setRequest_self, hurl1, decide_True, Bool.not_true, Bool.false_eq_true,
    ↓reduceIte]
  unfold RetryFinish SetRequestAsFailed
  simp only [setRequest_self]
  refine ⟨_, rfl, rfl, rfl, rfl, ?_⟩
  simpa [setRequest] using heff

/-- C7 at a concrete input: the request with the single URL A has no URL left
after a counted failure. -/
theorem C7_out_of_urls_marks_failed_witness :
    ((RetryRequest (exPlatform 0) exSingle 3 true true none).Requests 3).map Request.bIsFailed
      = some true := by
  obtain ⟨r1, h1, h2, _⟩ := C7_out_of_urls_marks_failed (exPlatform 0) exSingle 3
    { Request.fresh ["A"] with FirstTask := some ⟨9, "A", TaskState.Suspended⟩ }
    true true none (by decide) (by decide) (by decide)
  rw [h1]
  simp [h2]

/-! ## C8: how often `bHasAlreadyFinishedRequest` goes from false to true -/

section FinishFlag

theorem flagOf_of_fixedPart {m n : Manager} (R : RequestId)
    (h : (n.Requests R).map Request.fixedPart = (m.Requests R).map Request.fixedPart) :
    flagOf n R = flagOf m R := by
  unfold flagOf
  cases hn : n.Requests R <;> cases hm : m.Requests R <;>
    simp [hn, hm, Request.fixedPart] at h ⊢
  exact h.2.2.1

theorem removeRequest_heap (m : Manager) (Q R : RequestId) :
    ((RemoveRequest m Q).Requests R).map Request.fixedPart =
      (m.Requests R).map Request.fixedPart := by
  unfold RemoveRequest
  cases hq : m.Requests Q with
  | none => rfl
  | some q =>
    dsimp only
    unfold RemoveSessionTasksForRequest
    rw [(stable_CancelActiveTask _ Q).2.2.2.2.2 R]
    unfold RemoveURLMapEntriesForRequest
    rw [(removeFold_frame Q _ m).1]

/-- Finalising one request does not touch the record of another. -/
theorem finishRequest_other (P : Platform) (m : Manager) (Q R : RequestId) (h : R ≠ Q) :
    (FinishRequest P m Q).Requests R = m.Requests R := by
  unfold FinishRequest ExchangeHasAlreadyFinishedRequest FinishRequestBody
  cases hq : m.Requests Q with
  | none => simp
  | some q =>
    simp only [setRequest_self]
    split_ifs <;>
      simp [setRequest, h, CompleteWithExistingResponseData, emit, CancelActiveTask]

/-- Flag of `R` after `FinishRequest(R)`: once set it stays set; set by this call
it survives unless the temp file is missing and the request is not flagged
failed. -/
theorem flagOf_finishRequest (P : Platform) (m : Manager) (R : RequestId) (r : Request)
    (hr : m.Requests R = some r) :
    flagOf (ExchangeHasAlreadyFinishedRequest m R).1 R = true ∧
    flagOf (FinishRequest P m R) R =
      (r.bHasAlreadyFinishedRequest ||
        (P.FileExists r.CompletedTempDownloadLocation || r.bIsFailed)) ∧
    ∃ r1, (FinishRequest P m R).Requests R = some r1 ∧
      r1.CompletedTempDownloadLocation = r.CompletedTempDownloadLocation ∧
      (r.bIsFailed = true → r1.bIsFailed = true) := by
  unfold FinishRequest ExchangeHasAlreadyFinishedRequest FinishRequestBody flagOf
  simp only [hr, setRequest_self]
  cases hf : r.bHasAlreadyFinishedRequest <;> cases hx : P.FileExists r.CompletedTempDownloadLocation <;>
    cases hb : r.bIsFailed <;> cases hbg : m.bIsInBackground <;>
    simp [setRequest, CompleteWithExistingResponseData, emit, CancelActiveTask, hbg, hb]

/-- Steps other than `FinishRequest(R)` leave the flag of `R` and its temp
location alone and keep `R` alive. -/
theorem applyStep_other (P : Platform) (m : Manager) (R : RequestId) (s : Step)
    (hs : s ≠ Step.FinishRequest R) :
    flagOf (applyStep P m s) R = flagOf m R ∧
    ((applyStep P m s).Requests R).map Request.CompletedTempDownloadLocation =
      (m.Requests R).map Request.CompletedTempDownloadLocation := by
  have key : ∀ n : Manager,
      (n.Requests R).map Request.fixedPart = (m.Requests R).map Request.fixedPart →
      flagOf n R = flagOf m R ∧
      (n.Requests R).map Request.CompletedTempDownloadLocation =
        (m.Requests R).map Request.CompletedTempDownloadLocation := by
    intro n h
    refine ⟨flagOf_of_fixedPart R h, ?_⟩
    cases hn : n.Requests R <;> cases hm : m.Requests R <;>
      simp [hn, hm, Request.fixedPart] at h ⊢
    exact h.2.2.2.1
  cases s with
  | AddRequest Q => exact key _ (addRequest_heap P m Q R)
  | RemoveRequest Q => exact key _ (removeRequest_heap m Q R)
  | DidCompleteWithError task err =>
    exact key _ ((stable_OnTask_DidCompleteWithError P m (some task) (some err)).2.2.2.2.2 R)
  | FinishRequest Q =>
    have hne : R ≠ Q := fun h => hs (by rw [h])
    exact key _ (by rw [show applyStep P m (Step.FinishRequest Q) = FinishRequest P m Q from rfl,
      finishRequest_other P m Q R hne])

theorem risingEdges_cons_cons (a b : Bool) (l : List Bool) :
    risingEdges (a :: b :: l) = (if (!a && b) = true then 1 else 0) + risingEdges (b :: l) := by
  simp [risingEdges]

theorem flagTrace_append (P : Platform) (R : RequestId) (m : Manager) (l1 l2 : List Step) :
    flagTrace P R m (l1 ++ l2) =
      flagTrace P R m l1 ++ flagTrace P R (applySteps P m l1) l2 := by
  induction l1 generalizing m with
  | nil => rfl
  | cons s l1 ih =>
    show stepFlagValues P R m s ++ flagTrace P R (applyStep P m s) (l1 ++ l2) =
      (stepFlagValues P R m s ++ flagTrace P R (applyStep P m s) l1) ++
        flagTrace P R (applySteps P (applyStep P m s) l1) l2
    rw [ih, List.append_assoc]

/-- Flag values of one step that is not `FinishRequest(R)`: the old value, once
or twice. -/
theorem stepFlagValues_other (P : Platform) (m : Manager) (R : RequestId) (s : Step)
    (hs : s ≠ Step.FinishRequest R) :
    stepFlagValues P R m s = [flagOf m R] ∨
      stepFlagValues P R m s = [flagOf m R, flagOf m R] := by
  cases s with
  | AddRequest Q =>
    left; simp only [stepFlagValues]; rw [(applyStep_other P m R _ hs).1]
  | RemoveRequest Q =>
    left; simp only [stepFlagValues]; rw [(applyStep_other P m R _ hs).1]
  | DidCompleteWithError task err =>
    left; simp only [stepFlagValues]; rw [(applyStep_other P m R _ hs).1]
  | FinishRequest Q =>
    right
    have hne : R ≠ Q := fun h => hs (by rw [h])
    have h1 : flagOf (ExchangeHasAlreadyFinishedRequest m Q).1 R = flagOf m R := by
      unfold ExchangeHasAlreadyFinishedRequest flagOf
      cases hq : m.Requests Q <;> simp [setRequest, hne]
    have h2 := (applyStep_other P m R _ hs).1
    simp only [stepFlagValues, h1]
    rw [show FinishRequest P m Q = applyStep P m (Step.FinishRequest Q) from rfl, h2]

/-- Flag values of `FinishRequest(R)` on a live request. -/
theorem stepFlagValues_finish (P : Platform) (m : Manager) (R : RequestId) (r : Request)
    (hr : m.Requests R = some r) :
    stepFlagValues P R m (Step.FinishRequest R) =
      [true, (r.bHasAlreadyFinishedRequest ||
        (P.FileExists r.CompletedTempDownloadLocation || r.bIsFailed))] := by
  obtain ⟨h1, h2, _⟩ := flagOf_finishRequest P m R r hr
  simp only [stepFlagValues, h1, h2]

theorem flagOf_eq (m : Manager) (R : RequestId) (r : Request) (hr : m.Requests R = some r) :
    flagOf m R = r.bHasAlreadyFinishedRequest := by
  simp [flagOf, hr]

/-- A step other than `FinishRequest(R)` adds no rising edge. -/
theorem risingEdges_step_other (P : Platform) (m : Manager) (R : RequestId) (s : Step)
    (hs : s ≠ Step.FinishRequest R) (l : List Bool) :
    risingEdges (flagOf m R :: (stepFlagValues P R m s ++ l)) = risingEdges (flagOf m R :: l) := by
  rcases stepFlagValues_other P m R s hs with h | h <;> rw [h] <;>
    cases flagOf m R <;> simp [risingEdges_cons_cons]

/-- Once the flag of `R` is set, no sequence of operations makes it rise again,
and it stays set. -/
theorem flag_stays_set (P : Platform) (R : RequestId) (steps : List Step) (m : Manager)
    (hf : flagOf m R = true) (l : List Bool) :
    risingEdges (true :: (flagTrace P R m steps ++ l)) = risingEdges (true :: l) ∧
    flagOf (applySteps P m steps) R = true := by
  induction steps generalizing m with
  | nil => exact ⟨rfl, hf⟩
  | cons s steps ih =>
    have hrec : flagOf (applyStep P m s) R = true ∧
        risingEdges (true :: (stepFlagValues P R m s ++
          (flagTrace P R (applyStep P m s) steps ++ l))) =
        risingEdges (true :: (flagTrace P R (applyStep P m s) steps ++ l)) := by
      by_cases hs : s = Step.FinishRequest R
      · subst hs
        cases hr : m.Requests R with
        | none => simp [flagOf, hr] at hf
        | some r =>
          have hfr : r.bHasAlreadyFinishedRequest = true := by
            rw [← flagOf_eq m R r hr]; exact hf
          obtain ⟨_, h2, _⟩ := flagOf_finishRequest P m R r hr
          refine ⟨by simp [applyStep, h2, hfr], ?_⟩
          rw [stepFlagValues_finish P m R r hr, hfr]
          simp [risingEdges_cons_cons]
      · refine ⟨by rw [(applyStep_other P m R s hs).1, hf], ?_⟩
        have := risingEdges_step_other P m R s hs
          (flagTrace P R (applyStep P m s) steps ++ l)
        rw [hf] at this
        exact this
    obtain ⟨h1, h2⟩ := ih (applyStep P m s) hrec.1
    refine ⟨?_, h2⟩
    show risingEdges (true :: ((stepFlagValues P R m s ++
      flagTrace P R (applyStep P m s) steps) ++ l)) = _
    rw [List.append_assoc, hrec.2, h1]

/-- Operations before the first `FinishRequest(R)` keep `R` alive with its flag
and temp location, and add no rising edge. -/
theorem flag_before_first_finish (P : Platform) (R : RequestId) (pre : List Step) (m : Manager)
    (hpre : ∀ s ∈ pre, s ≠ Step.FinishRequest R) (l : List Bool) :
    risingEdges (flagOf m R :: (flagTrace P R m pre ++ l)) = risingEdges (flagOf m R :: l) ∧
    flagOf (applySteps P m pre) R = flagOf m R ∧
    ((applySteps P m pre).Requests R).map Request.CompletedTempDownloadLocation =
      (m.Requests R).map Request.CompletedTempDownloadLocation := by
  induction pre generalizing m with
  | nil => exact ⟨rfl, rfl, rfl⟩
  | cons s pre ih =>
    have hs := hpre s (by simp)
    obtain ⟨h1, h2⟩ := applyStep_other P m R s hs
    obtain ⟨i1, i2, i3⟩ := ih (applyStep P m s) (fun t ht => hpre t (by simp [ht]))
    refine ⟨?_, i2.trans h1, i3.trans h2⟩
    show risingEdges (flagOf m R :: ((stepFlagValues P R m s ++
      flagTrace P R (applyStep P m s) pre) ++ l)) = _
    rw [List.append_assoc, risingEdges_step_other P m R s hs, ← h1, i1]

end FinishFlag

/-- C8 (as stated) fails: on the missing-file path the flag is reset, so over the
run FinishRequest, error callback, FinishRequest of one request it goes from
false to true twice. -/
theorem C8_flag_rises_twice :
    risingEdges (flagOf exCompleted 1 :: flagTrace (exPlatform 0) 1 exCompleted
      [Step.FinishRequest 1, Step.DidCompleteWithError ⟨9, "A", TaskState.Canceling⟩ ⟨-999, none⟩,
        Step.FinishRequest 1]) = 2 ∧
    ¬ risingEdges (flagOf exCompleted 1 :: flagTrace (exPlatform 0) 1 exCompleted
      [Step.FinishRequest 1, Step.DidCompleteWithError ⟨9, "A", TaskState.Canceling⟩ ⟨-999, none⟩,
        Step.FinishRequest 1]) = 1 := by
  decide

/-- C8 (amended): for a live request `R` (1) one operation makes the flag go
from false to true exactly once if it is `FinishRequest(R)` and the flag was
false, and not at all otherwise; (2) `FinishRequest(R)` leaves the flag set
unless it found it false, the temp file is missing and the request is not
flagged failed; (3) once the flag is set at the end of an operation it stays
set and never rises again; (4) so over any run whose first `FinishRequest(R)`
finds the temp file present or the request flagged failed, the flag goes from
false to true exactly once. -/
theorem C8_flag_rises_once_when_finalised (P : Platform) (m : Manager) (R : RequestId)
    (r : Request) (hr : m.Requests R = some r) :
    (∀ s, risingEdges (flagOf m R :: stepFlagValues P R m s) =
      if s = Step.FinishRequest R ∧ r.bHasAlreadyFinishedRequest = false then 1 else 0) ∧
    (flagOf (FinishRequest P m R) R = (r.bHasAlreadyFinishedRequest ||
      (P.FileExists r.CompletedTempDownloadLocation || r.bIsFailed))) ∧
    (r.bHasAlreadyFinishedRequest = true → ∀ steps,
      risingEdges (flagOf m R :: flagTrace P R m steps) = 0 ∧
      flagOf (applySteps P m steps) R = true) ∧
    (r.bHasAlreadyFinishedRequest = false → ∀ pre post,
      (∀ s ∈ pre, s ≠ Step.FinishRequest R) →
      (∀ r1, (applySteps P m pre).Requests R = some r1 →
        (P.FileExists r1.CompletedTempDownloadLocation || r1.bIsFailed) = true) →
      risingEdges (flagOf m R :: flagTrace P R m (pre ++ Step.FinishRequest R :: post)) = 1) := by
  have hflag := flagOf_eq m R r hr
  refine ⟨?_, (flagOf_finishRequest P m R r hr).2.1, ?_, ?_⟩
  · intro s
    by_cases hs : s = Step.FinishRequest R
    · subst hs
      rw [stepFlagValues_finish P m R r hr, hflag]
      cases r.bHasAlreadyFinishedRequest <;> simp [risingEdges_cons_cons, risingEdges]
    · have := risingEdges_step_other P m R s hs []
      simp only [List.append_nil] at this
      rw [this]
      simp [hs, risingEdges]
  · intro hf steps
    have h := flag_stays_set P R steps m (by rw [hflag, hf]) []
    simp only [List.append_nil] at h
    rw [hflag, hf]
    exact ⟨by rw [h.1]; simp [risingEdges], h.2⟩
  · intro hf pre post hpre hfin
    obtain ⟨h1, h2, h3⟩ := flag_before_first_finish P R pre m hpre
      (flagTrace P R (applySteps P m pre) (Step.FinishRequest R :: post))
    rw [flagTrace_append, h1]
    rw [hr] at h3
    cases hr1 : (applySteps P m pre).Requests R with
    | none => rw [hr1] at h3; simp at h3
    | some r1 =>
      have hf1 : r1.bHasAlreadyFinishedRequest = false := by
        rw [← flagOf_eq _ R r1 hr1, h2, hflag, hf]
      have hset : flagOf (applyStep P (applySteps P m pre) (Step.FinishRequest R)) R = true := by
        show flagOf (FinishRequest P (applySteps P m pre) R) R = true
        rw [(flagOf_finishRequest P _ R r1 hr1).2.1, hfin r1 hr1]
        simp
      have hpost := flag_stays_set P R post _ hset []
      simp only [List.append_nil] at hpost
      show risingEdges (flagOf m R :: (stepFlagValues P R (applySteps P m pre)
        (Step.FinishRequest R) ++ flagTrace P R
          (applyStep P (applySteps P m pre) (Step.FinishRequest R)) post)) = 1
      rw [stepFlagValues_finish P _ R r1 hr1, hfin r1 hr1, hflag, hf]
      simp only [Bool.or_true, List.cons_append, List.nil_append, risingEdges_cons_cons]
      rw [hpost.1]
      simp [risingEdges]

/-- C8 (amended) at a concrete input: with the temp file present, the run error
callback, FinishRequest, FinishRequest of request 1 sets the flag once. -/
theorem C8_flag_rises_once_when_finalised_witness :
    risingEdges (flagOf exCompleted 1 :: flagTrace exPlatformWithFile 1 exCompleted
      ([Step.DidCompleteWithError ⟨9, "A", TaskState.Canceling⟩ ⟨-999, none⟩] ++
        Step.FinishRequest 1 :: [Step.FinishRequest 1])) = 1 :=
  (C8_flag_rises_once_when_finalised exPlatformWithFile exCompleted 1 exCompletedRequest
    rfl).2.2.2 rfl [Step.DidCompleteWithError ⟨9, "A", TaskState.Canceling⟩ ⟨-999, none⟩]
    [Step.FinishRequest 1] (by decide) (fun _ _ => rfl)

/-! ## C9: `FinishRequest` on a finalised request does nothing -/

/-- C9: when `bHasAlreadyFinishedRequest` of `R` is already true, `FinishRequest`
makes no outgoing call (no response, no cancel) and changes neither a request
record nor the active-task counter nor any other part of the manager. Hence
two consecutive calls on a request that is not yet finalised and whose temp
file exists deliver exactly one response, with status Created and that file,
and lower the counter once in the foreground and not at all in the background. -/
theorem C9_FinishRequest_idempotent (P P2 : Platform) (m : Manager) (R : RequestId) (r : Request)
    (hr : m.Requests R = some r) :
    (r.bHasAlreadyFinishedRequest = true →
      (FinishRequest P m R).Effects = m.Effects ∧
      (∀ Q, (FinishRequest P m R).Requests Q = m.Requests Q) ∧
      (FinishRequest P m R).NumCurrentlyActiveTasks = m.NumCurrentlyActiveTasks ∧
      (FinishRequest P m R).URLToRequestMap = m.URLToRequestMap ∧
      (FinishRequest P m R).ActiveRequests = m.ActiveRequests ∧
      (FinishRequest P m R).bIsInBackground = m.bIsInBackground) ∧
    (r.bHasAlreadyFinishedRequest = false →
      P.FileExists r.CompletedTempDownloadLocation = true →
      (FinishRequest P2 (FinishRequest P m R) R).Effects =
        m.Effects ++ [Effect.CompleteWithExistingResponseData R
          ⟨EHttpResponseCodes.Created, r.CompletedTempDownloadLocation⟩] ∧
      DeliveredResponses R (FinishRequest P2 (FinishRequest P m R) R).Effects =
        DeliveredResponses R m.Effects ++
          [⟨EHttpResponseCodes.Created, r.CompletedTempDownloadLocation⟩] ∧
      (FinishRequest P2 (FinishRequest P m R) R).NumCurrentlyActiveTasks =
        (if m.bIsInBackground then m.NumCurrentlyActiveTasks
         else m.NumCurrentlyActiveTasks - 1)) := by
  have hdone : ∀ (P1 : Platform) (n : Manager) (q : Request), n.Requests R = some q →
      q.bHasAlreadyFinishedRequest = true →
      (FinishRequest P1 n R).Effects = n.Effects ∧
      (∀ Q, (FinishRequest P1 n R).Requests Q = n.Requests Q) ∧
      (FinishRequest P1 n R).NumCurrentlyActiveTasks = n.NumCurrentlyActiveTasks ∧
      (FinishRequest P1 n R).URLToRequestMap = n.URLToRequestMap ∧
      (FinishRequest P1 n R).ActiveRequests = n.ActiveRequests ∧
      (FinishRequest P1 n R).bIsInBackground = n.bIsInBackground := by
    intro P1 n q hq hf
    unfold FinishRequest ExchangeHasAlreadyFinishedRequest FinishRequestBody
    simp only [hq, hf, Bool.not_true, Bool.false_eq_true, ↓reduceIte]
    refine ⟨rfl, ?_, rfl, rfl, rfl, rfl⟩
    intro Q
    unfold setRequest
    by_cases hQ : Q = R
    · subst hQ
      simp only [↓reduceIte, hq]
      congr 1
      cases q
      simp only [Request.mk.injEq, true_and, and_true] at hf ⊢
      simp_all
    · simp [hQ]
  refine ⟨hdone P m r hr, ?_⟩
  intro hf hx
  have hfirst : ∃ q, (FinishRequest P m R).Requests R = some q ∧
      q.bHasAlreadyFinishedRequest = true ∧
      (FinishRequest P m R).Effects = m.Effects ++ [Effect.CompleteWithExistingResponseData R
          ⟨EHttpResponseCodes.Created, r.CompletedTempDownloadLocation⟩] ∧
      (FinishRequest P m R).NumCurrentlyActiveTasks =
        (if m.bIsInBackground then m.NumCurrentlyActiveTasks
         else m.NumCurrentlyActiveTasks - 1) := by
    unfold FinishRequest ExchangeHasAlreadyFinishedRequest FinishRequestBody
    simp only [hr, hf, setRequest_self, hx]
    cases hbg : m.bIsInBackground <;>
      simp [CompleteWithExistingResponseData, emit, setRequest, hbg]
  obtain ⟨q, hq, hqf, heff, hnum⟩ := hfirst
  obtain ⟨h1, _, h3, _⟩ := hdone P2 (FinishRequest P m R) q hq hqf
  refine ⟨h1.trans heff, ?_, h3.trans hnum⟩
  rw [h1, heff]
  simp [DeliveredResponses, List.filterMap_append]

/-- C9 at a concrete input: two FinishRequest calls on the completed request 1
with its temp file present deliver one response. -/
theorem C9_FinishRequest_idempotent_witness :
    DeliveredResponses 1
      (FinishRequest exPlatformWithFile (FinishRequest exPlatformWithFile exCompleted 1) 1).Effects
      = [⟨EHttpResponseCodes.Created, "tmp/download"⟩] :=
  ((C9_FinishRequest_idempotent exPlatformWithFile exPlatformWithFile exCompleted 1
    exCompletedRequest rfl).2 rfl rfl).2.1

/-! ## C10: a missing temp file of a request that did not fail -/

/-- C10: for a request that is not yet finalised, whose temp file is missing and
whose `bIsFailed` is false, `FinishRequest` delivers no response, makes exactly
one outgoing call, the cancel of the request's task, leaves `bIsCompleted` and
`bHasAlreadyFinishedRequest` false and does not change the active-task counter. -/
theorem C10_missing_file_resets_and_cancels (P : Platform) (m : Manager) (R : RequestId)
    (r : Request) (hr : m.Requests R = some r) (hf : r.bHasAlreadyFinishedRequest = false)
    (hx : P.FileExists r.CompletedTempDownloadLocation = false) (hb : r.bIsFailed = false) :
    (FinishRequest P m R).Effects = m.Effects ++ [Effect.CancelActiveTask R] ∧
    DeliveredResponses R (FinishRequest P m R).Effects = DeliveredResponses R m.Effects ∧
    CancelCount R (FinishRequest P m R).Effects = CancelCount R m.Effects + 1 ∧
    (∃ r1, (FinishRequest P m R).Requests R = some r1 ∧ r1.bIsCompleted = false ∧
      r1.bHasAlreadyFinishedRequest = false) ∧
    (FinishRequest P m R).NumCurrentlyActiveTasks = m.NumCurrentlyActiveTasks := by
  have heff : (FinishRequest P m R).Effects = m.Effects ++ [Effect.CancelActiveTask R] := by
    unfold FinishRequest ExchangeHasAlreadyFinishedRequest FinishRequestBody
    simp [hr, hf, hx, hb, CancelActiveTask, emit, setRequest]
  refine ⟨heff, ?_, ?_, ?_, ?_⟩
  · rw [heff]
    simp [DeliveredResponses, List.filterMap_append]
  · rw [heff]
    simp [CancelCount]
  · unfold FinishRequest ExchangeHasAlreadyFinishedRequest FinishRequestBody
    simp [hr, hf, hx, hb, CancelActiveTask, emit, setRequest]
  · unfold FinishRequest ExchangeHasAlreadyFinishedRequest FinishRequestBody
    simp [hr, hf, hx, hb, CancelActiveTask, emit, setRequest]

/-- C10 at a concrete input: request 1 is reported complete but its temp file is
missing. -/
theorem C10_missing_file_resets_and_cancels_witness :
    (FinishRequest (exPlatform 0) exCompleted 1).Effects = [Effect.CancelActiveTask 1] ∧
    (FinishRequest (exPlatform 0) exCompleted 1).NumCurrentlyActiveTasks = 1 :=
  have h := C10_missing_file_resets_and_cancels (exPlatform 0) exCompleted 1 exCompletedRequest
    rfl rfl rfl rfl
  ⟨h.1, h.2.2.2.2⟩

/-! ## The routing table only holds registrations made from URL lists -/

section Reachable

theorem removeStep_some (R : RequestId) (m : Manager) (URL k : String) (Q : RequestId)
    (h : (RemoveURLMapEntriesStep R m URL).URLToRequestMap k = some (some Q)) :
    m.URLToRequestMap k = some (some Q) := by
  by_cases hk : k = URL
  · subst hk
    unfold RemoveURLMapEntriesStep FindOrAdd at h
    cases hw : m.URLToRequestMap k with
    | none =>
      rw [hw] at h
      dsimp only at h
      split_ifs at h <;> simp [mapRemove, mapSet] at h
    | some w =>
      rw [hw] at h
      dsimp only at h
      split_ifs at h
      · simp [mapRemove] at h
      · rw [hw] at h; exact h
  · rw [← removeStep_other R m URL k hk]; exact h

theorem removeFold_some (R : RequestId) (l : List String) (m : Manager) (k : String)
    (Q : RequestId)
    (h : (l.foldl (RemoveURLMapEntriesStep R) m).URLToRequestMap k = some (some Q)) :
    m.URLToRequestMap k = some (some Q) := by
  induction l generalizing m with
  | nil => exact h
  | cons u l ih => exact removeStep_some R m u k Q (ih _ h)

/-- An entry found after `GenerateURLMapEntriesForRequest(R)` is an old entry or
a registration of `R` under one of its URLs. -/
theorem generate_some (R : RequestId) (m : Manager) (k : String) (Q : RequestId)
    (h : (GenerateURLMapEntriesForRequest m R).1.URLToRequestMap k = some (some Q)) :
    m.URLToRequestMap k = some (some Q) ∨ (Q = R ∧ k ∈ GetURLList m R) := by
  have hfold : ∀ k, ((GetURLList m R).foldl (GenerateURLMapEntriesStep R) (m, true)).1.URLToRequestMap k
      = some (some Q) → m.URLToRequestMap k = some (some Q) ∨ (Q = R ∧ k ∈ GetURLList m R) := by
    intro k hk
    rw [genFold_map] at hk
    split_ifs at hk with hc
    · right
      exact ⟨by simpa using hk.symm, hc.1⟩
    · exact Or.inl hk
  unfold GenerateURLMapEntriesForRequest at h
  dsimp only at h
  split_ifs at h
  · exact hfold k (removeFold_some R _ _ k Q h)
  · exact hfold k h

theorem finishRequest_urlList (P : Platform) (m : Manager) (R Q : RequestId) :
    GetURLList (FinishRequest P m R) Q = GetURLList m Q ∧
    (FinishRequest P m R).URLToRequestMap = m.URLToRequestMap := by
  constructor
  · by_cases hQ : Q = R
    · subst hQ
      unfold GetURLList
      cases hr : m.Requests Q with
      | none =>
        unfold FinishRequest ExchangeHasAlreadyFinishedRequest FinishRequestBody
        simp [hr]
      | some r =>
        unfold FinishRequest ExchangeHasAlreadyFinishedRequest FinishRequestBody
        simp only [hr, setRequest_self]
        split_ifs <;>
          simp [setRequest, CompleteWithExistingResponseData, emit, CancelActiveTask]
    · unfold GetURLList
      rw [finishRequest_other P m R Q hQ]
  · unfold FinishRequest ExchangeHasAlreadyFinishedRequest FinishRequestBody
    cases hr : m.Requests R with
    | none => simp
    | some r =>
      simp only [setRequest_self]
      split_ifs <;>
        simp [setRequest, CompleteWithExistingResponseData, emit, CancelActiveTask]

theorem getURLList_of_fixedPart {m n : Manager} (Q : RequestId)
    (h : (n.Requests Q).map Request.fixedPart = (m.Requests Q).map Request.fixedPart) :
    GetURLList n Q = GetURLList m Q := by
  unfold GetURLList
  cases hn : n.Requests Q <;> cases hm : m.Requests Q <;>
    simp [hn, hm, Request.fixedPart] at h ⊢
  exact h.1

/-- The invariant is kept by every operation. -/
theorem ownsOnlyListed_applyStep (P : Platform) (m : Manager) (s : Step)
    (hm : OwnsOnlyListed m) : OwnsOnlyListed (applyStep P m s) := by
  have hstep : ∀ (m : Manager) (s : Step), OwnsOnlyListed m → OwnsOnlyListed (applyStep P m s) := by
    intro m s hm k R hk
    cases s with
    | AddRequest Q =>
      have hl : GetURLList (AddRequest P m Q) R = GetURLList m R :=
        getURLList_of_fixedPart R (addRequest_heap P m Q R)
      show k ∈ GetURLList (AddRequest P m Q) R
      rw [hl]
      by_cases hQ : (m.Requests Q).isSome = true
      · have hk1 : (AddRequest P m Q).URLToRequestMap k = some (some R) := hk
        rw [addRequest_table P m Q hQ] at hk1
        rcases generate_some Q m k R hk1 with h | ⟨h1, h2⟩
        · exact hm k R h
        · rw [h1]; exact h2
      · have hnone : m.Requests Q = none := by simpa using hQ
        have hk1 : (AddRequest P m Q).URLToRequestMap k = some (some R) := hk
        unfold AddRequest at hk1
        rw [hnone] at hk1
        exact hm k R hk1
    | RemoveRequest Q =>
      have hl : GetURLList (RemoveRequest m Q) R = GetURLList m R :=
        getURLList_of_fixedPart R (removeRequest_heap m Q R)
      show k ∈ GetURLList (RemoveRequest m Q) R
      rw [hl]
      have hk1 : (RemoveRequest m Q).URLToRequestMap k = some (some R) := hk
      unfold RemoveRequest at hk1
      cases hq : m.Requests Q with
      | none => rw [hq] at hk1; exact hm k R hk1
      | some q =>
        rw [hq] at hk1
        dsimp only at hk1
        unfold RemoveSessionTasksForRequest at hk1
        rw [(stable_CancelActiveTask _ Q).1] at hk1
        exact hm k R (removeFold_some Q _ m k R hk1)
    | FinishRequest Q =>
      obtain ⟨h1, h2⟩ := finishRequest_urlList P m Q R
      show k ∈ GetURLList (FinishRequest P m Q) R
      rw [h1]
      have hk1 : (FinishRequest P m Q).URLToRequestMap k = some (some R) := hk
      rw [h2] at hk1
      exact hm k R hk1
    | DidCompleteWithError task err =>
      have hst := stable_OnTask_DidCompleteWithError P m (some task) (some err)
      show k ∈ GetURLList (OnTask_DidCompleteWithError P m (some task) (some err)) R
      rw [hst.getURLList R]
      have hk1 : (OnTask_DidCompleteWithError P m (some task) (some err)).URLToRequestMap k
          = some (some R) := hk
      rw [hst.1] at hk1
      exact hm k R hk1
  exact hstep m s hm

/-- The invariant holds in the initial state and is kept by every operation. -/
theorem ownsOnlyListed_reachable (P : Platform) (H : RequestId → Option Request)
    (steps : List Step) : OwnsOnlyListed (applySteps P (Manager.init H) steps) := by
  have hrun : ∀ (steps : List Step) (m : Manager), OwnsOnlyListed m →
      OwnsOnlyListed (applySteps P m steps) := by
    intro steps
    induction steps with
    | nil => intro m hm; exact hm
    | cons s steps ih => intro m hm; exact ih _ (ownsOnlyListed_applyStep P m s hm)
  apply hrun
  intro k R hk
  simp [Manager.init] at hk

end Reachable

/-! ## C1: a routing conflict fails the registration and rolls it back -/

/-- C1: when some URL of `R` is mapped to a live request other than `R`,
`GenerateURLMapEntriesForRequest` returns false, the only outgoing calls are
(one or more) completions of `R` with status Unknown and an empty file path, no
URL of `R` maps to `R` afterwards and no other key is touched; hence no URL at
all maps to `R` afterwards whenever `R` owned only URLs of its own list before
the call, which is the case in every state the manager reaches from its initial
state. -/
theorem C1_conflict_fails_and_rolls_back (m : Manager) (R : RequestId)
    (hconf : RoutingConflict m R) :
    (GenerateURLMapEntriesForRequest m R).2 = false ∧
    (∃ n, 0 < n ∧ (GenerateURLMapEntriesForRequest m R).1.Effects = m.Effects ++
      List.replicate n
        (Effect.CompleteWithExistingResponseData R ⟨EHttpResponseCodes.Unknown, ""⟩)) ∧
    (∀ k ∈ GetURLList m R,
      (GenerateURLMapEntriesForRequest m R).1.URLToRequestMap k ≠ some (some R)) ∧
    (∀ k, k ∉ GetURLList m R →
      (GenerateURLMapEntriesForRequest m R).1.URLToRequestMap k = m.URLToRequestMap k) ∧
    ((∀ k, m.URLToRequestMap k = some (some R) → k ∈ GetURLList m R) →
      ∀ k, (GenerateURLMapEntriesForRequest m R).1.URLToRequestMap k ≠ some (some R)) ∧
    ((∃ P H steps, m = applySteps P (Manager.init H) steps) →
      ∀ k, (GenerateURLMapEntriesForRequest m R).1.URLToRequestMap k ≠ some (some R)) := by
  obtain ⟨u, hu, hc⟩ := (routingConflict_iff m R).mp hconf
  have hR : (m.Requests R).isSome = true := routingConflict_alive m R hconf
  have hfr := (genFold_frame R (GetURLList m R) (m, true)).1
  have hl : GetURLList ((GetURLList m R).foldl (GenerateURLMapEntriesStep R) (m, true)).1 R
      = GetURLList m R := getURLList_of_frame R hfr
  have hself : ∀ k ∈ GetURLList m R,
      (GenerateURLMapEntriesForRequest m R).1.URLToRequestMap k ≠ some (some R) := by
    intro k hk hkR
    rw [generate_of_conflict R m u hu hc] at hkR
    dsimp only at hkR
    unfold RemoveURLMapEntriesForRequest at hkR
    rw [hl] at hkR
    exact (removeFold_owned R _ _ k (by rw [hfr]; exact hR) hkR).1 hk
  have hall : (∀ k, m.URLToRequestMap k = some (some R) → k ∈ GetURLList m R) →
      ∀ k, (GenerateURLMapEntriesForRequest m R).1.URLToRequestMap k ≠ some (some R) := by
    intro hown k hkR
    by_cases hk : k ∈ GetURLList m R
    · exact hself k hk hkR
    · rw [generate_other R m k hk] at hkR
      exact hk (hown k hkR)
  refine ⟨?_, ?_, hself, generate_other R m, hall, ?_⟩
  · rw [generate_of_conflict R m u hu hc]
  · refine ⟨(GetURLList m R).countP (Conflict m R), ?_, generate_effects R m⟩
    exact List.countP_pos_iff.mpr ⟨u, hu, hc⟩
  · rintro ⟨P, H, steps, rfl⟩
    exact hall (fun k hk => ownsOnlyListed_reachable P H steps k R hk)

/-- C1 at a concrete input: after request 1 (URLs A, B, C) was submitted to a
fresh manager, request 2 (URLs X, B) meets it on B. -/
theorem C1_conflict_fails_and_rolls_back_witness :
    (GenerateURLMapEntriesForRequest exStarted 2).2 = false ∧
    (GenerateURLMapEntriesForRequest exStarted 2).1.URLToRequestMap "X" ≠ some (some 2) ∧
    (GenerateURLMapEntriesForRequest exStarted 2).1.URLToRequestMap "B" ≠ some (some 2) :=
  have h := C1_conflict_fails_and_rolls_back exStarted 2
    ⟨"B", by decide, 1, by decide, by decide, by decide⟩
  ⟨h.1, h.2.2.2.2.2 ⟨exPlatform 0, exHeap, [Step.AddRequest 1], rfl⟩ "X",
    h.2.2.2.2.2 ⟨exPlatform 0, exHeap, [Step.AddRequest 1], rfl⟩ "B"⟩

/-! ## C11: the response `FinishRequest` delivers -/

/-- C11: for a request that is not yet finalised, `FinishRequest` delivers
exactly one response when the temp file exists, with status Created and the
completed temp location as result path, and exactly one response when the file
is missing and the request is flagged failed, with status Unknown and an empty
result path; in both cases this delivery is its only outgoing call. -/
theorem C11_FinishRequest_response (P : Platform) (m : Manager) (R : RequestId) (r : Request)
    (hr : m.Requests R = some r) (hf : r.bHasAlreadyFinishedRequest = false) :
    (P.FileExists r.CompletedTempDownloadLocation = true →
      (FinishRequest P m R).Effects = m.Effects ++ [Effect.CompleteWithExistingResponseData R
        ⟨EHttpResponseCodes.Created, r.CompletedTempDownloadLocation⟩] ∧
      DeliveredResponses R (FinishRequest P m R).Effects = DeliveredResponses R m.Effects ++
        [⟨EHttpResponseCodes.Created, r.CompletedTempDownloadLocation⟩]) ∧
    (P.FileExists r.CompletedTempDownloadLocation = false → r.bIsFailed = true →
      (FinishRequest P m R).Effects = m.Effects ++ [Effect.CompleteWithExistingResponseData R
        ⟨EHttpResponseCodes.Unknown, ""⟩] ∧
      DeliveredResponses R (FinishRequest P m R).Effects = DeliveredResponses R m.Effects ++
        [⟨EHttpResponseCodes.Unknown, ""⟩]) := by
  constructor
  · intro hx
    have heff : (FinishRequest P m R).Effects = m.Effects ++
        [Effect.CompleteWithExistingResponseData R
          ⟨EHttpResponseCodes.Created, r.CompletedTempDownloadLocation⟩] := by
      unfold FinishRequest ExchangeHasAlreadyFinishedRequest FinishRequestBody
      simp only [hr, hf, setRequest_self, hx]
      cases hbg : m.bIsInBackground <;>
        simp [CompleteWithExistingResponseData, emit, setRequest, hbg]
    refine ⟨heff, ?_⟩
    rw [heff]
    simp [DeliveredResponses, List.filterMap_append]
  · intro hx hb
    have heff : (FinishRequest P m R).Effects = m.Effects ++
        [Effect.CompleteWithExistingResponseData R ⟨EHttpResponseCodes.Unknown, ""⟩] := by
      unfold FinishRequest ExchangeHasAlreadyFinishedRequest FinishRequestBody
      simp only [hr, hf, setRequest_self, hx]
      cases hbg : m.bIsInBackground <;>
        simp [CompleteWithExistingResponseData, emit, setRequest, hbg, hb]
    refine ⟨heff, ?_⟩
    rw [heff]
    simp [DeliveredResponses, List.filterMap_append]

/-- C11 at a concrete input: the completed request 1 with its temp file present. -/
theorem C11_FinishRequest_response_witness :
    (FinishRequest exPlatformWithFile exCompleted 1).Effects =
      [Effect.CompleteWithExistingResponseData 1 ⟨EHttpResponseCodes.Created, "tmp/download"⟩] :=
  ((C11_FinishRequest_response exPlatformWithFile exCompleted 1 exCompletedRequest rfl rfl).1
    rfl).1

/-! ## C12: when `FinishRequest` touches the active-task counter -/

/-- C12: `FinishRequest` lowers `NumCurrentlyActiveTasks` by exactly one when it
finalises the request (the request was not finalised before and its temp file
exists or it is flagged failed) while the background flag is false; in the
background, for a request that is already finalised, on the missing-file retry
path and for an invalid request the counter is unchanged. -/
theorem C12_FinishRequest_counter (P : Platform) (m : Manager) (R : RequestId) :
    (∀ r, m.Requests R = some r →
      (FinishRequest P m R).NumCurrentlyActiveTasks =
        if r.bHasAlreadyFinishedRequest = false ∧
            (P.FileExists r.CompletedTempDownloadLocation = true ∨ r.bIsFailed = true) ∧
            m.bIsInBackground = false
        then m.NumCurrentlyActiveTasks - 1 else m.NumCurrentlyActiveTasks) ∧
    (m.bIsInBackground = true →
      (FinishRequest P m R).NumCurrentlyActiveTasks = m.NumCurrentlyActiveTasks) ∧
    (∀ r, m.Requests R = some r → r.bHasAlreadyFinishedRequest = true →
      (FinishRequest P m R).NumCurrentlyActiveTasks = m.NumCurrentlyActiveTasks) ∧
    (∀ r, m.Requests R = some r → P.FileExists r.CompletedTempDownloadLocation = false →
      r.bIsFailed = false →
      (FinishRequest P m R).NumCurrentlyActiveTasks = m.NumCurrentlyActiveTasks) ∧
    (m.Requests R = none →
      (FinishRequest P m R).NumCurrentlyActiveTasks = m.NumCurrentlyActiveTasks) := by
  have hnone : m.Requests R = none →
      (FinishRequest P m R).NumCurrentlyActiveTasks = m.NumCurrentlyActiveTasks := by
    intro h
    unfold FinishRequest ExchangeHasAlreadyFinishedRequest FinishRequestBody
    simp [h]
  have hmain : ∀ r, m.Requests R = some r →
      (FinishRequest P m R).NumCurrentlyActiveTasks =
        if r.bHasAlreadyFinishedRequest = false ∧
            (P.FileExists r.CompletedTempDownloadLocation = true ∨ r.bIsFailed = true) ∧
            m.bIsInBackground = false
        then m.NumCurrentlyActiveTasks - 1 else m.NumCurrentlyActiveTasks := by
    intro r hr
    unfold FinishRequest ExchangeHasAlreadyFinishedRequest FinishRequestBody
    simp only [hr, setRequest_self]
    cases hf : r.bHasAlreadyFinishedRequest <;>
      cases hx : P.FileExists r.CompletedTempDownloadLocation <;>
      cases hb : r.bIsFailed <;> cases hbg : m.bIsInBackground <;>
      simp [setRequest, CompleteWithExistingResponseData, emit, CancelActiveTask, hbg]
  refine ⟨hmain, ?_, ?_, ?_, hnone⟩
  · intro hbg
    cases hr : m.Requests R with
    | none => exact hnone hr
    | some r => rw [hmain r hr]; simp [hbg]
  · intro r hr hf
    rw [hmain r hr]; simp [hf]
  · intro r hr hx hb
    rw [hmain r hr]; simp [hx, hb]

/-- C12 at a concrete input: in the foreground the completed request 1 with its
temp file present lowers the counter from 1 to 0; with the file missing the
counter stays at 1. -/
theorem C12_FinishRequest_counter_witness :
    (FinishRequest exPlatformWithFile exCompleted 1).NumCurrentlyActiveTasks = 0 ∧
    (FinishRequest (exPlatform 0) exCompleted 1).NumCurrentlyActiveTasks = 1 :=
  ⟨(C12_FinishRequest_counter exPlatformWithFile exCompleted 1).1 exCompletedRequest rfl,
   (C12_FinishRequest_counter (exPlatform 0) exCompleted 1).2.2.2.1 exCompletedRequest rfl
     rfl rfl⟩

/-! ## C13: range of the active-task counter -/

/-- C13 (the code at the failing run): a download that ran and finished while the
application was in the background was never counted; when the tick finalises it
in the foreground, `FinishRequest` lowers `NumCurrentlyActiveTasks` from 0 to -1,
which the range check of `FinishRequest` itself rules out. -/
theorem C13_counter_goes_negative :
    (applyEvents exPlatformWithFile (Manager.init exHeap)
      exBackgroundDownloadRun.dropLast).NumCurrentlyActiveTasks = 0 ∧
    (applyEvents exPlatformWithFile (Manager.init exHeap)
      exBackgroundDownloadRun.dropLast).bIsInBackground = false ∧
    (applyEvents exPlatformWithFile (Manager.init exHeap)
      exBackgroundDownloadRun).NumCurrentlyActiveTasks = -1 ∧
    ¬ (0 ≤ (applyEvents exPlatformWithFile (Manager.init exHeap)
      exBackgroundDownloadRun).NumCurrentlyActiveTasks) := by
  decide

/-! ## C14: which suspended tasks the handler of `TickTasks` activates -/

/-- C14 (the code at the failing input): with a platform maximum of 1 and no
active task, the session reports a suspended task no request owns before the
suspended task of request 1. The handler counts the first task, takes the count
back, and then leaves the loop on the stale count: the counter ends at 0, below
the maximum, and the task of request 1 is not activated. -/
theorem C14_unowned_task_ends_the_loop :
    FindRequest (TickTasks exStarted) "A" = some 1 ∧
    FindRequest (TickTasks exStarted) "Z" = none ∧
    (TickTasks exStarted).NumCurrentlyActiveTasks = 0 ∧
    exPlatformMaxOne.GetPlatformMaxActiveDownloads = 1 ∧
    (TickTasksHandler exPlatformMaxOne (TickTasks exStarted)
      exOrphanFirst).NumCurrentlyActiveTasks = 0 ∧
    ActivateCount 1 (TickTasksHandler exPlatformMaxOne (TickTasks exStarted)
      exOrphanFirst).Effects = 0 ∧
    ActivateCount 1 (TickTasksHandler exPlatformMaxOne (TickTasks exStarted)
      exOrphanFirst.reverse).Effects = 1 := by
  decide

/-! ## C16: the pool of unassociated tasks follows the counter -/

/-- C16: `TickUnassociatedTasks` reads only the counter. If it is zero, every
pooled task that is suspended is resumed (one `resume` each, the task becomes
running) and nothing is suspended; otherwise every pooled task that is running
is suspended (one `suspend` each) and nothing is resumed. Tasks in any other
state, the keys, identifiers and URLs of the pool, the counter and every other
part of the manager are unchanged. -/
theorem C16_TickUnassociatedTasks (m : Manager) :
    (m.NumCurrentlyActiveTasks = 0 →
      (TickUnassociatedTasks m).UnAssociatedTasks = m.UnAssociatedTasks.map (fun kv =>
        (kv.1, if kv.2.state = TaskState.Suspended
          then { kv.2 with state := TaskState.Running } else kv.2)) ∧
      (TickUnassociatedTasks m).Effects = m.Effects ++
        (m.UnAssociatedTasks.filter (fun kv => kv.2.state = TaskState.Suspended)).map
          (fun kv => Effect.resume kv.2)) ∧
    (m.NumCurrentlyActiveTasks ≠ 0 →
      (TickUnassociatedTasks m).UnAssociatedTasks = m.UnAssociatedTasks.map (fun kv =>
        (kv.1, if kv.2.state = TaskState.Running
          then { kv.2 with state := TaskState.Suspended } else kv.2)) ∧
      (TickUnassociatedTasks m).Effects = m.Effects ++
        (m.UnAssociatedTasks.filter (fun kv => kv.2.state = TaskState.Running)).map
          (fun kv => Effect.suspend kv.2)) ∧
    (TickUnassociatedTasks m).UnAssociatedTasks.map (fun kv => (kv.1, kv.2.taskIdentifier, kv.2.URL))
      = m.UnAssociatedTasks.map (fun kv => (kv.1, kv.2.taskIdentifier, kv.2.URL)) ∧
    (TickUnassociatedTasks m).NumCurrentlyActiveTasks = m.NumCurrentlyActiveTasks ∧
    (TickUnassociatedTasks m).Requests = m.Requests ∧
    (TickUnassociatedTasks m).URLToRequestMap = m.URLToRequestMap ∧
    (TickUnassociatedTasks m).ActiveRequests = m.ActiveRequests ∧
    (TickUnassociatedTasks m).bIsInBackground = m.bIsInBackground := by
  refine ⟨?_, ?_, ?_, ?_, ?_, ?_, ?_, ?_⟩
  · intro h0
    unfold TickUnassociatedTasks
    simp only [h0, ↓reduceIte, UnpauseAllUnassociatedTasks, Task.resume, and_self]
  · intro h0
    unfold TickUnassociatedTasks
    simp only [h0, ↓reduceIte, PauseAllUnassociatedTasks, Task.suspend, and_self]
  · unfold TickUnassociatedTasks
    dsimp only
    split_ifs <;>
      simp only [UnpauseAllUnassociatedTasks, PauseAllUnassociatedTasks, List.map_map] <;>
      apply List.map_congr_left <;> intro kv _ <;>
      simp only [Function.comp, Task.resume, Task.suspend] <;> split_ifs <;> rfl
  all_goals
    unfold TickUnassociatedTasks
    dsimp only
    split_ifs <;> rfl

/-- C16 at a concrete input: with the counter at zero the suspended task of the
example pool is resumed, with the counter at one its running task is suspended. -/
theorem C16_TickUnassociatedTasks_witness :
    (TickUnassociatedTasks { exRegistered with UnAssociatedTasks := exPool }).UnAssociatedTasks =
      [("U", ⟨1, "U", TaskState.Running⟩), ("V", ⟨2, "V", TaskState.Running⟩),
       ("W", ⟨3, "W", TaskState.Completed⟩)] ∧
    (TickUnassociatedTasks { exCompleted with UnAssociatedTasks := exPool }).UnAssociatedTasks =
      [("U", ⟨1, "U", TaskState.Suspended⟩), ("V", ⟨2, "V", TaskState.Suspended⟩),
       ("W", ⟨3, "W", TaskState.Completed⟩)] :=
  ⟨((C16_TickUnassociatedTasks { exRegistered with UnAssociatedTasks := exPool }).1 rfl).1,
   ((C16_TickUnassociatedTasks { exCompleted with UnAssociatedTasks := exPool }).2.1
      (by decide)).1⟩

/-! ## Visits of `TickRequests` -/

section Visit

/-- Outgoing calls of `FinishRequest`: none, one response, or one cancel. -/
theorem finishRequest_calls (P : Platform) (m : Manager) (R : RequestId) :
    (FinishRequest P m R).Effects = m.Effects ∨
    (∃ resp, (FinishRequest P m R).Effects =
      m.Effects ++ [Effect.CompleteWithExistingResponseData R resp]) ∨
    (FinishRequest P m R).Effects = m.Effects ++ [Effect.CancelActiveTask R] := by
  unfold FinishRequest ExchangeHasAlreadyFinishedRequest FinishRequestBody
  cases hr : m.Requests R with
  | none => left; simp
  | some r =>
    simp only [setRequest_self]
    cases hf : r.bHasAlreadyFinishedRequest
    · cases hx : P.FileExists r.CompletedTempDownloadLocation
      · cases hb : r.bIsFailed
        · right; right
          simp [CancelActiveTask, emit, setRequest]
        · right; left
          refine ⟨⟨EHttpResponseCodes.Unknown, ""⟩, ?_⟩
          cases hbg : m.bIsInBackground <;>
            simp [CompleteWithExistingResponseData, emit, setRequest, hbg, hb]
      · right; left
        refine ⟨⟨EHttpResponseCodes.Created, r.CompletedTempDownloadLocation⟩, ?_⟩
        cases hbg : m.bIsInBackground <;>
          simp [CompleteWithExistingResponseData, emit, setRequest, hbg]
    · left
      simp [setRequest]

/-- Outgoing calls of one visit are calls about the visited request. -/
theorem visit_calls (P : Platform) (V : TickView) (m : Manager) (Q : RequestId) :
    ∃ l, (TickRequestsVisit P V m Q).Effects = m.Effects ++ l ∧ ∀ e ∈ l, VisitCall Q e := by
  unfold TickRequestsVisit
  cases hr : m.Requests Q with
  | none => exact ⟨[], by simp, by simp⟩
  | some r =>
    dsimp only
    split_ifs
    · rcases finishRequest_calls P m Q with h | ⟨resp, h⟩ | h
      · exact ⟨[], by simp [h], by simp⟩
      · exact ⟨_, h, by simp [VisitCall]⟩
      · exact ⟨_, h, by simp [VisitCall]⟩
    · exact ⟨[Effect.CancelActiveTask Q], by simp [CancelActiveTask, emit, setRequest],
        by simp [VisitCall]⟩
    · exact ⟨[Effect.TickTimeOutTimer Q, Effect.CancelActiveTask Q,
          Effect.SendDownloadProgressUpdate Q],
        by simp [CancelActiveTask, emit, setRequest, SendDownloadProgressUpdate, hr],
        by simp [VisitCall]⟩
    · exact ⟨[Effect.TickTimeOutTimer Q, Effect.SendDownloadProgressUpdate Q],
        by simp [emit, SendDownloadProgressUpdate], by simp [VisitCall]⟩
    · exact ⟨[Effect.SendDownloadProgressUpdate Q], by simp [emit, SendDownloadProgressUpdate],
        by simp [VisitCall]⟩

/-- The visit of `Q` leaves the record of another request alone and makes no
counted call about it. -/
theorem visit_other (P : Platform) (V : TickView) (m : Manager) (Q R : RequestId) (h : R ≠ Q) :
    (TickRequestsVisit P V m Q).Requests R = m.Requests R ∧
    ∀ e, CountedCall R e →
      (TickRequestsVisit P V m Q).Effects.count e = m.Effects.count e := by
  constructor
  · unfold TickRequestsVisit
    cases hr : m.Requests Q with
    | none => rfl
    | some r =>
      dsimp only
      split_ifs
      · exact finishRequest_other P m Q R h
      · simp [CancelActiveTask, emit, setRequest, h]
      · simp [CancelActiveTask, emit, setRequest, SendDownloadProgressUpdate, h, hr]
      · simp [emit, SendDownloadProgressUpdate]
      · simp [emit, SendDownloadProgressUpdate]
  · intro e he
    obtain ⟨l, hl, hall⟩ := visit_calls P V m Q
    rw [hl, List.count_append]
    have : l.count e = 0 := by
      rw [List.count_eq_zero]
      intro hmem
      have hv := hall e hmem
      rcases he with rfl | rfl | rfl <;>
        rcases hv with ⟨_, hv⟩ | hv | hv | hv <;> simp at hv <;> exact h hv
    omega

/-- Requests that are not in the list are not touched by the sweep over it. -/
theorem sweep_other (P : Platform) (V : TickView) (l : List RequestId) (m : Manager)
    (R : RequestId) (h : R ∉ l) :
    (l.foldl (TickRequestsVisit P V) m).Requests R = m.Requests R ∧
    ∀ e, CountedCall R e →
      (l.foldl (TickRequestsVisit P V) m).Effects.count e = m.Effects.count e := by
  induction l generalizing m with
  | nil => exact ⟨rfl, fun _ _ => rfl⟩
  | cons Q l ih =>
    simp only [List.mem_cons, not_or] at h
    obtain ⟨h1, h2⟩ := visit_other P V m Q R h.1
    obtain ⟨i1, i2⟩ := ih (TickRequestsVisit P V m Q) h.2
    simp only [List.foldl_cons]
    exact ⟨i1.trans h1, fun e he => (i2 e he).trans (h2 e he)⟩

theorem deletePending_frame (m : Manager) :
    (DeletePendingRemoveRequests m).Effects = m.Effects ∧
    (DeletePendingRemoveRequests m).Requests = m.Requests ∧
    (DeletePendingRemoveRequests m).URLToRequestMap = m.URLToRequestMap ∧
    (DeletePendingRemoveRequests m).NumCurrentlyActiveTasks = m.NumCurrentlyActiveTasks := by
  have key : ∀ (l : List RequestId) (n : Manager),
      (l.foldl BaseRemoveRequest n).Effects = n.Effects ∧
      (l.foldl BaseRemoveRequest n).Requests = n.Requests ∧
      (l.foldl BaseRemoveRequest n).URLToRequestMap = n.URLToRequestMap ∧
      (l.foldl BaseRemoveRequest n).NumCurrentlyActiveTasks = n.NumCurrentlyActiveTasks := by
    intro l
    induction l with
    | nil => intro n; exact ⟨rfl, rfl, rfl, rfl⟩
    | cons Q l ih => intro n; exact ih (BaseRemoveRequest n Q)
  unfold DeletePendingRemoveRequests
  exact key _ m

/-- When `R` occurs exactly once in the active list, the calls about `R` made by
`TickRequests` are those of the one visit of `R`, which sees the record `R` had
at the start of the sweep. -/
theorem sweep_visits_once (P : Platform) (V : TickView) (m : Manager) (R : RequestId)
    (pre post : List RequestId) (hact : m.ActiveRequests = pre ++ R :: post)
    (hpre : R ∉ pre) (hpost : R ∉ post) :
    ∃ n, n.Requests R = m.Requests R ∧
      (∀ e, CountedCall R e → n.Effects.count e = m.Effects.count e) ∧
      (TickRequests P V m).Requests R = (TickRequestsVisit P V n R).Requests R ∧
      ∀ e, CountedCall R e →
        (TickRequests P V m).Effects.count e = (TickRequestsVisit P V n R).Effects.count e := by
  obtain ⟨h1, h2⟩ := sweep_other P V pre m R hpre
  refine ⟨pre.foldl (TickRequestsVisit P V) m, h1, h2, ?_, ?_⟩
  · unfold TickRequests
    rw [(deletePending_frame _).2.1, hact, List.foldl_append, List.foldl_cons]
    exact (sweep_other P V post _ R hpost).1
  · intro e he
    unfold TickRequests
    rw [(deletePending_frame _).1, hact, List.foldl_append, List.foldl_cons]
    exact (sweep_other P V post _ R hpost).2 e he

/-- The four branches of one visit of a live request, by the record it has. -/
theorem visit_branches (P : Platform) (V : TickView) (n : Manager) (R : RequestId) (r : Request)
    (hr : n.Requests R = some r) :
    ((r.bIsCompleted || r.bIsFailed) = true →
      TickRequestsVisit P V n R = FinishRequest P n R) ∧
    ((r.bIsCompleted || r.bIsFailed) = false → r.bWasTaskStartedInBG = true →
      r.bIsPendingCancel = false →
      (TickRequestsVisit P V n R).Effects = n.Effects ++ [Effect.CancelActiveTask R] ∧
      (TickRequestsVisit P V n R).Requests R = some { r with
        bWasTaskStartedInBG := false
        bIsPendingCancel := true
        FirstTask := r.FirstTask.map Task.cancel }) ∧
    ((r.bIsCompleted || r.bIsFailed) = false →
      (r.bWasTaskStartedInBG = false ∨ r.bIsPendingCancel = true) →
      ∃ l, (TickRequestsVisit P V n R).Effects =
          n.Effects ++ l ++ [Effect.SendDownloadProgressUpdate R] ∧
        (∀ e ∈ l, e = Effect.TickTimeOutTimer R ∨ e = Effect.CancelActiveTask R) ∧
        (r.bIsPendingCancel = true → l = [] ∧ (TickRequestsVisit P V n R).Requests R = some r)) := by
  refine ⟨?_, ?_, ?_⟩
  · intro hc
    unfold TickRequestsVisit
    simp [hr, IsTaskComplete, hc]
  · intro hc hbg hp
    unfold TickRequestsVisit
    simp only [hr, IsTaskComplete, hc, hbg, hp]
    simp [CancelActiveTask, emit, setRequest]
  · intro hc hor
    have hguard : (r.bWasTaskStartedInBG && !r.bIsPendingCancel) = false := by
      rcases hor with h | h <;> simp [h]
    unfold TickRequestsVisit
    simp only [hr, IsTaskComplete, hc, hguard, Bool.false_eq_true, ↓reduceIte]
    split_ifs with h1 h2
    · refine ⟨[Effect.TickTimeOutTimer R, Effect.CancelActiveTask R], ?_, by simp, ?_⟩
      · simp [CancelActiveTask, emit, setRequest, SendDownloadProgressUpdate, hr]
      · intro hp; simp [hp] at h1
    · refine ⟨[Effect.TickTimeOutTimer R], ?_, by simp, ?_⟩
      · simp [emit, SendDownloadProgressUpdate]
      · intro hp; simp [hp] at h1
    · exact ⟨[], by simp [emit, SendDownloadProgressUpdate],
        by simp, fun _ => ⟨rfl, by simp [emit, SendDownloadProgressUpdate, hr]⟩⟩

end Visit

/-! ## C17: progress updates pushed by `TickRequests` -/

/-- C17 (as stated) fails: request 1 is active and its task is complete, so the
sweep finalises it and pushes no progress update for it; the same holds for an
active request that is cancelled for having been started in the background. -/
theorem C17_no_progress_update_when_finalised :
    exCompleted.ActiveRequests = [1] ∧ IsTaskComplete exCompleted 1 = true ∧
    ProgressUpdateCount 1 (TickRequests exPlatformWithFile exTickView exCompleted).Effects = 0 ∧
    ¬ ProgressUpdateCount 1 (TickRequests exPlatformWithFile exTickView exCompleted).Effects
      = ProgressUpdateCount 1 exCompleted.Effects + 1 ∧
    exStartedInBG.ActiveRequests = [1] ∧
    ProgressUpdateCount 1 (TickRequests (exPlatform 0) exTickView exStartedInBG).Effects = 0 := by
  decide

/-- C17 (amended): for a live request that occurs once in the active list, the
sweep of `TickRequests` pushes exactly one progress update when the request
takes the time-out branch or the last branch, and none when it is finalised
(its task is complete) or cancelled for having been started in the background. -/
theorem C17_progress_update_by_branch (P : Platform) (V : TickView) (m : Manager)
    (R : RequestId) (r : Request) (pre post : List RequestId)
    (hr : m.Requests R = some r) (hact : m.ActiveRequests = pre ++ R :: post)
    (hpre : R ∉ pre) (hpost : R ∉ post) :
    ProgressUpdateCount R (TickRequests P V m).Effects = ProgressUpdateCount R m.Effects +
      (if (r.bIsCompleted || r.bIsFailed) = true ∨
          (r.bWasTaskStartedInBG = true ∧ r.bIsPendingCancel = false)
       then 0 else 1) := by
  obtain ⟨n, hn, hcount, _, hsweep⟩ := sweep_visits_once P V m R pre post hact hpre hpost
  have hsend : CountedCall R (Effect.SendDownloadProgressUpdate R) := Or.inr (Or.inr rfl)
  rw [hr] at hn
  obtain ⟨b1, b2, b3⟩ := visit_branches P V n R r hn
  unfold ProgressUpdateCount
  rw [hsweep _ hsend, ← hcount _ hsend]
  by_cases hc : (r.bIsCompleted || r.bIsFailed) = true
  · rw [b1 hc]
    simp only [hc, true_or, ↓reduceIte, Nat.add_zero]
    rcases finishRequest_calls P n R with h | ⟨resp, h⟩ | h <;> rw [h] <;> simp
  · have hc1 : (r.bIsCompleted || r.bIsFailed) = false := by simpa using hc
    by_cases hg : r.bWasTaskStartedInBG = true ∧ r.bIsPendingCancel = false
    · rw [(b2 hc1 hg.1 hg.2).1]
      simp [hc, hg]
    · have hor : r.bWasTaskStartedInBG = false ∨ r.bIsPendingCancel = true := by
        cases h1 : r.bWasTaskStartedInBG <;> cases h2 : r.bIsPendingCancel <;> simp_all
      obtain ⟨l, hl, hall, _⟩ := b3 hc1 hor
      rw [hl]
      have hl0 : l.count (Effect.SendDownloadProgressUpdate R) = 0 := by
        rw [List.count_eq_zero]
        intro hmem
        rcases hall _ hmem with h | h <;> simp at h
      simp only [hc, hg, or_self, ↓reduceIte, List.count_append, hl0]
      simp

/-- C17 (amended) at a concrete input: the submitted request 1 is neither
complete nor started in the background and gets one progress update. -/
theorem C17_progress_update_by_branch_witness :
    ProgressUpdateCount 1 (TickRequests (exPlatform 0) exTickView exStarted).Effects = 1 :=
  C17_progress_update_by_branch (exPlatform 0) exTickView exStarted 1
    { Request.fresh ["A", "B", "C"] with FirstTask := some ⟨9, "A", TaskState.Suspended⟩ }
    [] [] (by decide) (by decide) (by decide) (by decide)

/-! ## What the sweep leaves alone -/

section SweepFrame

/-- Outgoing calls of `FinishRequest` on a live request, and what it keeps of the
record. -/
theorem finishRequest_exact (P : Platform) (m : Manager) (R : RequestId) (r : Request)
    (hr : m.Requests R = some r) :
    (FinishRequest P m R).Effects = m.Effects ++
      (if r.bHasAlreadyFinishedRequest = true then []
       else if P.FileExists r.CompletedTempDownloadLocation = true then
         [Effect.CompleteWithExistingResponseData R
           ⟨EHttpResponseCodes.Created, r.CompletedTempDownloadLocation⟩]
       else if r.bIsFailed = true then
         [Effect.CompleteWithExistingResponseData R ⟨EHttpResponseCodes.Unknown, ""⟩]
       else [Effect.CancelActiveTask R]) ∧
    ∃ r1, (FinishRequest P m R).Requests R = some r1 ∧
      r1.bWasTaskStartedInBG = r.bWasTaskStartedInBG := by
  unfold FinishRequest ExchangeHasAlreadyFinishedRequest FinishRequestBody
  simp only [hr, setRequest_self]
  cases hf : r.bHasAlreadyFinishedRequest <;>
    cases hx : P.FileExists r.CompletedTempDownloadLocation <;>
    cases hb : r.bIsFailed <;> cases hbg : m.bIsInBackground <;>
    simp [setRequest, CompleteWithExistingResponseData, emit, CancelActiveTask, hbg, hb]

theorem finishRequest_lists (P : Platform) (m : Manager) (R : RequestId) :
    (FinishRequest P m R).ActiveRequests = m.ActiveRequests ∧
    (FinishRequest P m R).RequestsPendingRemove = m.RequestsPendingRemove := by
  unfold FinishRequest ExchangeHasAlreadyFinishedRequest FinishRequestBody
  cases hr : m.Requests R with
  | none => simp
  | some r =>
    simp only [setRequest_self]
    constructor <;> split_ifs <;>
      simp [setRequest, CompleteWithExistingResponseData, emit, CancelActiveTask]

theorem visit_lists (P : Platform) (V : TickView) (m : Manager) (Q : RequestId) :
    (TickRequestsVisit P V m Q).ActiveRequests = m.ActiveRequests ∧
    (TickRequestsVisit P V m Q).RequestsPendingRemove = m.RequestsPendingRemove := by
  unfold TickRequestsVisit
  cases hr : m.Requests Q with
  | none => exact ⟨rfl, rfl⟩
  | some r =>
    dsimp only
    split_ifs
    · exact finishRequest_lists P m Q
    · simp [CancelActiveTask, emit, setRequest]
    · simp [CancelActiveTask, emit, setRequest, SendDownloadProgressUpdate, hr]
    · simp [emit, SendDownloadProgressUpdate]
    · simp [emit, SendDownloadProgressUpdate]

theorem sweep_lists (P : Platform) (V : TickView) (l : List RequestId) (m : Manager) :
    (l.foldl (TickRequestsVisit P V) m).ActiveRequests = m.ActiveRequests ∧
    (l.foldl (TickRequestsVisit P V) m).RequestsPendingRemove = m.RequestsPendingRemove := by
  induction l generalizing m with
  | nil => exact ⟨rfl, rfl⟩
  | cons Q l ih =>
    obtain ⟨h1, h2⟩ := visit_lists P V m Q
    obtain ⟨i1, i2⟩ := ih (TickRequestsVisit P V m Q)
    simp only [List.foldl_cons]
    exact ⟨i1.trans h1, i2.trans h2⟩

theorem baseRemove_fold_active (l : List RequestId) (n : Manager) :
    (l.foldl BaseRemoveRequest n).ActiveRequests =
      n.ActiveRequests.filter (fun Q => decide (Q ∉ l)) ∧
    (l.foldl BaseRemoveRequest n).RequestsPendingRemove = n.RequestsPendingRemove := by
  induction l generalizing n with
  | nil => simp
  | cons X l ih =>
    obtain ⟨i1, i2⟩ := ih (BaseRemoveRequest n X)
    simp only [List.foldl_cons]
    refine ⟨?_, i2⟩
    rw [i1]
    simp only [BaseRemoveRequest, List.filter_filter]
    apply List.filter_congr
    intro Q _
    by_cases hQ : Q = X <;> simp [hQ]

/-- Lists after `TickRequests`: the removal queue is empty and the active list
has lost exactly the requests that were queued for removal. -/
theorem tickRequests_lists (P : Platform) (V : TickView) (m : Manager) :
    (TickRequests P V m).RequestsPendingRemove = [] ∧
    (TickRequests P V m).ActiveRequests =
      m.ActiveRequests.filter (fun Q => decide (Q ∉ m.RequestsPendingRemove)) := by
  obtain ⟨h1, h2⟩ := sweep_lists P V m.ActiveRequests m
  unfold TickRequests DeletePendingRemoveRequests
  refine ⟨rfl, ?_⟩
  dsimp only
  rw [(baseRemove_fold_active _ _).1, h1, h2]

end SweepFrame

/-! ## C18: the cancel of a task that was started in the background -/

/-- C18 (as stated) fails: the task of request 1 is complete, so the sweep hands
the request to `FinishRequest`; its temp file is missing and it is not flagged
failed, so `FinishRequest` cancels the task: a request whose task is complete
is cancelled. -/
theorem C18_completed_request_cancelled :
    exCompletedInBG.ActiveRequests = [1] ∧ IsTaskComplete exCompletedInBG 1 = true ∧
    CancelCount 1 exCompletedInBG.Effects = 0 ∧
    CancelCount 1 (TickRequests (exPlatform 0) exTickView exCompletedInBG).Effects = 1 := by
  decide

/-- C18 (amended): let the live request `R` occur once in the active list.
(1) If its task is not complete, it was started in the background and it is not
pending cancellation, the sweep cancels the task exactly once, resets the
started-in-background flag (the request is pending cancellation from then on),
does not advance the time-out timer, and a second `TickRequests` right after
cancels nothing more. (2) If its task is complete the request is handed to
`FinishRequest` instead: the flag is not reset, the timer is not advanced, and
the task is cancelled only on the missing-file path of `FinishRequest` (request
not finalised, temp file missing, not flagged failed), once. -/
theorem C18_background_cancel_once (P : Platform) (V : TickView) (m : Manager)
    (R : RequestId) (r : Request) (pre post : List RequestId)
    (hr : m.Requests R = some r) (hact : m.ActiveRequests = pre ++ R :: post)
    (hpre : R ∉ pre) (hpost : R ∉ post) :
    ((r.bIsCompleted || r.bIsFailed) = false → r.bWasTaskStartedInBG = true →
      r.bIsPendingCancel = false →
      CancelCount R (TickRequests P V m).Effects = CancelCount R m.Effects + 1 ∧
      TimerTickCount R (TickRequests P V m).Effects = TimerTickCount R m.Effects ∧
      (TickRequests P V m).Requests R = some { r with
        bWasTaskStartedInBG := false
        bIsPendingCancel := true
        FirstTask := r.FirstTask.map Task.cancel } ∧
      ∀ V2, CancelCount R (TickRequests P V2 (TickRequests P V m)).Effects =
        CancelCount R m.Effects + 1) ∧
    ((r.bIsCompleted || r.bIsFailed) = true →
      CancelCount R (TickRequests P V m).Effects = CancelCount R m.Effects +
        (if r.bHasAlreadyFinishedRequest = false ∧
            P.FileExists r.CompletedTempDownloadLocation = false ∧ r.bIsFailed = false
         then 1 else 0) ∧
      TimerTickCount R (TickRequests P V m).Effects = TimerTickCount R m.Effects ∧
      ∃ r1, (TickRequests P V m).Requests R = some r1 ∧
        r1.bWasTaskStartedInBG = r.bWasTaskStartedInBG) := by
  obtain ⟨n, hn, hcount, hreq, hsweep⟩ := sweep_visits_once P V m R pre post hact hpre hpost
  have hcancel : CountedCall R (Effect.CancelActiveTask R) := Or.inl rfl
  have htimer : CountedCall R (Effect.TickTimeOutTimer R) := Or.inr (Or.inl rfl)
  rw [hr] at hn
  obtain ⟨b1, b2, _⟩ := visit_branches P V n R r hn
  unfold CancelCount TimerTickCount
  constructor
  · intro hc hbg hp
    obtain ⟨heff, hrec⟩ := b2 hc hbg hp
    have hfirst : (TickRequests P V m).Effects.count (Effect.CancelActiveTask R) =
        m.Effects.count (Effect.CancelActiveTask R) + 1 := by
      rw [hsweep _ hcancel, heff, ← hcount _ hcancel]
      simp
    refine ⟨hfirst, ?_, hreq.trans hrec, ?_⟩
    · rw [hsweep _ htimer, heff, ← hcount _ htimer]
      simp
    · intro V2
      rw [← hfirst]
      have hrec1 := hreq.trans hrec
      by_cases hmem : R ∈ (TickRequests P V m).ActiveRequests
      · -- the request is still active: it is visited once more, in the last branch
        have hlist := (tickRequests_lists P V m).2
        rw [hact, List.filter_append, List.filter_cons] at hlist
        have hkeep : decide (R ∉ m.RequestsPendingRemove) = true := by
          rw [(tickRequests_lists P V m).2, List.mem_filter] at hmem
          exact hmem.2
        rw [if_pos hkeep] at hlist
        obtain ⟨n2, hn2, hcount2, _, hsweep2⟩ := sweep_visits_once P V2 (TickRequests P V m) R
          _ _ hlist (fun h => hpre (List.mem_filter.mp h).1)
          (fun h => hpost (List.mem_filter.mp h).1)
        rw [hrec1] at hn2
        obtain ⟨_, _, c3⟩ := visit_branches P V2 n2 R _ hn2
        obtain ⟨l, hl, _, hl0⟩ := c3 hc (Or.inr rfl)
        rw [hsweep2 _ hcancel, hl, (hl0 rfl).1, ← hcount2 _ hcancel]
        simp
      · -- the request was queued for removal and has left the active list
        unfold TickRequests
        rw [(deletePending_frame _).1]
        exact (sweep_other P V2 _ _ R hmem).2 _ hcancel
  · intro hc
    obtain ⟨hexact, r1, hr1, hbg1⟩ := finishRequest_exact P n R r hn
    rw [hsweep _ hcancel, hsweep _ htimer, hreq, b1 hc, hexact, ← hcount _ hcancel,
      ← hcount _ htimer]
    refine ⟨?_, ?_, r1, hr1, hbg1⟩
    · cases hf : r.bHasAlreadyFinishedRequest <;>
        cases hx : P.FileExists r.CompletedTempDownloadLocation <;>
        cases hb : r.bIsFailed <;> simp
    · cases hf : r.bHasAlreadyFinishedRequest <;>
        cases hx : P.FileExists r.CompletedTempDownloadLocation <;>
        cases hb : r.bIsFailed <;> simp

/-- C18 (amended) at a concrete input: the task of request 1 was started in the
background; two sweeps cancel it once. -/
theorem C18_background_cancel_once_witness :
    CancelCount 1 (TickRequests (exPlatform 0) exTickView
      (TickRequests (exPlatform 0) exTickView exStartedInBG)).Effects = 1 :=
  ((C18_background_cancel_once (exPlatform 0) exTickView exStartedInBG 1
    { Request.fresh ["A", "B", "C"] with
      FirstTask := some ⟨9, "A", TaskState.Running⟩
      bWasTaskStartedInBG := true }
    [] [] (by decide) (by decide) (by decide) (by decide)).1 rfl rfl rfl).2.2.2 exTickView

/-! ## Only `TickTasks` and its handler touch the enumeration bookkeeping -/

section Enumeration

@[simp] theorem enumeration_emit (m : Manager) (e : Effect) :
    (emit m e).enumeration = m.enumeration := rfl

@[simp] theorem enumeration_setRequest (m : Manager) (R : RequestId) (r : Request) :
    (setRequest m R r).enumeration = m.enumeration := rfl

@[simp] theorem enumeration_AssociateWithTask (m : Manager) (R : RequestId) (t : Task) :
    (AssociateWithTask m R t).1.enumeration = m.enumeration := by
  unfold AssociateWithTask
  cases m.Requests R <;> simp

@[simp] theorem enumeration_ActivateUnderlyingTask (m : Manager) (R : RequestId) :
    (ActivateUnderlyingTask m R).enumeration = m.enumeration := by
  unfold ActivateUnderlyingTask
  cases m.Requests R <;> simp

@[simp] theorem enumeration_CancelActiveTask (m : Manager) (R : RequestId) :
    (CancelActiveTask m R).enumeration = m.enumeration := by
  unfold CancelActiveTask
  cases m.Requests R <;> simp

@[simp] theorem enumeration_SetRequestAsFailed (m : Manager) (R : RequestId) :
    (SetRequestAsFailed m R).enumeration = m.enumeration := by
  unfold SetRequestAsFailed
  cases m.Requests R <;> simp

@[simp] theorem enumeration_SetRequestAsSuccess (m : Manager) (R : RequestId) (f : String) :
    (SetRequestAsSuccess m R f).enumeration = m.enumeration := by
  unfold SetRequestAsSuccess
  cases m.Requests R <;> simp

@[simp] theorem enumeration_GetURLForRetry (m : Manager) (R : RequestId) (b : Bool) :
    (GetURLForRetry m R b).1.enumeration = m.enumeration := by
  unfold GetURLForRetry
  cases m.Requests R <;> simp

@[simp] theorem enumeration_ShouldUseRequestRetryData (P : Platform) (m : Manager)
    (R : RequestId) (d : NSData) :
    (ShouldUseRequestRetryData P m R d).1.enumeration = m.enumeration := by
  unfold ShouldUseRequestRetryData
  cases m.Requests R
  · simp
  · dsimp only
    split_ifs <;> simp

@[simp] theorem enumeration_RetryFromResumeData (P : Platform) (m : Manager) (R : RequestId)
    (d : NSData) : (RetryFromResumeData P m R d).1.enumeration = m.enumeration := by
  unfold RetryFromResumeData
  dsimp only
  split_ifs <;> simp

@[simp] theorem enumeration_RetryFromNextURL (P : Platform) (m : Manager) (R : RequestId)
    (b : Bool) : (RetryFromNextURL P m R b).1.enumeration = m.enumeration := by
  unfold RetryFromNextURL
  dsimp only
  split_ifs <;> cases m.Requests R <;> simp

@[simp] theorem enumeration_RetryFinish (m : Manager) (R : RequestId) (b : Bool)
    (t : Option Task) : (RetryFinish m R b t).enumeration = m.enumeration := by
  unfold RetryFinish
  cases t with
  | none => simp
  | some t =>
    dsimp only
    split <;> split_ifs <;> simp

@[simp] theorem enumeration_RetryRequest (P : Platform) (m : Manager) (R : RequestId)
    (b1 b2 : Bool) (d : NSData) : (RetryRequest P m R b1 b2 d).enumeration = m.enumeration := by
  unfold RetryRequest
  cases m.Requests R with
  | none => rfl
  | some r =>
    dsimp only
    cases (RetryFromResumeData P m R d).2 <;> simp

@[simp] theorem enumeration_FinishRequest (P : Platform) (m : Manager) (R : RequestId) :
    (FinishRequest P m R).enumeration = m.enumeration := by
  have hbody : ∀ (n : Manager) (b : Bool),
      (FinishRequestBody P n R b).enumeration = n.enumeration := by
    intro n b
    unfold FinishRequestBody
    split_ifs
    · cases n.Requests R with
      | none => rfl
      | some q =>
        dsimp only
        by_cases hf : P.FileExists q.CompletedTempDownloadLocation = true
        · simp only [hf, if_true]
          split_ifs <;> rfl
        · simp only [hf]
          by_cases hb : (!q.bIsFailed) = true
          · simp only [hb, if_true]
            simp
          · simp only [hb]
            split_ifs <;> rfl
    · rfl
  unfold FinishRequest
  dsimp only
  rw [hbody]
  unfold ExchangeHasAlreadyFinishedRequest
  cases m.Requests R <;> rfl

@[simp] theorem enumeration_OnTask_DidCompleteWithError (P : Platform) (m : Manager)
    (task : Option Task) (err : Option NSError) :
    (OnTask_DidCompleteWithError P m task err).enumeration = m.enumeration := by
  unfold OnTask_DidCompleteWithError
  cases task with
  | none => rfl
  | some task =>
    cases err with
    | none => rfl
    | some err =>
      dsimp only
      cases FindRequest m task.URL <;> simp

@[simp] theorem enumeration_OnTask_DidFinishDownloadingToURL (P : Platform) (m : Manager)
    (task : Option Task) (err : Option NSError) (f : String) :
    (OnTask_DidFinishDownloadingToURL P m task err f).enumeration = m.enumeration := by
  unfold OnTask_DidFinishDownloadingToURL
  dsimp only
  split_ifs
  · split <;> simp
  · simp

theorem enumeration_removeFold (R : RequestId) (l : List String) (m : Manager) :
    (l.foldl (RemoveURLMapEntriesStep R) m).enumeration = m.enumeration := by
  induction l generalizing m with
  | nil => rfl
  | cons u l ih =>
    simp only [List.foldl_cons]
    rw [ih]
    unfold RemoveURLMapEntriesStep
    dsimp only
    split_ifs <;> rfl

theorem enumeration_genFold (R : RequestId) (l : List String) (acc : Manager × Bool) :
    (l.foldl (GenerateURLMapEntriesStep R) acc).1.enumeration = acc.1.enumeration := by
  induction l generalizing acc with
  | nil => rfl
  | cons u l ih =>
    simp only [List.foldl_cons]
    rw [ih]
    unfold GenerateURLMapEntriesStep
    dsimp only
    split_ifs <;> simp [CompleteWithExistingResponseData, Manager.enumeration, emit]

@[simp] theorem enumeration_Generate (m : Manager) (R : RequestId) :
    (GenerateURLMapEntriesForRequest m R).1.enumeration = m.enumeration := by
  unfold GenerateURLMapEntriesForRequest RemoveURLMapEntriesForRequest
  dsimp only
  split_ifs
  · rw [enumeration_removeFold, enumeration_genFold]
  · rw [enumeration_genFold]

theorem enumeration_CheckLoop (R : RequestId) (l : List String) (m : Manager) :
    (CheckForExistingUnAssociatedTaskLoop R m l).1.enumeration = m.enumeration := by
  induction l generalizing m with
  | nil => rfl
  | cons u l ih =>
    unfold CheckForExistingUnAssociatedTaskLoop
    cases m.UnAssociatedTasks.lookup u with
    | none => exact ih m
    | some t =>
      dsimp only
      split_ifs
      · cases h : (AssociateWithTask m R t).1.Requests R <;>
          simp [Manager.enumeration, emit, setRequest] <;>
          exact Prod.mk.inj (enumeration_AssociateWithTask m R t)
      · rw [ih]
        exact enumeration_AssociateWithTask m R t

@[simp] theorem enumeration_AddRequest (P : Platform) (m : Manager) (R : RequestId) :
    (AddRequest P m R).enumeration = m.enumeration := by
  by_cases hR : (m.Requests R).isSome = true
  · obtain ⟨r, hr⟩ := Option.isSome_iff_exists.mp hR
    unfold AddRequest
    rw [hr]
    dsimp only
    have hcheck : ∀ n : Manager,
        (AssociateWithAnyExistingUnAssociatedTasks n R).1.enumeration = n.enumeration := by
      intro n
      unfold AssociateWithAnyExistingUnAssociatedTasks CheckForExistingUnAssociatedTask
      cases n.Requests R with
      | none => rfl
      | some q => exact enumeration_CheckLoop R _ n
    have hex : ∀ n : Manager,
        (AssociateWithAnyExistingRequest P n R).1.enumeration = n.enumeration := by
      intro n
      unfold AssociateWithAnyExistingRequest
      cases P.ExistingResponse R <;> simp [CompleteWithExistingResponseData]
    by_cases h1 : (GenerateURLMapEntriesForRequest m R).2 = true
    · rw [if_pos h1]
      by_cases h2 : (!(AssociateWithAnyExistingRequest P
          (GenerateURLMapEntriesForRequest m R).1 R).2) = true
      · rw [if_pos h2]
        show (MakeActive _ R).enumeration = _
        have hmk : ∀ n : Manager, (MakeActive n R).enumeration = n.enumeration := fun _ => rfl
        rw [hmk]
        split_ifs
        · unfold StartRequest
          rw [enumeration_RetryRequest, hcheck, hex, enumeration_Generate]
        · rw [hcheck, hex, enumeration_Generate]
      · rw [if_neg h2, hex, enumeration_Generate]
    · rw [if_neg h1, enumeration_Generate]
  · have : m.Requests R = none := by simpa using hR
    unfold AddRequest
    rw [this]

@[simp] theorem enumeration_RemoveRequest (m : Manager) (R : RequestId) :
    (RemoveRequest m R).enumeration = m.enumeration := by
  unfold RemoveRequest
  cases m.Requests R with
  | none => rfl
  | some r =>
    show (CancelActiveTask (RemoveURLMapEntriesForRequest m R) R).enumeration = _
    rw [enumeration_CancelActiveTask]
    exact enumeration_removeFold R _ m

theorem enumeration_Visit (P : Platform) (V : TickView) (m : Manager) (R : RequestId) :
    (TickRequestsVisit P V m R).enumeration = m.enumeration := by
  unfold TickRequestsVisit
  cases m.Requests R with
  | none => rfl
  | some r =>
    dsimp only
    split_ifs <;> simp [SendDownloadProgressUpdate]

@[simp] theorem enumeration_TickRequests (P : Platform) (V : TickView) (m : Manager) :
    (TickRequests P V m).enumeration = m.enumeration := by
  have hsweep : ∀ (l : List RequestId) (n : Manager),
      (l.foldl (TickRequestsVisit P V) n).enumeration = n.enumeration := by
    intro l
    induction l with
    | nil => intro n; rfl
    | cons Q l ih => intro n; simp only [List.foldl_cons]; rw [ih, enumeration_Visit]
  have hdel : ∀ (l : List RequestId) (n : Manager),
      (l.foldl BaseRemoveRequest n).enumeration = n.enumeration := by
    intro l
    induction l with
    | nil => intro n; rfl
    | cons Q l ih => intro n; simp only [List.foldl_cons]; rw [ih]; rfl
  unfold TickRequests DeletePendingRemoveRequests
  show (List.foldl BaseRemoveRequest _ _).enumeration = _
  rw [hdel, hsweep]

theorem enumeration_TickTasksLoop (P : Platform) (tasks : List Task) (m : Manager) :
    (TickTasksLoop P m tasks).enumeration = m.enumeration := by
  induction tasks generalizing m with
  | nil => rfl
  | cons t rest ih =>
    unfold TickTasksLoop
    dsimp only
    have hfound : ∀ n : Manager,
        (match FindRequest n t.URL with
          | some FoundRequest => ActivateUnderlyingTask n FoundRequest
          | none => { n with NumCurrentlyActiveTasks := n.NumCurrentlyActiveTasks - 1 }).enumeration
          = n.enumeration := by
      intro n
      cases FindRequest n t.URL with
      | none => rfl
      | some Q => exact enumeration_ActivateUnderlyingTask n Q
    split_ifs
    · rw [hfound]; rfl
    · rw [ih, hfound]; rfl
    · rfl
    · exact ih m

/-- Every event other than `TickTasks` and its completion handler leaves the
enumeration bookkeeping as it was. -/
theorem enumeration_applyEvent (P : Platform) (m : Manager) (e : Event)
    (h1 : e ≠ Event.TickTasks) (h2 : ∀ tasks, e ≠ Event.TickTasksHandler tasks) :
    (applyEvent P m e).enumeration = m.enumeration := by
  cases e with
  | AddRequest R => exact enumeration_AddRequest P m R
  | RemoveRequest R => exact enumeration_RemoveRequest m R
  | TickRequests V => exact enumeration_TickRequests P V m
  | TickTasks => exact absurd rfl h1
  | TickTasksHandler tasks => exact absurd rfl (h2 tasks)
  | TickUnassociatedTasks =>
    show (TickUnassociatedTasks m).enumeration = _
    unfold TickUnassociatedTasks
    dsimp only
    split_ifs <;> rfl
  | EnteringBackground => rfl
  | ResumeAllTasksHandler ts =>
    show (if m.QueuedResumeAllTasks = 0 then m else (ResumeAllTasksHandler m ts).1).enumeration = _
    split_ifs <;> rfl
  | EnteringForeground => rfl
  | PauseAllActiveTasksHandler ts =>
    show (if m.QueuedPauseAllActiveTasks = 0 then m
      else (PauseAllActiveTasksHandler m ts).1).enumeration = _
    split_ifs <;> rfl
  | DidCompleteWithError task err => exact enumeration_OnTask_DidCompleteWithError P m _ _
  | DidFinishDownloadingToURL task err f =>
    exact enumeration_OnTask_DidFinishDownloadingToURL P m _ _ f
  | DidWriteData task b t x =>
    show (OnTask_DidWriteData m (some task) b t x).1.enumeration = _
    unfold OnTask_DidWriteData UpdateDownloadProgress
    dsimp only
    cases FindRequest m task.URL with
    | none => rfl
    | some Q =>
      dsimp only
      cases m.Requests Q <;> rfl

/-- In every state reached from the initial one the flag is raised exactly when
one completion handler of `TickTasks` is queued, and never more than one is. -/
theorem enumeration_reachable (P : Platform) (H : RequestId → Option Request) (events : List Event) :
    (applyEvents P (Manager.init H) events).enumeration = (false, 0) ∨
    (applyEvents P (Manager.init H) events).enumeration = (true, 1) := by
  have hstep : ∀ (m : Manager) (e : Event),
      (m.enumeration = (false, 0) ∨ m.enumeration = (true, 1)) →
      ((applyEvent P m e).enumeration = (false, 0) ∨
        (applyEvent P m e).enumeration = (true, 1)) := by
    intro m e hm
    by_cases h1 : e = Event.TickTasks
    · subst h1
      show (TickTasks m).enumeration = _ ∨ (TickTasks m).enumeration = _
      unfold TickTasks
      simp only [Manager.enumeration, Prod.mk.injEq] at hm ⊢
      rcases hm with ⟨hf, hq⟩ | ⟨hf, hq⟩
      · right
        simp [hf, hq, emit]
      · right
        simp [hf, hq]
    · by_cases h2 : ∃ tasks, e = Event.TickTasksHandler tasks
      · obtain ⟨tasks, rfl⟩ := h2
        show (if m.QueuedTickTasks = 0 then m else TickTasksHandler P m tasks).enumeration = _ ∨
          (if m.QueuedTickTasks = 0 then m else TickTasksHandler P m tasks).enumeration = _
        by_cases hq0 : m.QueuedTickTasks = 0
        · rw [if_pos hq0]
          exact hm
        · rw [if_neg hq0]
          left
          have hq1 : m.QueuedTickTasks = 1 := by
            rcases hm with hm | hm
            · exact absurd (congrArg Prod.snd hm) hq0
            · exact congrArg Prod.snd hm
          have hloop := congrArg Prod.snd (enumeration_TickTasksLoop P tasks m)
          simp only [Manager.enumeration] at hloop
          unfold TickTasksHandler
          simp only [Manager.enumeration, Prod.mk.injEq, true_and]
          split_ifs
          · rw [hloop, hq1]
          · rw [hq1]
      · rw [enumeration_applyEvent P m e h1 (fun tasks h => h2 ⟨tasks, h⟩)]
        exact hm
  have hrun : ∀ (events : List Event) (m : Manager),
      (m.enumeration = (false, 0) ∨ m.enumeration = (true, 1)) →
      ((applyEvents P m events).enumeration = (false, 0) ∨
        (applyEvents P m events).enumeration = (true, 1)) := by
    intro events
    induction events with
    | nil => intro m hm; exact hm
    | cons e es ih =>
      intro m hm
      show (applyEvents P (applyEvent P m e) es).enumeration = _ ∨ _
      exact ih _ (hstep m e hm)
  exact hrun events _ (Or.inl rfl)

end Enumeration

/-! ## C15: the enumeration of `TickTasks` is single-flight -/

/-- C15: `TickTasks` called with `bIsIteratingThroughSessionTasks` false raises
the flag and hands one enumeration to the session, and nothing else; called
with the flag raised it leaves the whole state as it is. The completion handler
lowers the flag and is off the queue when it ends. In every state reached from
the initial one by any events at most one enumeration is outstanding, and one is
outstanding exactly when the flag is raised. -/
theorem C15_TickTasks_single_flight (P : Platform) (H : RequestId → Option Request) (events : List Event)
    (m : Manager) (tasks : List Task) :
    (m.bIsIteratingThroughSessionTasks = false →
      TickTasks m = { m with
        bIsIteratingThroughSessionTasks := true
        Effects := m.Effects ++ [Effect.getAllTasksWithCompletionHandler]
        QueuedTickTasks := m.QueuedTickTasks + 1 }) ∧
    (m.bIsIteratingThroughSessionTasks = true → TickTasks m = m) ∧
    ((TickTasksHandler P m tasks).bIsIteratingThroughSessionTasks = false ∧
      (TickTasksHandler P m tasks).QueuedTickTasks = m.QueuedTickTasks - 1) ∧
    ((applyEvents P (Manager.init H) events).QueuedTickTasks ≤ 1 ∧
      ((applyEvents P (Manager.init H) events).QueuedTickTasks = 1 ↔
        (applyEvents P (Manager.init H) events).bIsIteratingThroughSessionTasks = true)) := by
  refine ⟨?_, ?_, ⟨rfl, ?_⟩, ?_⟩
  · intro h
    unfold TickTasks
    simp [h, emit]
  · intro h
    unfold TickTasks
    simp only [h, Bool.not_true, Bool.false_eq_true, if_false]
    cases m
    simp only [Manager.mk.injEq, and_true, true_and] at h ⊢
    simp_all
  · have hloop := congrArg Prod.snd (enumeration_TickTasksLoop P tasks m)
    simp only [Manager.enumeration] at hloop
    unfold TickTasksHandler
    dsimp only
    split_ifs
    · rw [hloop]
    · rfl
  · rcases enumeration_reachable P H events with h | h <;>
      simp only [Manager.enumeration, Prod.mk.injEq] at h <;>
      simp [h.1, h.2]

/-- C15 on a concrete run: a second `TickTasks` while the first enumeration is
outstanding changes nothing, and one enumeration is outstanding after both. -/
theorem C15_TickTasks_single_flight_witness :
    (TickTasks (Manager.init exHeap)).bIsIteratingThroughSessionTasks = true ∧
    TickTasks (TickTasks (Manager.init exHeap)) = TickTasks (Manager.init exHeap) ∧
    (applyEvents (exPlatform 2) (Manager.init exHeap)
      [Event.TickTasks, Event.TickTasks]).QueuedTickTasks = 1 :=
  ⟨by decide,
    (C15_TickTasks_single_flight (exPlatform 2) exHeap [Event.TickTasks, Event.TickTasks]
      (TickTasks (Manager.init exHeap)) []).2.1 (by decide),
    by decide⟩

/-! ## The routing invariant along runs with ticks, transitions and callbacks -/

section Routing

theorem SameRouting.asIs (m : Manager) : SameRouting m m := ⟨rfl, fun _ => rfl⟩

theorem SameRouting.followedBy {a b c : Manager} (hab : SameRouting a b)
    (hbc : SameRouting b c) : SameRouting a c :=
  ⟨hbc.1.trans hab.1, fun Q => (hbc.2 Q).trans (hab.2 Q)⟩

theorem SameRouting.ofStable {m n : Manager} (h : Stable m n) : SameRouting m n :=
  ⟨h.1, fun Q => h.getURLList Q⟩

theorem SameRouting.ofHeap {m n : Manager} (h1 : n.URLToRequestMap = m.URLToRequestMap)
    (h2 : n.Requests = m.Requests) : SameRouting m n :=
  ⟨h1, fun Q => by unfold GetURLList; rw [h2]⟩

theorem SameRouting.owns {m n : Manager} (h : SameRouting m n) (hm : OwnsOnlyListed m) :
    OwnsOnlyListed n := by
  intro k R hk
  rw [h.2 R]
  rw [h.1] at hk
  exact hm k R hk

theorem routing_Visit (P : Platform) (V : TickView) (m : Manager) (R : RequestId) :
    SameRouting m (TickRequestsVisit P V m R) := by
  unfold TickRequestsVisit
  cases hr : m.Requests R with
  | none => exact SameRouting.asIs m
  | some r =>
    dsimp only
    have hset : Stable m (setRequest m R { r with bWasTaskStartedInBG := false }) :=
      stable_setRequest m R r _ hr rfl
    split_ifs
    · exact ⟨(finishRequest_urlList P m R R).2, fun Q => (finishRequest_urlList P m R Q).1⟩
    · exact SameRouting.ofStable (Stable.andThen hset (stable_CancelActiveTask _ R))
    · exact SameRouting.ofStable (Stable.andThen
        (Stable.andThen (stable_emit m _) (stable_CancelActiveTask _ R)) (stable_emit _ _))
    · exact SameRouting.ofStable (Stable.andThen (stable_emit m _) (stable_emit _ _))
    · exact SameRouting.ofStable (stable_emit m _)

theorem routing_TickRequests (P : Platform) (V : TickView) (m : Manager) :
    SameRouting m (TickRequests P V m) := by
  have hsweep : ∀ (l : List RequestId) (n : Manager),
      SameRouting n (l.foldl (TickRequestsVisit P V) n) := by
    intro l
    induction l with
    | nil => intro n; exact SameRouting.asIs n
    | cons Q l ih =>
      intro n
      simp only [List.foldl_cons]
      exact SameRouting.followedBy (routing_Visit P V n Q) (ih _)
  obtain ⟨_, h2, h3, _⟩ := deletePending_frame (m.ActiveRequests.foldl (TickRequestsVisit P V) m)
  exact SameRouting.followedBy (hsweep _ m) (SameRouting.ofHeap h3 h2)

theorem routing_TickTasksLoop (P : Platform) (tasks : List Task) (m : Manager) :
    SameRouting m (TickTasksLoop P m tasks) := by
  induction tasks generalizing m with
  | nil => exact SameRouting.asIs m
  | cons t rest ih =>
    unfold TickTasksLoop
    dsimp only
    have hcount : ∀ (n : Manager) (c : Int),
        SameRouting n { n with NumCurrentlyActiveTasks := c } :=
      fun n c => SameRouting.ofHeap rfl rfl
    have hfound : ∀ n : Manager,
        SameRouting n (match FindRequest n t.URL with
          | some FoundRequest => ActivateUnderlyingTask n FoundRequest
          | none => { n with NumCurrentlyActiveTasks := n.NumCurrentlyActiveTasks - 1 }) := by
      intro n
      cases FindRequest n t.URL with
      | none => exact hcount n _
      | some Q => exact SameRouting.ofStable (stable_ActivateUnderlyingTask n Q)
    split_ifs
    · exact SameRouting.followedBy (hcount m _) (hfound _)
    · exact SameRouting.followedBy (SameRouting.followedBy (hcount m _) (hfound _)) (ih _)
    · exact SameRouting.ofHeap rfl rfl
    · exact ih m

/-- Ticks, application transitions, completion handlers and the finished-download
callback leave the routing table and the URL lists alone. -/
theorem routing_applyEvent (P : Platform) (m : Manager) (e : Event)
    (h1 : ∀ R, e ≠ Event.AddRequest R) (h2 : ∀ R, e ≠ Event.RemoveRequest R) :
    SameRouting m (applyEvent P m e) := by
  cases e with
  | AddRequest R => exact absurd rfl (h1 R)
  | RemoveRequest R => exact absurd rfl (h2 R)
  | TickRequests V => exact routing_TickRequests P V m
  | TickTasks =>
    show SameRouting m (TickTasks m)
    unfold TickTasks
    dsimp only
    split_ifs <;> exact SameRouting.ofHeap rfl rfl
  | TickTasksHandler tasks =>
    show SameRouting m (if m.QueuedTickTasks = 0 then m else TickTasksHandler P m tasks)
    unfold TickTasksHandler
    dsimp only
    split_ifs
    · exact SameRouting.asIs m
    · exact SameRouting.followedBy (routing_TickTasksLoop P tasks m) (SameRouting.ofHeap rfl rfl)
    · exact SameRouting.ofHeap rfl rfl
  | TickUnassociatedTasks =>
    show SameRouting m (TickUnassociatedTasks m)
    unfold TickUnassociatedTasks
    dsimp only
    split_ifs <;> exact SameRouting.ofHeap rfl rfl
  | EnteringBackground => exact SameRouting.ofHeap rfl rfl
  | ResumeAllTasksHandler ts =>
    show SameRouting m (if m.QueuedResumeAllTasks = 0 then m else (ResumeAllTasksHandler m ts).1)
    split_ifs
    · exact SameRouting.asIs m
    · exact SameRouting.ofHeap rfl rfl
  | EnteringForeground => exact SameRouting.ofHeap rfl rfl
  | PauseAllActiveTasksHandler ts =>
    show SameRouting m (if m.QueuedPauseAllActiveTasks = 0 then m
      else (PauseAllActiveTasksHandler m ts).1)
    split_ifs
    · exact SameRouting.asIs m
    · exact SameRouting.ofHeap rfl rfl
  | DidCompleteWithError task err =>
    exact SameRouting.ofStable (stable_OnTask_DidCompleteWithError P m (some task) (some err))
  | DidFinishDownloadingToURL task err f =>
    show SameRouting m (OnTask_DidFinishDownloadingToURL P m (some task) err f)
    unfold OnTask_DidFinishDownloadingToURL
    dsimp only
    split_ifs
    · cases FindRequest m task.URL with
      | none => exact SameRouting.asIs m
      | some Q =>
        show SameRouting m (SetRequestAsSuccess m Q f)
        unfold SetRequestAsSuccess
        cases hq : m.Requests Q with
        | none => exact SameRouting.asIs m
        | some q =>
          refine ⟨rfl, fun Q1 => ?_⟩
          unfold GetURLList setRequest
          by_cases hQ : Q1 = Q
          · subst hQ; simp [hq]
          · simp [hQ]
    · exact SameRouting.ofStable (stable_OnTask_DidCompleteWithError P m (some task) err)
  | DidWriteData task b t x =>
    show SameRouting m (OnTask_DidWriteData m (some task) b t x).1
    unfold OnTask_DidWriteData UpdateDownloadProgress
    dsimp only
    cases FindRequest m task.URL with
    | none => exact SameRouting.asIs m
    | some Q =>
      dsimp only
      cases hq : m.Requests Q with
      | none => exact SameRouting.asIs m
      | some q =>
        refine ⟨rfl, fun Q1 => ?_⟩
        unfold GetURLList setRequest
        by_cases hQ : Q1 = Q
        · subst hQ; simp [hq]
        · simp [hQ]

/-- The routing invariant holds in every state reached from the initial one by
any events. -/
theorem ownsOnlyListed_events (P : Platform) (H : RequestId → Option Request)
    (events : List Event) : OwnsOnlyListed (applyEvents P (Manager.init H) events) := by
  have hstep : ∀ (m : Manager) (e : Event), OwnsOnlyListed m →
      OwnsOnlyListed (applyEvent P m e) := by
    intro m e hm
    by_cases h1 : ∃ R, e = Event.AddRequest R
    · obtain ⟨R, rfl⟩ := h1
      exact ownsOnlyListed_applyStep P m (Step.AddRequest R) hm
    · by_cases h2 : ∃ R, e = Event.RemoveRequest R
      · obtain ⟨R, rfl⟩ := h2
        exact ownsOnlyListed_applyStep P m (Step.RemoveRequest R) hm
      · exact (routing_applyEvent P m e (fun R h => h1 ⟨R, h⟩) (fun R h => h2 ⟨R, h⟩)).owns hm
  have hrun : ∀ (events : List Event) (m : Manager), OwnsOnlyListed m →
      OwnsOnlyListed (applyEvents P m events) := by
    intro events
    induction events with
    | nil => intro m hm; exact hm
    | cons e es ih => intro m hm; exact ih _ (hstep m e hm)
  apply hrun
  intro k R hk
  simp [Manager.init] at hk

end Routing

/-! ## C19: `RemoveRequest` severs the routing at once and defers the removal -/

/-- C19: for a live request `R`, `RemoveRequest(R)` leaves no URL of `R` mapped
to `R`; in a state where requests are registered under their own URLs only, as
in every state reached from the initial one, no key at all is mapped to `R` and
no URL routes to `R` afterwards. Every entry that does not pin to `R` is left as
it was. The only outgoing call is the cancel of the task of `R`, `R` is appended
to the pending-removal queue and the active list is unchanged. `TickRequests`
on any state leaves the queue empty and no queued request in the active list;
run right after the removal, the active list has lost `R` and whatever else was
queued, and nothing more. -/
theorem C19_RemoveRequest_severs_and_defers (P : Platform) (V : TickView) (m : Manager)
    (R : RequestId) (hr : (m.Requests R).isSome = true) :
    (∀ k ∈ GetURLList m R, (RemoveRequest m R).URLToRequestMap k ≠ some (some R)) ∧
    (OwnsOnlyListed m → ∀ k, (RemoveRequest m R).URLToRequestMap k ≠ some (some R) ∧
      FindRequest (RemoveRequest m R) k ≠ some R) ∧
    ((∃ (P0 : Platform) (H : RequestId → Option Request) (events : List Event),
        m = applyEvents P0 (Manager.init H) events) →
      ∀ k, FindRequest (RemoveRequest m R) k ≠ some R) ∧
    (∀ k w, m.URLToRequestMap k = some w → Pin m w ≠ some R →
      (RemoveRequest m R).URLToRequestMap k = some w) ∧
    (RemoveRequest m R).Effects = m.Effects ++ [Effect.CancelActiveTask R] ∧
    (RemoveRequest m R).RequestsPendingRemove = m.RequestsPendingRemove ++ [R] ∧
    (RemoveRequest m R).ActiveRequests = m.ActiveRequests ∧
    (∀ n : Manager, (TickRequests P V n).RequestsPendingRemove = [] ∧
      ∀ Q ∈ n.RequestsPendingRemove, Q ∉ (TickRequests P V n).ActiveRequests) ∧
    (TickRequests P V (RemoveRequest m R)).ActiveRequests =
      m.ActiveRequests.filter (fun Q => decide (Q ∉ m.RequestsPendingRemove ++ [R])) := by
  obtain ⟨r, hr1⟩ := Option.isSome_iff_exists.mp hr
  have htable : (RemoveRequest m R).URLToRequestMap =
      ((GetURLList m R).foldl (RemoveURLMapEntriesStep R) m).URLToRequestMap := by
    unfold RemoveRequest
    rw [hr1]
    dsimp only
    unfold RemoveSessionTasksForRequest
    rw [(stable_CancelActiveTask _ R).1]
    rfl
  have hframe := removeFold_frame R (GetURLList m R) m
  have hheap : (RemoveRequest m R).Requests R ≠ none := by
    have h := removeRequest_heap m R R
    rw [hr1] at h
    intro hn
    rw [hn] at h
    simp at h
  have hnone : ∀ k ∈ GetURLList m R, (RemoveRequest m R).URLToRequestMap k ≠ some (some R) := by
    intro k hk h
    rw [htable] at h
    exact (removeFold_owned R _ m k hr h).1 hk
  have hall : OwnsOnlyListed m → ∀ k, (RemoveRequest m R).URLToRequestMap k ≠ some (some R) ∧
      FindRequest (RemoveRequest m R) k ≠ some R := by
    intro hown k
    have h1 : (RemoveRequest m R).URLToRequestMap k ≠ some (some R) := by
      intro h
      rw [htable] at h
      obtain ⟨hk, hold⟩ := removeFold_owned R _ m k hr h
      exact hk (hown k R hold)
    refine ⟨h1, ?_⟩
    intro hf
    unfold FindRequest at hf
    cases hw : (RemoveRequest m R).URLToRequestMap k with
    | none => rw [hw] at hf; simp at hf
    | some w =>
      rw [hw] at hf
      dsimp only at hf
      unfold Pin at hf
      split_ifs at hf
      · exact h1 (by rw [hw, hf])
  have hlists : (RemoveRequest m R).Effects = m.Effects ++ [Effect.CancelActiveTask R] ∧
      (RemoveRequest m R).RequestsPendingRemove = m.RequestsPendingRemove ++ [R] ∧
      (RemoveRequest m R).ActiveRequests = m.ActiveRequests := by
    obtain ⟨h1, h2, h3, h4, _⟩ := hframe
    unfold RemoveRequest
    rw [hr1]
    dsimp only
    unfold RemoveSessionTasksForRequest RemoveURLMapEntriesForRequest CancelActiveTask
    have hr2 : ((GetURLList m R).foldl (RemoveURLMapEntriesStep R) m).Requests R = some r := by
      rw [h1]; exact hr1
    rw [hr2]
    simp [emit, setRequest, h2, h3, h4]
  have htick : ∀ n : Manager, (TickRequests P V n).RequestsPendingRemove = [] ∧
      ∀ Q ∈ n.RequestsPendingRemove, Q ∉ (TickRequests P V n).ActiveRequests := by
    intro n
    obtain ⟨h1, h2⟩ := tickRequests_lists P V n
    refine ⟨h1, fun Q hQ hin => ?_⟩
    rw [h2] at hin
    simp only [List.mem_filter, decide_eq_true_eq] at hin
    exact hin.2 hQ
  refine ⟨hnone, hall, ?_, ?_, hlists.1, hlists.2.1, hlists.2.2, htick, ?_⟩
  · rintro ⟨P0, H, events, rfl⟩ k
    exact (hall (ownsOnlyListed_events P0 H events) k).2
  · intro k w hw hp
    rw [htable]
    exact removeFold_keep R _ m k w hw hp
  · rw [(tickRequests_lists P V _).2, hlists.2.1, hlists.2.2]

/-- C19 on the example manager: request 1, submitted and registered under A, B
and C, is removed; none of its URLs routes to it any more, its task is
cancelled, it is queued and still in the active list, and the tick takes it
out of the active list and empties the queue. -/
theorem C19_RemoveRequest_severs_and_defers_witness :
    (exStarted.Requests 1).isSome = true ∧
    FindRequest exStarted "A" = some 1 ∧
    (∀ k, FindRequest (RemoveRequest exStarted 1) k ≠ some 1) ∧
    (RemoveRequest exStarted 1).Effects = exStarted.Effects ++ [Effect.CancelActiveTask 1] ∧
    (RemoveRequest exStarted 1).RequestsPendingRemove = [1] ∧
    (RemoveRequest exStarted 1).ActiveRequests = [1] ∧
    (TickRequests (exPlatform 0) exTickView (RemoveRequest exStarted 1)).RequestsPendingRemove
      = [] ∧
    (TickRequests (exPlatform 0) exTickView (RemoveRequest exStarted 1)).ActiveRequests = [] :=
  have h := C19_RemoveRequest_severs_and_defers (exPlatform 0) exTickView exStarted 1
    (by decide)
  ⟨by decide, by decide,
    h.2.2.1 ⟨exPlatform 0, exHeap, [Event.AddRequest 1], rfl⟩,
    h.2.2.2.2.1, h.2.2.2.2.2.1, h.2.2.2.2.2.2.1,
    (h.2.2.2.2.2.2.2.1 _).1, h.2.2.2.2.2.2.2.2⟩

/-! ## C20: entering the background and the foreground -/

/-- C20 (as stated) fails for the foreground: `OnApp_EnteringForeground` hands
the enumeration whose completion handler suspends the tasks to the session
first, with `bIsInBackground` still true, and clears the flag in the statement
after it. The handler is queued from then on; run by the session at that
point it suspends the running task of request 1 while the flag is still true. -/
theorem C20_pause_is_queued_before_the_flag_is_cleared :
    exInBackground.bIsInBackground = true ∧
    (PauseAllActiveTasks exInBackground).bIsInBackground = true ∧
    (PauseAllActiveTasks exInBackground).QueuedPauseAllActiveTasks = 1 ∧
    (applyEvent (exPlatform 0) (PauseAllActiveTasks exInBackground)
      (Event.PauseAllActiveTasksHandler exSessionTasks)).Effects =
      exInBackground.Effects ++
        [Effect.getTasksWithCompletionHandler, Effect.suspend ⟨9, "A", TaskState.Running⟩] ∧
    (applyEvent (exPlatform 0) (PauseAllActiveTasks exInBackground)
      (Event.PauseAllActiveTasksHandler exSessionTasks)).bIsInBackground = true ∧
    OnApp_EnteringForeground exInBackground =
      { PauseAllActiveTasks exInBackground with bIsInBackground := false } :=
  ⟨by decide, by decide, by decide, by decide, by decide, rfl⟩

/-- C20 (amended). Background: `OnApp_EnteringBackground` sets `bIsInBackground`
to true and then hands one enumeration to the session, with no other outgoing
call; its completion handler resumes exactly the suspended download tasks, in
their order, leaves the other tasks and the flag as they are, and no enumerated
task is suspended when it ends. Foreground: `OnApp_EnteringForeground` hands one
enumeration to the session, with the flag as it was, and then sets the flag to
false; its completion handler suspends exactly the running download tasks,
sets the active-task counter to 0, leaves the flag as it is, and no enumerated
task is running when it ends. When the handler runs right after the
transition, the flag is true (background) or false (foreground) at its end. -/
theorem C20_transitions (P : Platform) (m : Manager) (DownloadTasks : List Task) :
    ((OnApp_EnteringBackground m).bIsInBackground = true ∧
      (OnApp_EnteringBackground m).Effects =
        m.Effects ++ [Effect.getTasksWithCompletionHandler] ∧
      (OnApp_EnteringBackground m).QueuedResumeAllTasks = m.QueuedResumeAllTasks + 1 ∧
      (OnApp_EnteringBackground m).NumCurrentlyActiveTasks = m.NumCurrentlyActiveTasks) ∧
    ((∀ t ∈ (ResumeAllTasksHandler m DownloadTasks).2, t.state ≠ TaskState.Suspended) ∧
      (ResumeAllTasksHandler m DownloadTasks).2 = DownloadTasks.map Task.resume ∧
      (∀ t, t.state ≠ TaskState.Suspended → Task.resume t = t) ∧
      (ResumeAllTasksHandler m DownloadTasks).1.Effects = m.Effects ++
        (DownloadTasks.filter (fun t => t.state = TaskState.Suspended)).map Effect.resume ∧
      (ResumeAllTasksHandler m DownloadTasks).1.bIsInBackground = m.bIsInBackground ∧
      (ResumeAllTasksHandler m DownloadTasks).1.NumCurrentlyActiveTasks =
        m.NumCurrentlyActiveTasks) ∧
    ((applyEvents P m [Event.EnteringBackground,
        Event.ResumeAllTasksHandler DownloadTasks]).bIsInBackground = true ∧
      (applyEvents P m [Event.EnteringBackground,
        Event.ResumeAllTasksHandler DownloadTasks]).Effects =
        m.Effects ++ Effect.getTasksWithCompletionHandler ::
          (DownloadTasks.filter (fun t => t.state = TaskState.Suspended)).map Effect.resume) ∧
    ((PauseAllActiveTasks m).bIsInBackground = m.bIsInBackground ∧
      (PauseAllActiveTasks m).Effects = m.Effects ++ [Effect.getTasksWithCompletionHandler] ∧
      (PauseAllActiveTasks m).QueuedPauseAllActiveTasks = m.QueuedPauseAllActiveTasks + 1 ∧
      OnApp_EnteringForeground m = { PauseAllActiveTasks m with bIsInBackground := false } ∧
      (OnApp_EnteringForeground m).bIsInBackground = false ∧
      (OnApp_EnteringForeground m).NumCurrentlyActiveTasks = m.NumCurrentlyActiveTasks) ∧
    ((∀ t ∈ (PauseAllActiveTasksHandler m DownloadTasks).2, t.state ≠ TaskState.Running) ∧
      (PauseAllActiveTasksHandler m DownloadTasks).2 = DownloadTasks.map Task.suspend ∧
      (∀ t, t.state ≠ TaskState.Running → Task.suspend t = t) ∧
      (PauseAllActiveTasksHandler m DownloadTasks).1.Effects = m.Effects ++
        (DownloadTasks.filter (fun t => t.state = TaskState.Running)).map Effect.suspend ∧
      (PauseAllActiveTasksHandler m DownloadTasks).1.bIsInBackground = m.bIsInBackground ∧
      (PauseAllActiveTasksHandler m DownloadTasks).1.NumCurrentlyActiveTasks = 0) ∧
    ((applyEvents P m [Event.EnteringForeground,
        Event.PauseAllActiveTasksHandler DownloadTasks]).bIsInBackground = false ∧
      (applyEvents P m [Event.EnteringForeground,
        Event.PauseAllActiveTasksHandler DownloadTasks]).Effects =
        m.Effects ++ Effect.getTasksWithCompletionHandler ::
          (DownloadTasks.filter (fun t => t.state = TaskState.Running)).map Effect.suspend ∧
      (applyEvents P m [Event.EnteringForeground,
        Event.PauseAllActiveTasksHandler DownloadTasks]).NumCurrentlyActiveTasks = 0) := by
  have hres : ∀ t : Task, (Task.resume t).state ≠ TaskState.Suspended := by
    intro t
    unfold Task.resume
    split_ifs with h
    · simp
    · exact h
  have hsus : ∀ t : Task, (Task.suspend t).state ≠ TaskState.Running := by
    intro t
    unfold Task.suspend
    split_ifs with h
    · simp
    · exact h
  have hbg : applyEvents P m [Event.EnteringBackground,
      Event.ResumeAllTasksHandler DownloadTasks] =
      (ResumeAllTasksHandler (OnApp_EnteringBackground m) DownloadTasks).1 := by
    have hq : (OnApp_EnteringBackground m).QueuedResumeAllTasks ≠ 0 := by
      show m.QueuedResumeAllTasks + 1 ≠ 0
      omega
    show (if (OnApp_EnteringBackground m).QueuedResumeAllTasks = 0 then OnApp_EnteringBackground m
      else (ResumeAllTasksHandler (OnApp_EnteringBackground m) DownloadTasks).1) = _
    rw [if_neg hq]
  have hfg : applyEvents P m [Event.EnteringForeground,
      Event.PauseAllActiveTasksHandler DownloadTasks] =
      (PauseAllActiveTasksHandler (OnApp_EnteringForeground m) DownloadTasks).1 := by
    have hq : (OnApp_EnteringForeground m).QueuedPauseAllActiveTasks ≠ 0 := by
      show m.QueuedPauseAllActiveTasks + 1 ≠ 0
      omega
    show (if (OnApp_EnteringForeground m).QueuedPauseAllActiveTasks = 0
      then OnApp_EnteringForeground m
      else (PauseAllActiveTasksHandler (OnApp_EnteringForeground m) DownloadTasks).1) = _
    rw [if_neg hq]
  refine ⟨⟨rfl, rfl, rfl, rfl⟩, ⟨?_, rfl, ?_, rfl, rfl, rfl⟩, ⟨?_, ?_⟩,
    ⟨rfl, rfl, rfl, rfl, rfl, rfl⟩, ⟨?_, rfl, ?_, rfl, rfl, rfl⟩, ⟨?_, ?_, ?_⟩⟩
  · intro t ht
    obtain ⟨u, _, rfl⟩ := List.mem_map.mp ht
    exact hres u
  · intro t ht
    unfold Task.resume
    rw [if_neg ht]
  · rw [hbg]; rfl
  · rw [hbg]
    show (m.Effects ++ [Effect.getTasksWithCompletionHandler]) ++ _ = _
    simp
  · intro t ht
    obtain ⟨u, _, rfl⟩ := List.mem_map.mp ht
    exact hsus u
  · intro t ht
    unfold Task.suspend
    rw [if_neg ht]
  · rw [hfg]; rfl
  · rw [hfg]
    show (m.Effects ++ [Effect.getTasksWithCompletionHandler]) ++ _ = _
    simp
  · rw [hfg]; rfl

/-- C20 (amended) on the example manager in the background and the two tasks of
the session: after the return to the foreground and its completion handler the
flag is false, the running task was suspended, and none is left running. -/
theorem C20_transitions_witness :
    (applyEvents (exPlatform 0) exInBackground [Event.EnteringForeground,
      Event.PauseAllActiveTasksHandler exSessionTasks]).bIsInBackground = false ∧
    (applyEvents (exPlatform 0) exInBackground [Event.EnteringForeground,
      Event.PauseAllActiveTasksHandler exSessionTasks]).Effects =
      exInBackground.Effects ++
        [Effect.getTasksWithCompletionHandler, Effect.suspend ⟨9, "A", TaskState.Running⟩] ∧
    (∀ t ∈ (PauseAllActiveTasksHandler (OnApp_EnteringForeground exInBackground)
      exSessionTasks).2, t.state ≠ TaskState.Running) :=
  ⟨(C20_transitions (exPlatform 0) exInBackground exSessionTasks).2.2.2.2.2.1,
    (C20_transitions (exPlatform 0) exInBackground exSessionTasks).2.2.2.2.2.2.1,
    (C20_transitions (exPlatform 0) (OnApp_EnteringForeground exInBackground)
      exSessionTasks).2.2.2.2.1.1⟩

/-! ## C21: the finished-download callback -/

/-- A URL only routes to a request that is alive. -/
theorem findRequest_alive (m : Manager) (URL : String) (R : RequestId)
    (h : FindRequest m URL = some R) : (m.Requests R).isSome = true := by
  unfold FindRequest at h
  cases hw : m.URLToRequestMap URL with
  | none => rw [hw] at h; simp at h
  | some w =>
    rw [hw] at h
    dsimp only at h
    unfold Pin at h
    split_ifs at h with hv
    subst h
    exact hv

/-- C21: in the finished-download callback, when the temp file exists and the
URL of the task routes to a live request, that request and no other is marked
succeeded with the given temp file path, and nothing else happens: no outgoing
call, no change of a retry counter or of any other part of the manager; when the
file exists and the URL routes to no live request nothing changes. When the
temp file does not exist the callback is the error callback on the same task
and error, and no request is marked completed or gets a temp file location. -/
theorem C21_finished_download (P : Platform) (m : Manager) (task : Task)
    (err : Option NSError) (TempFilePath : String) :
    (P.FileExists TempFilePath = true → ∀ R, FindRequest m task.URL = some R →
      ∃ r, m.Requests R = some r ∧
        OnTask_DidFinishDownloadingToURL P m (some task) err TempFilePath =
          setRequest m R
            { r with CompletedTempDownloadLocation := TempFilePath, bIsCompleted := true } ∧
        (OnTask_DidFinishDownloadingToURL P m (some task) err TempFilePath).Effects = m.Effects ∧
        ∀ Q, Q ≠ R →
          (OnTask_DidFinishDownloadingToURL P m (some task) err TempFilePath).Requests Q =
            m.Requests Q) ∧
    (P.FileExists TempFilePath = true → FindRequest m task.URL = none →
      OnTask_DidFinishDownloadingToURL P m (some task) err TempFilePath = m) ∧
    (P.FileExists TempFilePath = false →
      OnTask_DidFinishDownloadingToURL P m (some task) err TempFilePath =
        OnTask_DidCompleteWithError P m (some task) err ∧
      ∀ Q, ((OnTask_DidFinishDownloadingToURL P m (some task) err TempFilePath).Requests Q).map
          (fun q => (q.bIsCompleted, q.CompletedTempDownloadLocation)) =
        (m.Requests Q).map (fun q => (q.bIsCompleted, q.CompletedTempDownloadLocation))) := by
  refine ⟨?_, ?_, ?_⟩
  · intro hf R hR
    obtain ⟨r, hr⟩ := Option.isSome_iff_exists.mp (findRequest_alive m task.URL R hR)
    have heq : OnTask_DidFinishDownloadingToURL P m (some task) err TempFilePath =
        setRequest m R
          { r with CompletedTempDownloadLocation := TempFilePath, bIsCompleted := true } := by
      unfold OnTask_DidFinishDownloadingToURL SetRequestAsSuccess
      simp only [hf, hR, hr, if_true]
    refine ⟨r, hr, heq, ?_, ?_⟩
    · rw [heq]; rfl
    · intro Q hQ
      rw [heq]
      simp [setRequest, hQ]
  · intro hf hnone
    unfold OnTask_DidFinishDownloadingToURL
    simp only [hf, hnone, if_true]
  · intro hf
    have heq : OnTask_DidFinishDownloadingToURL P m (some task) err TempFilePath =
        OnTask_DidCompleteWithError P m (some task) err := by
      unfold OnTask_DidFinishDownloadingToURL
      simp only [hf, Bool.false_eq_true, if_false]
    refine ⟨heq, fun Q => ?_⟩
    rw [heq]
    have h := (stable_OnTask_DidCompleteWithError P m (some task) err).2.2.2.2.2 Q
    cases hn : (OnTask_DidCompleteWithError P m (some task) err).Requests Q <;>
      cases hm : m.Requests Q <;> simp [hn, hm, Request.fixedPart] at h ⊢
    exact ⟨h.2.1, h.2.2.2.1⟩

/-- C21 at a concrete input: the task of the submitted request 1 finishes; with
the temp file present the request is marked succeeded with that path and nothing
goes out, with the file missing and an error the request is retried instead. -/
theorem C21_finished_download_witness :
    ((OnTask_DidFinishDownloadingToURL exPlatformWithFile exStarted
        (some ⟨9, "A", TaskState.Running⟩) none "tmp/download").Requests 1).map
      (fun q => (q.bIsCompleted, q.CompletedTempDownloadLocation)) =
        some (true, "tmp/download") ∧
    (OnTask_DidFinishDownloadingToURL exPlatformWithFile exStarted
        (some ⟨9, "A", TaskState.Running⟩) none "tmp/download").Effects = exStarted.Effects ∧
    OnTask_DidFinishDownloadingToURL (exPlatform 0) exStarted
        (some ⟨9, "A", TaskState.Running⟩) (some ⟨-1001, none⟩) "tmp/download" =
      OnTask_DidCompleteWithError (exPlatform 0) exStarted
        (some ⟨9, "A", TaskState.Running⟩) (some ⟨-1001, none⟩) := by
  obtain ⟨r, _, h1, h2, _⟩ := (C21_finished_download exPlatformWithFile exStarted
    ⟨9, "A", TaskState.Running⟩ none "tmp/download").1 rfl 1 (by decide)
  refine ⟨?_, h2, ((C21_finished_download (exPlatform 0) exStarted
    ⟨9, "A", TaskState.Running⟩ (some ⟨-1001, none⟩) "tmp/download").2.2 rfl).1⟩
  rw [h1]
  simp [setRequest]

/-! ## The progress callback -/

section Progress

/-- Overwriting the record of a live request does not change where URLs route. -/
theorem findRequest_setRequest (m : Manager) (R : RequestId) (r r1 : Request)
    (hr : m.Requests R = some r) (URL : String) :
    FindRequest (setRequest m R r1) URL = FindRequest m URL := by
  unfold FindRequest Pin IsValid setRequest
  cases m.URLToRequestMap URL with
  | none => rfl
  | some w =>
    cases w with
    | none => rfl
    | some Q =>
      by_cases hQ : Q = R
      · subst hQ; simp [hr]
      · simp [hQ]

/-- The progress callback for a task that routes to the live request `R`. -/
theorem didWriteData_routed (m : Manager) (R : RequestId) (r : Request) (task : Task)
    (b t x : Int) (hroute : FindRequest m task.URL = some R) (hr : m.Requests R = some r) :
    OnTask_DidWriteData m (some task) b t x =
      (setRequest m R { r with DownloadProgress := max r.DownloadProgress t },
        if r.DownloadProgress < t then false else true) := by
  unfold OnTask_DidWriteData UpdateDownloadProgress
  simp only [hroute, hr]

/-- One progress callback does not lower the recorded progress of any request. -/
theorem recordedProgress_didWriteData (m : Manager) (Q : RequestId) (task : Option Task)
    (b t x : Int) :
    recordedProgress m Q ≤ recordedProgress (OnTask_DidWriteData m task b t x).1 Q := by
  cases task with
  | none => exact le_refl _
  | some task =>
    cases hF : FindRequest m task.URL with
    | none =>
      unfold OnTask_DidWriteData
      simp only [hF]
      exact le_refl _
    | some R =>
      obtain ⟨r, hr⟩ := Option.isSome_iff_exists.mp (findRequest_alive m task.URL R hF)
      rw [didWriteData_routed m R r task b t x hF hr]
      unfold recordedProgress setRequest
      by_cases hQ : Q = R
      · subst hQ
        simp [hr]
      · simp [hQ]

end Progress

/-! ## C22: the recorded download progress -/

/-- C22: the recorded download progress of a request is non-decreasing. After
`OnTask_DidWriteData`, for whatever task and byte counts, the recorded progress
of every request is greater than or equal to the progress recorded before the
call; over every sequence of progress callbacks the recorded values of a
request, one after the other, never go down. For the request the task routes to,
the recorded progress is the reported cumulative number of bytes when that is
above the progress recorded before, and stays what it was otherwise; the
progress of every other request is untouched. -/
theorem C22_recorded_progress_non_decreasing (m : Manager) (R : RequestId) :
    (∀ (task : Option Task) (b t x : Int),
      recordedProgress m R ≤ recordedProgress (OnTask_DidWriteData m task b t x).1 R) ∧
    (∀ calls : List WriteReport,
      List.Chain (fun a b => a ≤ b) (recordedProgress m R) (progressTrace R m calls)) ∧
    (∀ (task : Task) (b t x : Int), FindRequest m task.URL = some R →
      recordedProgress (OnTask_DidWriteData m (some task) b t x).1 R =
        max (recordedProgress m R) t ∧
      ∀ Q, Q ≠ R →
        (OnTask_DidWriteData m (some task) b t x).1.Requests Q = m.Requests Q) := by
  refine ⟨fun task b t x => recordedProgress_didWriteData m R task b t x, ?_, ?_⟩
  · intro calls
    induction calls generalizing m with
    | nil => exact List.Chain.nil
    | cons c rest ih =>
      exact List.Chain.cons
        (recordedProgress_didWriteData m R (some c.task) c.BytesWrittenSinceLastCall
          c.TotalBytesWritten c.TotalBytesExpectedToWrite)
        (ih (applyReport m c))
  · intro task b t x hroute
    obtain ⟨r, hr⟩ := Option.isSome_iff_exists.mp (findRequest_alive m task.URL R hroute)
    rw [didWriteData_routed m R r task b t x hroute hr]
    refine ⟨by simp [recordedProgress, setRequest, hr], fun Q hQ => ?_⟩
    simp [setRequest, hQ]

/-- C22 at a concrete input: the task of request 1 reports 10, 40 and 100 bytes
written and then, out of order, 40 again; the recorded progress follows the
first three reports and stays at 100 after the last. -/
theorem C22_recorded_progress_non_decreasing_witness :
    FindRequest exStarted "A" = some 1 ∧
    recordedProgress (OnTask_DidWriteData exStarted (some ⟨9, "A", TaskState.Running⟩)
      10 10 1000).1 1 = 10 ∧
    List.Chain (fun a b => a ≤ b) (recordedProgress exStarted 1)
      (progressTrace 1 exStarted
        [⟨⟨9, "A", TaskState.Running⟩, 10, 10, 1000⟩, ⟨⟨9, "A", TaskState.Running⟩, 30, 40, 1000⟩,
          ⟨⟨9, "A", TaskState.Running⟩, 60, 100, 1000⟩,
          ⟨⟨9, "A", TaskState.Running⟩, 40, 40, 1000⟩]) ∧
    progressTrace 1 exStarted
        [⟨⟨9, "A", TaskState.Running⟩, 10, 10, 1000⟩, ⟨⟨9, "A", TaskState.Running⟩, 30, 40, 1000⟩,
          ⟨⟨9, "A", TaskState.Running⟩, 60, 100, 1000⟩,
          ⟨⟨9, "A", TaskState.Running⟩, 40, 40, 1000⟩] = [10, 40, 100, 100] :=
  ⟨by decide,
    ((C22_recorded_progress_non_decreasing exStarted 1).2.2 ⟨9, "A", TaskState.Running⟩
      10 10 1000 (by decide)).1.trans (by decide),
    (C22_recorded_progress_non_decreasing exStarted 1).2.1 _, by decide⟩

/-! ## C23: the anomaly signal of the progress callback -/

/-- C23 (as stated) fails: the recorded progress of request 1 is 100 and the
callback reports 100 bytes written in total, equal to the recorded progress;
the `ensure` on the download progress is reached. -/
theorem C23_equal_report_raises_the_signal :
    FindRequest exDownloading "A" = some 1 ∧
    recordedProgress exDownloading 1 = 100 ∧
    (OnTask_DidWriteData exDownloading (some ⟨9, "A", TaskState.Running⟩) 0 100 1000).2 = true := by
  decide

/-- C23 (amended): for a progress callback routed to the live request `R` the
`ensure` is reached if and only if the reported cumulative number of bytes
written is less than or equal to the recorded progress of `R`; a report greater
than the recorded progress does not reach it. A callback that routes to no live
request, or comes without a task, does not reach it either. -/
theorem C23_signal_iff_not_above (m : Manager) (R : RequestId) (r : Request) (task : Task)
    (b t x : Int) (hroute : FindRequest m task.URL = some R) (hr : m.Requests R = some r) :
    ((OnTask_DidWriteData m (some task) b t x).2 = true ↔ t ≤ r.DownloadProgress) ∧
    (r.DownloadProgress < t → (OnTask_DidWriteData m (some task) b t x).2 = false) ∧
    (∀ task1 : Task, FindRequest m task1.URL = none →
      (OnTask_DidWriteData m (some task1) b t x).2 = false) ∧
    (OnTask_DidWriteData m none b t x).2 = false := by
  rw [didWriteData_routed m R r task b t x hroute hr]
  refine ⟨?_, ?_, ?_, rfl⟩
  · dsimp only
    split_ifs with h
    · simp; omega
    · simp; omega
  · intro h
    simp [h]
  · intro task1 h1
    unfold OnTask_DidWriteData
    simp only [h1]

/-- C23 (amended) at a concrete input: with 100 bytes recorded for request 1, a
report of 150 does not reach the `ensure` and a report of 40 does. -/
theorem C23_signal_iff_not_above_witness :
    (OnTask_DidWriteData exDownloading (some ⟨9, "A", TaskState.Running⟩) 50 150 1000).2 = false ∧
    (OnTask_DidWriteData exDownloading (some ⟨9, "A", TaskState.Running⟩) 40 40 1000).2 = true :=
  ⟨(C23_signal_iff_not_above exDownloading 1
      { Request.fresh ["A", "B", "C"] with
        FirstTask := some ⟨9, "A", TaskState.Suspended⟩, DownloadProgress := 100 }
      ⟨9, "A", TaskState.Running⟩ 50 150 1000 (by decide) (by decide)).2.1 (by decide),
   (C23_signal_iff_not_above exDownloading 1
      { Request.fresh ["A", "B", "C"] with
        FirstTask := some ⟨9, "A", TaskState.Suspended⟩, DownloadProgress := 100 }
      ⟨9, "A", TaskState.Running⟩ 40 40 1000 (by decide) (by decide)).1.mpr (by decide)⟩

/-! ## The last block of `RetryRequest` -/

section RetryBlocks

/-- Effect of `RetryRequest` in terms of its blocks. -/
theorem retryRequest_blocks (P : Platform) (m : Manager) (R : RequestId) (r : Request)
    (inc imm : Bool) (d : NSData) (hr : m.Requests R = some r) :
    RetryRequest P m R inc imm d =
      RetryFinish (RetryNewTask P m R inc d).1 R imm (RetryNewTask P m R inc d).2 := by
  unfold RetryRequest RetryNewTask
  simp only [hr]

/-- The first two blocks only touch request objects and ask the provider for tasks. -/
theorem stable_RetryNewTask (P : Platform) (m : Manager) (R : RequestId) (inc : Bool)
    (d : NSData) : Stable m (RetryNewTask P m R inc d).1 := by
  unfold RetryNewTask
  dsimp only
  cases (RetryFromResumeData P m R d).2 with
  | some t => exact stable_RetryFromResumeData P m R d
  | none =>
    exact Stable.andThen (stable_RetryFromResumeData P m R d) (stable_RetryFromNextURL P _ R inc)

/-- The last block with a new task, on a live request. -/
theorem retryFinish_some (m : Manager) (R : RequestId) (q : Request) (imm : Bool) (t : Task)
    (hq : m.Requests R = some q) :
    (RetryFinish m R imm (some t)).Requests R = some { q with
      FirstTask := some (if (m.bIsInBackground || imm) = true then t.resume else t)
      bWasTaskStartedInBG := m.bIsInBackground } ∧
    (RetryFinish m R imm (some t)).Effects = m.Effects ++ Effect.AssociateWithTask R t ::
      (if (m.bIsInBackground || imm) = true then [Effect.ActivateUnderlyingTask R] else []) ∧
    (∀ Q, Q ≠ R → (RetryFinish m R imm (some t)).Requests Q = m.Requests Q) := by
  unfold RetryFinish AssociateWithTask
  simp only [hq]
  cases hb : (m.bIsInBackground || imm) <;>
    simp [emit, setRequest, ActivateUnderlyingTask, hb] <;>
    intro Q hQ <;> simp [hQ]

/-- Outgoing calls of the first two blocks: requests to the provider only. -/
theorem retryNewTask_calls (P : Platform) (m : Manager) (R : RequestId) (inc : Bool)
    (d : NSData) :
    ∃ l, (RetryNewTask P m R inc d).1.Effects = m.Effects ++ l ∧
      ∀ e ∈ l, (∃ x, e = Effect.downloadTaskWithResumeData x) ∨
        (∃ u, e = Effect.downloadTaskWithURL u) := by
  have hfirst : ∃ l, (RetryFromResumeData P m R d).1.Effects = m.Effects ++ l ∧
      ∀ e ∈ l, (∃ x, e = Effect.downloadTaskWithResumeData x) ∨
        (∃ u, e = Effect.downloadTaskWithURL u) := by
    cases hr : m.Requests R with
    | none =>
      refine ⟨[], ?_, by simp⟩
      unfold RetryFromResumeData ShouldUseRequestRetryData
      simp [hr]
    | some r =>
      obtain ⟨c, _, h | h⟩ := retryFromResumeData_state P m R r d hr
      · exact ⟨[], by simp [h], by simp⟩
      · exact ⟨_, h, by simp⟩
  have hsecond : ∀ n : Manager, ∃ l, (RetryFromNextURL P n R inc).1.Effects = n.Effects ++ l ∧
      ∀ e ∈ l, (∃ x, e = Effect.downloadTaskWithResumeData x) ∨
        (∃ u, e = Effect.downloadTaskWithURL u) := by
    intro n
    have hg : ∀ n1 : Manager, (GetURLForRetry n1 R inc).1.Effects = n1.Effects := by
      intro n1
      unfold GetURLForRetry
      cases n1.Requests R <;> rfl
    have hm1 : (match n.Requests R with
        | some r => setRequest n R { r with ResumeDataRetryCount := 0 }
        | none => n).Effects = n.Effects := by
      cases n.Requests R <;> rfl
    unfold RetryFromNextURL
    dsimp only
    split_ifs
    · refine ⟨[Effect.downloadTaskWithURL (GetURLForRetry (match n.Requests R with
          | some r => setRequest n R { r with ResumeDataRetryCount := 0 }
          | none => n) R inc).2], ?_, ?_⟩
      · simp only [emit]
        rw [hg, hm1]
      · intro e he
        right
        exact ⟨_, List.mem_singleton.mp he⟩
    · exact ⟨[], by rw [hg, hm1]; simp, by simp⟩
  unfold RetryNewTask
  dsimp only
  cases (RetryFromResumeData P m R d).2 with
  | some t => exact hfirst
  | none =>
    obtain ⟨l1, h1, g1⟩ := hfirst
    obtain ⟨l2, h2, g2⟩ := hsecond (RetryFromResumeData P m R d).1
    refine ⟨l1 ++ l2, by rw [h2, h1, List.append_assoc], ?_⟩
    intro e he
    rcases List.mem_append.mp he with h | h
    · exact g1 e h
    · exact g2 e h

end RetryBlocks

/-! ## C24: what `RetryRequest` does with a new task -/

/-- C24: whenever the first two blocks of `RetryRequest` on a live request end
with a new task, the last block associates the task with the request, activates
it in the same call if and only if the manager is in the background or
`bShouldStartImmediately` is true, and sets `bWasTaskStartedInBG` of the request
to the value of `bIsInBackground`, whatever `bShouldStartImmediately` is; these
are its only outgoing calls, and no other request is touched by it. -/
theorem C24_new_task_is_associated (P : Platform) (m : Manager) (R : RequestId) (r : Request)
    (inc imm : Bool) (d : NSData) (t : Task) (hr : m.Requests R = some r)
    (ht : (RetryNewTask P m R inc d).2 = some t) :
    (RetryRequest P m R inc imm d).Effects =
      (RetryNewTask P m R inc d).1.Effects ++ Effect.AssociateWithTask R t ::
        (if (m.bIsInBackground || imm) = true then [Effect.ActivateUnderlyingTask R] else []) ∧
    (∃ q, (RetryNewTask P m R inc d).1.Requests R = some q ∧
      (RetryRequest P m R inc imm d).Requests R = some { q with
        FirstTask := some (if (m.bIsInBackground || imm) = true then t.resume else t)
        bWasTaskStartedInBG := m.bIsInBackground }) ∧
    ((RetryRequest P m R inc imm d).Requests R).map Request.bWasTaskStartedInBG =
      some m.bIsInBackground ∧
    (ActivateCount R (RetryRequest P m R inc imm d).Effects =
      ActivateCount R m.Effects + (if m.bIsInBackground = true ∨ imm = true then 1 else 0)) ∧
    (RetryRequest P m R inc imm d).bIsInBackground = m.bIsInBackground := by
  have hst := stable_RetryNewTask P m R inc d
  have hbg : (RetryNewTask P m R inc d).1.bIsInBackground = m.bIsInBackground := hst.2.2.2.2.1
  have hsome : ((RetryNewTask P m R inc d).1.Requests R).isSome = true := by
    rw [hst.isSome R, hr]; rfl
  obtain ⟨q, hq⟩ := Option.isSome_iff_exists.mp hsome
  obtain ⟨h1, h2, _⟩ := retryFinish_some (RetryNewTask P m R inc d).1 R q imm t hq
  rw [hbg] at h1 h2
  rw [retryRequest_blocks P m R r inc imm d hr, ht]
  refine ⟨h2, ⟨q, hq, h1⟩, by rw [h1]; rfl, ?_, ?_⟩
  · obtain ⟨l, hl, hall⟩ := retryNewTask_calls P m R inc d
    have hl0 : l.count (Effect.ActivateUnderlyingTask R) = 0 := by
      rw [List.count_eq_zero]
      intro hmem
      rcases hall _ hmem with ⟨x, hx⟩ | ⟨u, hu⟩
      · simp at hx
      · simp at hu
    rw [h2, hl]
    unfold ActivateCount
    cases hb : m.bIsInBackground <;> cases hi : imm <;>
      simp [List.count_cons, List.count_append, hl0]
  · have := (stable_RetryFinish (RetryNewTask P m R inc d).1 R imm (some t)).2.2.2.2.1
    rw [this, hbg]

/-- C24 at a concrete input: the first task of request 1, created by the
submission in the foreground without immediate start, is associated and not
activated; the task created after an error is associated and activated; neither
is marked as started in the background. -/
theorem C24_new_task_is_associated_witness :
    (RetryRequest (exPlatform 0) (Manager.init exHeap) 1 false false none).Effects =
      [Effect.downloadTaskWithURL "A", Effect.AssociateWithTask 1 ⟨9, "A", TaskState.Suspended⟩] ∧
    ActivateCount 1 (RetryRequest (exPlatform 0) exStarted 1 true true none).Effects =
      ActivateCount 1 exStarted.Effects + 1 ∧
    ((RetryRequest (exPlatform 0) exStarted 1 true true none).Requests 1).map
      Request.bWasTaskStartedInBG = some false :=
  ⟨(C24_new_task_is_associated (exPlatform 0) (Manager.init exHeap) 1
      (Request.fresh ["A", "B", "C"]) false false none ⟨9, "A", TaskState.Suspended⟩
      (by decide) (by decide)).1,
   (C24_new_task_is_associated (exPlatform 0) exStarted 1
      { Request.fresh ["A", "B", "C"] with FirstTask := some ⟨9, "A", TaskState.Suspended⟩ }
      true true none ⟨9, "B", TaskState.Suspended⟩ (by decide) (by decide)).2.2.2.1,
   (C24_new_task_is_associated (exPlatform 0) exStarted 1
      { Request.fresh ["A", "B", "C"] with FirstTask := some ⟨9, "A", TaskState.Suspended⟩ }
      true true none ⟨9, "B", TaskState.Suspended⟩ (by decide) (by decide)).2.2.1⟩

/-! ## C25: a task adopted from the pool of unassociated tasks -/

/-- C25 (the code at the failing input): request 1 is submitted while the pool
holds a running task on its URL A. The request adopts the task
(`CheckForExistingUnAssociatedTask` returns true, the task is suspended and the
request is marked as started in the background), but the loop is left before
`removeObjectForKey`: the task is still in the pool, and the next
`TickUnassociatedTasks`, with no active task counted, resumes the task that the
request owns. -/
theorem C25_adopted_task_stays_in_the_pool :
    (CheckForExistingUnAssociatedTask exAdoptable 1).2 = true ∧
    ((CheckForExistingUnAssociatedTask exAdoptable 1).1.Requests 1).map
      (fun r => (r.FirstTask, r.bWasTaskStartedInBG)) =
        some (some ⟨9, "A", TaskState.Suspended⟩, true) ∧
    (CheckForExistingUnAssociatedTask exAdoptable 1).1.UnAssociatedTasks =
      [("A", ⟨9, "A", TaskState.Suspended⟩)] ∧
    (AddRequest (exPlatform 0) exAdoptable 1).ActiveRequests = [1] ∧
    (AddRequest (exPlatform 0) exAdoptable 1).UnAssociatedTasks =
      [("A", ⟨9, "A", TaskState.Suspended⟩)] ∧
    (AddRequest (exPlatform 0) exAdoptable 1).NumCurrentlyActiveTasks = 0 ∧
    (TickUnassociatedTasks (AddRequest (exPlatform 0) exAdoptable 1)).Effects =
      (AddRequest (exPlatform 0) exAdoptable 1).Effects ++
        [Effect.resume ⟨9, "A", TaskState.Suspended⟩] := by
  decide

/-! ## C27: completions delivered on a routing conflict -/

/-- C27 (the code at the failing input): request 1 is registered under A, B and
C; request 2 asks for A and B. `GenerateURLMapEntriesForRequest` fails and
completes request 2 once for each of its two conflicting URLs, so the rejected
submission delivers two Unknown responses to request 2. -/
theorem C27_one_completion_per_conflicting_url :
    (GenerateURLMapEntriesForRequest
      (AddRequest (exPlatform 0) (Manager.init exHeapDuplicate) 1) 2).2 = false ∧
    DeliveredResponses 2 (GenerateURLMapEntriesForRequest
      (AddRequest (exPlatform 0) (Manager.init exHeapDuplicate) 1) 2).1.Effects =
        [UnknownResponse, UnknownResponse] ∧
    DeliveredResponses 2 (applyEvents (exPlatform 0) (Manager.init exHeapDuplicate)
      [Event.AddRequest 1, Event.AddRequest 2]).Effects = [UnknownResponse, UnknownResponse] ∧
    (applyEvents (exPlatform 0) (Manager.init exHeapDuplicate)
      [Event.AddRequest 1, Event.AddRequest 2]).ActiveRequests = [1] := by
  decide

/-! ## C29: a finished download without its temp file -/

/-- C29 (the code at the failing input): the task of request 1 on URL A reports
a finished download, the temp file does not exist and there is no error object.
The callback forwards to the error callback, which only handles a non-null
error: nothing is retried, no call goes out and the request is left as it was,
whereas a retry of request 1 asks the provider for a new task. -/
theorem C29_no_retry_without_an_error :
    FindRequest exStarted "A" = some 1 ∧
    (exPlatform 0).FileExists "tmp/download" = false ∧
    OnTask_DidFinishDownloadingToURL (exPlatform 0) exStarted
      (some ⟨9, "A", TaskState.Completed⟩) none "tmp/download" = exStarted ∧
    (RetryRequest (exPlatform 0) exStarted 1 true true none).Effects =
      exStarted.Effects ++ [Effect.downloadTaskWithURL "B",
        Effect.AssociateWithTask 1 ⟨9, "B", TaskState.Suspended⟩,
        Effect.ActivateUnderlyingTask 1] ∧
    (OnTask_DidFinishDownloadingToURL (exPlatform 0) exStarted
      (some ⟨9, "A", TaskState.Completed⟩) none "tmp/download").Effects = exStarted.Effects :=
  ⟨by decide, rfl, rfl, by decide, by decide⟩

/-! ## C30: keys left behind by `RemoveURLMapEntriesForRequest` -/

/-- C30 (the code at the failing inputs): `RemoveURLMapEntriesForRequest` looks
every URL up with `FindOrAdd`. For request 1, not registered at all, the key A
is absent before the call and present with a null owner after it. For request
5, registered under A and naming A twice, the first round removes the key and
the second adds it again with a null owner. For request 2, rejected for its
conflict on B and removed afterwards, the key X is left with a null owner. -/
theorem C30_removal_adds_null_keys :
    (Manager.init exHeap).URLToRequestMap "A" = none ∧
    (RemoveURLMapEntriesForRequest (Manager.init exHeap) 1).URLToRequestMap "A" = some none ∧
    (GenerateURLMapEntriesForRequest (Manager.init exHeapRepeated) 5).1.URLToRequestMap "A" =
      some (some 5) ∧
    (RemoveURLMapEntriesForRequest
      (GenerateURLMapEntriesForRequest (Manager.init exHeapRepeated) 5).1 5).URLToRequestMap "A" =
      some none ∧
    exRegistered.URLToRequestMap "X" = none ∧
    (applyEvents (exPlatform 0) exRegistered
      [Event.AddRequest 2, Event.RemoveRequest 2]).URLToRequestMap "X" = some none := by
  decide

/-! ## C28: the counter and the activations of the handler of `TickTasks` -/

section Activations

theorem activateCalls_append (l1 l2 : List Effect) :
    ActivateCalls (l1 ++ l2) = ActivateCalls l1 + ActivateCalls l2 := by
  unfold ActivateCalls
  exact List.countP_append _ _ _

/-- Activation of the task of a live request: one call, the counter is not touched. -/
theorem activate_live (n : Manager) (Q : RequestId) (h : (n.Requests Q).isSome = true) :
    (ActivateUnderlyingTask n Q).Effects = n.Effects ++ [Effect.ActivateUnderlyingTask Q] ∧
    (ActivateUnderlyingTask n Q).NumCurrentlyActiveTasks = n.NumCurrentlyActiveTasks := by
  obtain ⟨q, hq⟩ := Option.isSome_iff_exists.mp h
  unfold ActivateUnderlyingTask
  simp only [hq]
  exact ⟨rfl, rfl⟩

/-- A list of activations counts as many activations as it is long. -/
theorem activateCalls_all (l : List Effect)
    (h : ∀ e ∈ l, ∃ Q, e = Effect.ActivateUnderlyingTask Q) : ActivateCalls l = l.length := by
  unfold ActivateCalls
  rw [List.countP_eq_length]
  intro e he
  obtain ⟨Q, rfl⟩ := h e he
  rfl

/-- The loop of the handler: its outgoing calls are activations, the counter
grows by their number, and it stays at or below the platform maximum if it was
there. -/
theorem tickTasksLoop_counter (P : Platform) (tasks : List Task) (m : Manager) :
    ∃ l, (TickTasksLoop P m tasks).Effects = m.Effects ++ l ∧
      (∀ e ∈ l, ∃ Q, e = Effect.ActivateUnderlyingTask Q) ∧
      (TickTasksLoop P m tasks).NumCurrentlyActiveTasks =
        m.NumCurrentlyActiveTasks + (l.length : Int) ∧
      (m.NumCurrentlyActiveTasks ≤ P.GetPlatformMaxActiveDownloads →
        (TickTasksLoop P m tasks).NumCurrentlyActiveTasks ≤ P.GetPlatformMaxActiveDownloads) := by
  induction tasks generalizing m with
  | nil => exact ⟨[], by simp [TickTasksLoop], by simp, by simp [TickTasksLoop], fun h => h⟩
  | cons t rest ih =>
    unfold TickTasksLoop
    dsimp only
    cases hF : FindRequest { m with NumCurrentlyActiveTasks := m.NumCurrentlyActiveTasks + 1 }
        t.URL with
    | none =>
      dsimp only
      split_ifs with hs hle hge
      · exact ⟨[], by simp, by simp, by simp, fun h => by simpa using h⟩
      · obtain ⟨l, i0, i1, i2, i3⟩ := ih { m with
          NumCurrentlyActiveTasks := m.NumCurrentlyActiveTasks + 1 - 1 }
        refine ⟨l, i0, i1, ?_, fun h => i3 (by simpa using h)⟩
        rw [i2]
        simp
      · exact ⟨[], by simp, by simp, by simp, fun h => by simpa using h⟩
      · exact ih m
    | some Q =>
      dsimp only
      have hlive := findRequest_alive _ _ _ hF
      obtain ⟨a1, a2⟩ := activate_live
        { m with NumCurrentlyActiveTasks := m.NumCurrentlyActiveTasks + 1 } Q hlive
      split_ifs with hs hle hge
      · refine ⟨[Effect.ActivateUnderlyingTask Q], a1, by simp, ?_, fun _ => ?_⟩
        · rw [a2]
          simp
        · rw [a2]
          exact hle
      · obtain ⟨l, i0, i1, i2, i3⟩ := ih (ActivateUnderlyingTask
          { m with NumCurrentlyActiveTasks := m.NumCurrentlyActiveTasks + 1 } Q)
        rw [a1] at i0
        rw [a2] at i2 i3
        refine ⟨Effect.ActivateUnderlyingTask Q :: l, ?_, ?_, ?_, fun _ => i3 hle⟩
        · rw [i0]
          simp
        · intro e he
          rcases List.mem_cons.mp he with h | h
          · exact ⟨Q, h⟩
          · exact i1 e h
        · rw [i2]
          simp only [List.length_cons]
          push_cast
          ring
      · exact ⟨[], by simp, by simp, by simp, fun h => by simpa using h⟩
      · exact ih m

end Activations

/-- C28: in the completion handler of `TickTasks`, for every enumeration and
every starting state, the outgoing calls are `ActivateUnderlyingTask` calls and
nothing else, and `NumCurrentlyActiveTasks` after the handler minus its value
before is the number of these calls; if the counter was at or below the
platform maximum before the handler, it is at or below it afterwards. -/
theorem C28_counter_accounts_for_activations (P : Platform) (m : Manager) (tasks : List Task) :
    (∃ l, (TickTasksHandler P m tasks).Effects = m.Effects ++ l ∧
      (∀ e ∈ l, ∃ Q, e = Effect.ActivateUnderlyingTask Q) ∧
      (TickTasksHandler P m tasks).NumCurrentlyActiveTasks - m.NumCurrentlyActiveTasks =
        (l.length : Int)) ∧
    ((TickTasksHandler P m tasks).NumCurrentlyActiveTasks - m.NumCurrentlyActiveTasks =
      (ActivateCalls (TickTasksHandler P m tasks).Effects : Int) -
        (ActivateCalls m.Effects : Int)) ∧
    (m.NumCurrentlyActiveTasks ≤ P.GetPlatformMaxActiveDownloads →
      (TickTasksHandler P m tasks).NumCurrentlyActiveTasks ≤
        P.GetPlatformMaxActiveDownloads) := by
  have key : ∃ l, (TickTasksHandler P m tasks).Effects = m.Effects ++ l ∧
      (∀ e ∈ l, ∃ Q, e = Effect.ActivateUnderlyingTask Q) ∧
      (TickTasksHandler P m tasks).NumCurrentlyActiveTasks =
        m.NumCurrentlyActiveTasks + (l.length : Int) ∧
      (m.NumCurrentlyActiveTasks ≤ P.GetPlatformMaxActiveDownloads →
        (TickTasksHandler P m tasks).NumCurrentlyActiveTasks ≤
          P.GetPlatformMaxActiveDownloads) := by
    unfold TickTasksHandler
    dsimp only
    split_ifs
    · exact tickTasksLoop_counter P tasks m
    · exact ⟨[], by simp, by simp, by simp, fun h => h⟩
  obtain ⟨l, h0, h1, h2, h3⟩ := key
  refine ⟨⟨l, h0, h1, by rw [h2]; ring⟩, ?_, h3⟩
  rw [h0, activateCalls_append, activateCalls_all l h1, h2]
  push_cast
  ring

/-- C28 at a concrete input: with room for two downloads and none active, the
handler finds the suspended task of request 1, activates it and counts it. -/
theorem C28_counter_accounts_for_activations_witness :
    (TickTasksHandler (exPlatform 0) exStarted
      [⟨9, "A", TaskState.Suspended⟩, ⟨5, "Z", TaskState.Suspended⟩]).NumCurrentlyActiveTasks -
        exStarted.NumCurrentlyActiveTasks = 1 ∧
    (TickTasksHandler (exPlatform 0) exStarted
      [⟨9, "A", TaskState.Suspended⟩, ⟨5, "Z", TaskState.Suspended⟩]).NumCurrentlyActiveTasks ≤
        (exPlatform 0).GetPlatformMaxActiveDownloads :=
  ⟨by
    rw [(C28_counter_accounts_for_activations (exPlatform 0) exStarted
      [⟨9, "A", TaskState.Suspended⟩, ⟨5, "Z", TaskState.Suspended⟩]).2.1]
    decide,
   (C28_counter_accounts_for_activations (exPlatform 0) exStarted
      [⟨9, "A", TaskState.Suspended⟩, ⟨5, "Z", TaskState.Suspended⟩]).2.2 (by decide)⟩

/-! ## The two retry counters across `RetryRequest` -/

section Counters

end Counters

/-! ## C26: the resume-retry counter after `RetryRequest` -/

end BackgroundHttp
